import Mathlib

/-!
Shallow embedding of the gmail-tasks / icloud-reminders sync engine.

The data model follows src/backend/app/models.py, the store adapters follow
src/backend/app/services/google_tasks.py and
src/backend/app/services/icloud_reminders.py, and the reconciliation logic
follows src/backend/app/services/sync_service.py.

Modelling conventions:
- item ids (Google task ids, EventKit reminder identifiers) are opaque
  non-empty strings in the source; they are modelled as Nat, with each
  store carrying a counter that generates fresh ids on create.  A non-null
  id column is always truthy in Python, so the source check
  `if mapping and mapping.gmail_task_id` is modelled as the mapping being
  present (gmail_task_id is a non-nullable column, set at both creation
  sites).
- datetimes (the `due` fields) are carried as opaque strings; the source
  only moves them around (isoformat round trips), never inspects them.
- exceptions raised by the store adapters (network failures, EventKit save
  failures) are modelled by an environment of failure oracles; a store
  call first records the attempted operation, then either fails or applies
  its effect.  Python try/except blocks become matches on Except.
- the SQLAlchemy session is modelled by explicit state passing; row
  mutation through a queried object becomes an update of the first list
  entry with the matching key (query(...).first()).
-/

namespace GmailICloudSync

/-- Sync direction (app.models.SyncDirection). -/
inductive SyncDirection where
  | gmail_to_icloud
  | icloud_to_gmail
  | bidirectional
deriving DecidableEq, Repr

/-- Sync run status (app.models.SyncStatus). -/
inductive SyncStatus where
  | pending
  | running
  | success
  | failed
deriving DecidableEq, Repr

/-- A Google task as returned by google_tasks.list_tasks: a dict with
optional title/notes/due/status keys.  `none` models an absent key (or a
None value). -/
structure GTask where
  id : Nat
  title : Option String
  notes : Option String
  due : Option String
  status : Option String
deriving DecidableEq, Repr

/-- An iCloud reminder as returned by icloud_reminders.list_reminders: the
summary key is always a string (`ek_reminder.title() or ""`), description
may be None, completed is a bool. -/
structure Rem where
  id : Nat
  summary : String
  description : Option String
  due : Option String
  completed : Bool
deriving DecidableEq, Repr

/-- app.models.TaskMapping.  gmail_task_id is non-nullable,
icloud_reminder_uid is nullable; last_known_completed has column default
False. -/
structure TaskMapping where
  gmail_task_id : Nat
  gmail_task_list_id : String
  icloud_reminder_uid : Option Nat
  icloud_calendar_url : Option String
  title : String
  last_known_completed : Bool
deriving DecidableEq, Repr

/-- app.models.SyncLog.  Timestamps are not modelled; completed_at is
tracked as "has been set". -/
structure SyncLog where
  status : SyncStatus
  direction : SyncDirection
  tasks_synced : Nat
  reminders_synced : Nat
  error_message : Option String
  completed_at : Bool
deriving DecidableEq, Repr

/-- The observable world: both stores, the mapping table, fresh-id
counters for created items, and the settings rows read by run_sync. -/
structure St where
  tasks : List GTask
  rems : List Rem
  mappings : List TaskMapping
  nextTaskId : Nat
  nextRemId : Nat
  settingDirection : Option SyncDirection
  settingTaskList : Option String
  settingCalendar : Option String
deriving DecidableEq, Repr

/-- Failure oracles for the store adapters plus connectivity, standing for
the exceptions the source can raise on each call.  Creates are keyed by
the title/summary argument of the call, updates by the target item id. -/
structure Env where
  googleConnected : Bool
  icloudConnected : Bool
  failCreateReminder : String → Bool
  failUpdateReminder : Nat → Bool
  failCreateTask : String → Bool
  failUpdateTask : Nat → Bool

/-- The partial update dict built in sync_icloud_reminder_to_gmail and
applied by google_tasks.update_task (only non-None fields are applied). -/
structure TaskUpdate where
  title : Option String
  notes : Option String
  due : Option String
  status : Option String
deriving DecidableEq, Repr

/-- One store call, as attempted (recorded before the failure oracle is
consulted). -/
inductive Op where
  | createTask (listId : String) (title : String) (notes : Option String)
      (due : Option String) (status : Option String)
  | updateTask (listId : String) (taskId : Nat) (upd : TaskUpdate)
  | createRem (calendarId : String) (summary : String) (description : String)
      (due : Option String)
  | updateRem (remId : Nat) (summary : Option String)
      (description : Option String) (completed : Option Bool)
      (due : Option String)
deriving DecidableEq, Repr

/-- Python truthiness of an optional string (absent key, None, and "" are
all falsy). -/
def optStrTruthy : Option String → Bool
  | none => false
  | some s => s != ""

/-- `task.get("status") == "completed"`. -/
def taskCompleted (t : GTask) : Bool := t.status == some "completed"

/-- google_tasks.update_task: fetch the task, set every key whose given
value is not None, write it back. -/
def applyTaskUpdate (t : GTask) (u : TaskUpdate) : GTask :=
  { t with
    title := match u.title with | some v => some v | none => t.title
    notes := match u.notes with | some v => some v | none => t.notes
    due := match u.due with | some v => some v | none => t.due
    status := match u.status with | some v => some v | none => t.status }

/-- icloud_reminders.update_reminder: each non-None argument is applied to
the stored reminder. -/
def applyRemUpdate (r : Rem) (summary description : Option String)
    (completed : Option Bool) (due : Option String) : Rem :=
  { r with
    summary := match summary with | some v => v | none => r.summary
    description := match description with | some v => some v | none => r.description
    completed := match completed with | some v => v | none => r.completed
    due := match due with | some v => some v | none => r.due }

/-- google_tasks.create_task: body holds title always, notes/due/status
only when truthy; due is serialized with a trailing Z.  Returns the new
task id. -/
def createTaskOp (env : Env) (st : St) (listId title : String)
    (notes due status : Option String) :
    Except String Nat × St × List Op :=
  let op := Op.createTask listId title notes due status
  if env.failCreateTask title then (Except.error "create task failed", st, [op])
  else
    let tid := st.nextTaskId
    let t : GTask := {
      id := tid
      title := some title
      notes := if optStrTruthy notes then notes else none
      due := due.map (fun s => s ++ "Z")
      status := if optStrTruthy status then status else none }
    (Except.ok tid,
      { st with tasks := st.tasks ++ [t], nextTaskId := tid + 1 }, [op])

/-- google_tasks.update_task: raises if the task is missing, otherwise
patches the non-None fields. -/
def updateTaskOp (env : Env) (st : St) (listId : String) (taskId : Nat)
    (u : TaskUpdate) : Except String Unit × St × List Op :=
  let op := Op.updateTask listId taskId u
  if !(st.tasks.any (fun t => t.id == taskId)) then
    (Except.error "task not found", st, [op])
  else
    if env.failUpdateTask taskId then (Except.error "update task failed", st, [op])
    else
      (Except.ok (),
        { st with tasks := (st.tasks.map
            (fun t => if t.id == taskId then applyTaskUpdate t u else t)) },
        [op])

/-- icloud_reminders.create_reminder: sets title always, notes only when
the description is truthy, due when given; completion is never set, so a
new reminder is uncompleted.  Returns the new reminder id. -/
def createReminderOp (env : Env) (st : St) (calendarId summary : String)
    (description : String) (due : Option String) :
    Except String Nat × St × List Op :=
  let op := Op.createRem calendarId summary description due
  if env.failCreateReminder summary then
    (Except.error "create reminder failed", st, [op])
  else
    let rid := st.nextRemId
    let r : Rem := {
      id := rid
      summary := summary
      description := if description != "" then some description else none
      due := due
      completed := false }
    (Except.ok rid,
      { st with rems := st.rems ++ [r], nextRemId := rid + 1 }, [op])

/-- icloud_reminders.update_reminder: raises if the reminder is missing,
otherwise applies the non-None arguments. -/
def updateReminderOp (env : Env) (st : St) (remId : Nat)
    (summary description : Option String) (completed : Option Bool)
    (due : Option String) : Except String Unit × St × List Op :=
  let op := Op.updateRem remId summary description completed due
  if !(st.rems.any (fun r => r.id == remId)) then
    (Except.error "reminder not found", st, [op])
  else
    if env.failUpdateReminder remId then
      (Except.error "update reminder failed", st, [op])
    else
      (Except.ok (),
        { st with rems := (st.rems.map
            (fun r => if r.id == remId then
                applyRemUpdate r summary description completed due
              else r)) },
        [op])

/-- Mutation of the first mapping row matching a gmail task id, the model
of `db.query(TaskMapping).filter(gmail_task_id == ...).first()` followed
by attribute assignment and commit. -/
def updateFirstByGid (ms : List TaskMapping) (gid : Nat)
    (f : TaskMapping → TaskMapping) : List TaskMapping :=
  match ms with
  | [] => []
  | m :: rest =>
    if m.gmail_task_id == gid then f m :: rest
    else m :: updateFirstByGid rest gid f

/-- sync_service.sync_gmail_task_to_icloud.  Returns the gmail_task_id
keying the touched mapping row (the source returns the row itself), or
none when the create path failed. -/
def sync_gmail_task_to_icloud (env : Env) (st : St) (task : GTask)
    (task_list_id calendar_id : String) : Option Nat × St × List Op :=
  let mapping? := st.mappings.find? (fun m => m.gmail_task_id == task.id)
  let title := task.title.getD "Untitled Task"
  let notes := task.notes.getD ""
  let due := task.due
  let is_completed := taskCompleted task
  let hasUid := match mapping? with
    | some m => m.icloud_reminder_uid.isSome
    | none => false
  if hasUid then
    -- update existing reminder; a failure is caught and the mapping is
    -- still returned
    let uid := (mapping?.bind (fun m => m.icloud_reminder_uid)).getD 0
    match updateReminderOp env st uid (some title) (some notes)
        (some is_completed) due with
    | (Except.ok _, st1, ops) =>
      (some task.id,
        { st1 with mappings := (updateFirstByGid st1.mappings task.id
            (fun mm => { mm with title := title })) }, ops)
    | (Except.error _, st1, ops) => (some task.id, st1, ops)
  else
    -- create new reminder; a failure is caught and None is returned
    match createReminderOp env st calendar_id title notes due with
    | (Except.ok rid, st1, ops) =>
      match mapping? with
      | some _ =>
        (some task.id,
          { st1 with mappings := (updateFirstByGid st1.mappings task.id
              (fun mm => { mm with
                icloud_reminder_uid := some rid
                icloud_calendar_url := some calendar_id
                title := title })) }, ops)
      | none =>
        (some task.id,
          { st1 with mappings := st1.mappings ++ [{
              gmail_task_id := task.id
              gmail_task_list_id := task_list_id
              icloud_reminder_uid := some rid
              icloud_calendar_url := some calendar_id
              title := title
              last_known_completed := false }] }, ops)
    | (Except.error _, st1, ops) => (none, st1, ops)

/-- sync_service.sync_icloud_reminder_to_gmail.  Returns the
gmail_task_id keying the touched mapping row, or none when the create
path failed. -/
def sync_icloud_reminder_to_gmail (env : Env) (st : St) (reminder : Rem)
    (calendar_id task_list_id : String) : Option Nat × St × List Op :=
  let mapping? := st.mappings.find?
    (fun m => m.icloud_reminder_uid == some reminder.id)
  let title := reminder.summary
  let notes := reminder.description
  let due := reminder.due
  let is_completed := reminder.completed
  match mapping? with
  | some m =>
    -- gmail_task_id is a non-nullable, non-empty string column, so
    -- `if mapping and mapping.gmail_task_id` reduces to the row existing
    let upd : TaskUpdate := {
      title := some title
      notes := if optStrTruthy notes then notes else none
      due := match due with | some d => some (d ++ "Z") | none => none
      status := some (if is_completed then "completed" else "needsAction") }
    match updateTaskOp env st m.gmail_task_list_id m.gmail_task_id upd with
    | (Except.ok _, st1, ops) =>
      (some m.gmail_task_id,
        { st1 with mappings := (updateFirstByGid st1.mappings m.gmail_task_id
            (fun mm => { mm with title := title })) }, ops)
    | (Except.error _, st1, ops) => (some m.gmail_task_id, st1, ops)
  | none =>
    match createTaskOp env st task_list_id title notes due
        (some (if is_completed then "completed" else "needsAction")) with
    | (Except.ok tid, st1, ops) =>
      (some tid,
        { st1 with mappings := st1.mappings ++ [{
            gmail_task_id := tid
            gmail_task_list_id := task_list_id
            icloud_reminder_uid := some reminder.id
            icloud_calendar_url := some calendar_id
            title := title
            last_known_completed := false }] }, ops)
    | (Except.error _, st1, ops) => (none, st1, ops)

/-- `{t["id"]: t for t in tasks if t.get("title")}` -/
def gmailFiltered (st : St) : List GTask :=
  st.tasks.filter (fun t => optStrTruthy t.title)

/-- `{r["id"]: r for r in reminders if r.get("summary")}` -/
def icloudFiltered (st : St) : List Rem :=
  st.rems.filter (fun r => r.summary != "")

/-- `gmail_tasks_map.get(mapping.gmail_task_id)` -/
def gmailMapGet (gtasks : List GTask) (tid : Nat) : Option GTask :=
  gtasks.find? (fun t => t.id == tid)

/-- `icloud_reminders_map.get(mapping.icloud_reminder_uid)`; a None key
finds nothing. -/
def icloudMapGet (irems : List Rem) (uid? : Option Nat) : Option Rem :=
  match uid? with
  | some uid => irems.find? (fun r => r.id == uid)
  | none => none

/-- The completion if/elif chain of Phase A (lines 230-259): classify
which side changed against the baseline and push accordingly; these
pushes are not wrapped in try/except, so a failure is returned as an
uncaught error and the baseline of the failing row is not assigned. -/
def completionStep (env : Env) (m : TaskMapping) (uid : Nat)
    (gmail_completed icloud_completed : Bool) (st : St) :
    TaskMapping × St × List Op × Option String :=
  let last_known := m.last_known_completed
  let gmail_changed := gmail_completed != last_known
  let icloud_changed := icloud_completed != last_known
  if gmail_changed && !icloud_changed then
    match updateReminderOp env st uid none none (some gmail_completed) none with
    | (Except.ok _, st1, ops1) =>
      ({ m with last_known_completed := gmail_completed }, st1, ops1, none)
    | (Except.error e, st1, ops1) => (m, st1, ops1, some e)
  else if icloud_changed && !gmail_changed then
    match updateTaskOp env st m.gmail_task_list_id m.gmail_task_id
        { title := none, notes := none, due := none
          status := some (if icloud_completed then "completed" else "needsAction") } with
    | (Except.ok _, st1, ops1) =>
      ({ m with last_known_completed := icloud_completed }, st1, ops1, none)
    | (Except.error e, st1, ops1) => (m, st1, ops1, some e)
  else if gmail_changed && icloud_changed then
    let final_state := gmail_completed || icloud_completed
    let step1 : Except String Unit × St × List Op :=
      if gmail_completed != final_state then
        updateTaskOp env st m.gmail_task_list_id m.gmail_task_id
          { title := none, notes := none, due := none
            status := some (if final_state then "completed" else "needsAction") }
      else (Except.ok (), st, [])
    match step1 with
    | (Except.error e, st1, ops1) => (m, st1, ops1, some e)
    | (Except.ok _, st1, ops1) =>
      let step2 : Except String Unit × St × List Op :=
        if icloud_completed != final_state then
          updateReminderOp env st1 uid none none (some final_state) none
        else (Except.ok (), st1, [])
      match step2 with
      | (Except.error e, st2, ops2) => (m, st2, ops1 ++ ops2, some e)
      | (Except.ok _, st2, ops2) =>
        ({ m with last_known_completed := final_state }, st2,
          ops1 ++ ops2, none)
  else (m, st, [], none)

/-- The body of the Phase A loop of run_sync (lines 221-267): for one
mapping, look up both snapshots, run the completion step, then
unconditionally push title/notes from the task onto the reminder.
Returns the updated row, state, attempted ops, the tasks_synced
increment, and the first uncaught exception. -/
def reconcilePair (env : Env) (gtasks : List GTask) (irems : List Rem)
    (m : TaskMapping) (st : St) :
    TaskMapping × St × List Op × Nat × Option String :=
  match gmailMapGet gtasks m.gmail_task_id,
        icloudMapGet irems m.icloud_reminder_uid with
  | some task, some reminder =>
    let uid := m.icloud_reminder_uid.getD 0
    match completionStep env m uid (taskCompleted task) reminder.completed st with
    | (m1, st1, ops1, some e) => (m1, st1, ops1, 0, some e)
    | (m1, st1, ops1, none) =>
      -- also sync title/notes from Gmail to iCloud (uncaught as well);
      -- the baseline assignment above has already happened when this
      -- push fails
      match updateReminderOp env st1 uid task.title
          (some (task.notes.getD "")) none none with
      | (Except.ok _, st2, ops2) => (m1, st2, ops1 ++ ops2, 1, none)
      | (Except.error e, st2, ops2) => (m1, st2, ops1 ++ ops2, 0, some e)
  | _, _ => (m, st, [], 0, none)

/-- The Phase A loop: process each queried mapping row in order; an
uncaught exception stops the loop, leaving the remaining rows untouched
(already-applied row changes are kept, as the session commit at the end
of run_sync flushes them). -/
def phaseA (env : Env) (gtasks : List GTask) (irems : List Rem) :
    List TaskMapping → St → List TaskMapping × St × List Op × Nat × Option String
  | [], st => ([], st, [], 0, none)
  | m :: rest, st =>
    match reconcilePair env gtasks irems m st with
    | (m1, st1, ops1, c1, none) =>
      match phaseA env gtasks irems rest st1 with
      | (ms2, st2, ops2, c2, err) => (m1 :: ms2, st2, ops1 ++ ops2, c1 + c2, err)
    | (m1, st1, ops1, c1, some e) => (m1 :: rest, st1, ops1, c1, some e)

/-- The loop over gmail tasks calling sync_gmail_task_to_icloud and, on a
non-None result, seeding last_known_completed from the task and counting
it.  With mappedGids = [] this is the gmail_to_icloud direction loop
(lines 292-296); with the pre-run mapped ids it is Phase B's new-task
loop (lines 276-281). -/
def gmailTaskLoop (env : Env) (task_list_id calendar_id : String)
    (mappedGids : List Nat) :
    List GTask → St → St × List Op × Nat
  | [], st => (st, [], 0)
  | task :: rest, st =>
    if mappedGids.contains task.id then
      gmailTaskLoop env task_list_id calendar_id mappedGids rest st
    else
      match sync_gmail_task_to_icloud env st task task_list_id calendar_id with
      | (some gid, st1, ops1) =>
        let st2 := { st1 with mappings := (updateFirstByGid st1.mappings gid
          (fun mm => { mm with last_known_completed := taskCompleted task })) }
        match gmailTaskLoop env task_list_id calendar_id mappedGids rest st2 with
        | (st3, ops2, c) => (st3, ops1 ++ ops2, c + 1)
      | (none, st1, ops1) =>
        match gmailTaskLoop env task_list_id calendar_id mappedGids rest st1 with
        | (st2, ops2, c) => (st2, ops1 ++ ops2, c)

/-- The loop over iCloud reminders calling sync_icloud_reminder_to_gmail
and, on a non-None result, seeding last_known_completed from the reminder
and counting it.  With mappedUids = [] this is the icloud_to_gmail
direction loop (lines 299-303); with the pre-run mapped uids it is Phase
B's new-reminder loop (lines 284-289). -/
def icloudRemLoop (env : Env) (calendar_id task_list_id : String)
    (mappedUids : List Nat) :
    List Rem → St → St × List Op × Nat
  | [], st => (st, [], 0)
  | reminder :: rest, st =>
    if mappedUids.contains reminder.id then
      icloudRemLoop env calendar_id task_list_id mappedUids rest st
    else
      match sync_icloud_reminder_to_gmail env st reminder calendar_id task_list_id with
      | (some gid, st1, ops1) =>
        let st2 := { st1 with mappings := (updateFirstByGid st1.mappings gid
          (fun mm => { mm with last_known_completed := reminder.completed })) }
        match icloudRemLoop env calendar_id task_list_id mappedUids rest st2 with
        | (st3, ops2, c) => (st3, ops1 ++ ops2, c + 1)
      | (none, st1, ops1) =>
        match icloudRemLoop env calendar_id task_list_id mappedUids rest st1 with
        | (st2, ops2, c) => (st2, ops1 ++ ops2, c)

/-- The body of run_sync's try block (lines 193-305): precondition
checks, snapshot maps, and the direction dispatch.  Returns the final
state, the attempted ops, both counters, and the uncaught exception if
one escaped. -/
def run_core (env : Env) (st : St) (direction : SyncDirection)
    (task_list_id : String) (calendar_id? : Option String) :
    St × List Op × Nat × Nat × Option String :=
  if !env.googleConnected then
    (st, [], 0, 0, some "Google Tasks is not connected. Please authenticate first.")
  else if !env.icloudConnected then
    (st, [], 0, 0, some "iCloud is not connected. Please configure credentials first.")
  else if !(optStrTruthy calendar_id?) then
    (st, [], 0, 0, some "iCloud calendar not configured. Please select a reminder list.")
  else
    let calendar_id := calendar_id?.getD ""
    let gtasks :=
      if direction == SyncDirection.gmail_to_icloud
          || direction == SyncDirection.bidirectional then gmailFiltered st
      else []
    let irems :=
      if direction == SyncDirection.icloud_to_gmail
          || direction == SyncDirection.bidirectional then icloudFiltered st
      else []
    match direction with
    | SyncDirection.bidirectional =>
      -- mapped id sets are computed from the mapping rows queried before
      -- Phase A; Phase A only rewrites last_known_completed, so the ids
      -- agree with the pre-run table
      let mappedGids := st.mappings.map (fun m => m.gmail_task_id)
      let mappedUids := st.mappings.filterMap (fun m => m.icloud_reminder_uid)
      match phaseA env gtasks irems st.mappings st with
      | (rows, st1, ops1, c1, some e) =>
        ({ st1 with mappings := rows }, ops1, c1, 0, some e)
      | (rows, st1, ops1, c1, none) =>
        let st2 := { st1 with mappings := rows }
        match gmailTaskLoop env task_list_id calendar_id mappedGids gtasks st2 with
        | (st3, ops2, c2) =>
          match icloudRemLoop env calendar_id task_list_id mappedUids irems st3 with
          | (st4, ops3, c3) =>
            (st4, ops1 ++ ops2 ++ ops3, c1 + c2, c3, none)
    | SyncDirection.gmail_to_icloud =>
      match gmailTaskLoop env task_list_id calendar_id [] gtasks st with
      | (st1, ops1, c1) => (st1, ops1, c1, 0, none)
    | SyncDirection.icloud_to_gmail =>
      match icloudRemLoop env calendar_id task_list_id [] irems st with
      | (st1, ops1, c1) => (st1, ops1, 0, c1, none)

/-- Lines 305-319 of run_sync: the except handler plus the
unconditional finalization of the SyncLog record (status, counts,
error_message, completed_at), run exactly once whatever the core did. -/
def finalizeLog (direction : SyncDirection)
    (res : St × List Op × Nat × Nat × Option String) :
    SyncLog × St × List Op :=
  match res with
  | (st1, ops, tasks_synced, reminders_synced, err?) =>
    ({ status := (match err? with
          | none => SyncStatus.success
          | some _ => SyncStatus.failed),
       direction := direction,
       tasks_synced := tasks_synced,
       reminders_synced := reminders_synced,
       error_message := err?,
       completed_at := true }, st1, ops)

/-- sync_service.run_sync: resolve direction and containers from
settings, create the run record, run the core under the catch-all
handler, and finalize the record exactly once. -/
def run_sync (env : Env) (st : St) (direction? : Option SyncDirection) :
    SyncLog × St × List Op :=
  let direction := match direction? with
    | some d => d
    | none => st.settingDirection.getD SyncDirection.bidirectional
  let task_list_id := st.settingTaskList.getD "@default"
  let calendar_id? := st.settingCalendar
  finalizeLog direction (run_core env st direction task_list_id calendar_id?)

/-- The gmail task ids of the mapping rows, in row order. -/
def gids (ms : List TaskMapping) : List Nat := ms.map (fun m => m.gmail_task_id)

/-- The non-null iCloud reminder uids of the mapping rows, in row order. -/
def uids (ms : List TaskMapping) : List Nat :=
  ms.filterMap (fun m => m.icloud_reminder_uid)

/-- The task ids of the remote store. -/
def taskIds (ts : List GTask) : List Nat := ts.map (fun t => t.id)

/-- The reminder ids of the local store. -/
def remIds (rs : List Rem) : List Nat := rs.map (fun r => r.id)

/-- Is the op a create call on either store? -/
def isCreateOp : Op → Bool
  | Op.createTask _ _ _ _ _ => true
  | Op.createRem _ _ _ _ => true
  | _ => false

/-- Database well-formedness: unique item ids in both stores, the
uniqueness constraints of the task_mappings table (unique gmail_task_id,
unique non-null icloud_reminder_uid), and every stored id below the
fresh-id counter of its store. -/
def St.wf (st : St) : Prop :=
  (taskIds st.tasks).Nodup ∧ (∀ i ∈ taskIds st.tasks, i < st.nextTaskId) ∧
  (remIds st.rems).Nodup ∧ (∀ i ∈ remIds st.rems, i < st.nextRemId) ∧
  (gids st.mappings).Nodup ∧ (∀ i ∈ gids st.mappings, i < st.nextTaskId) ∧
  (uids st.mappings).Nodup ∧ (∀ i ∈ uids st.mappings, i < st.nextRemId)

/-- An environment in which both stores are connected and no store call
fails. -/
def Env.honest (env : Env) : Prop :=
  env.googleConnected = true ∧ env.icloudConnected = true ∧
  (∀ s, env.failCreateReminder s = false) ∧
  (∀ i, env.failUpdateReminder i = false) ∧
  (∀ s, env.failCreateTask s = false) ∧
  (∀ i, env.failUpdateTask i = false)

/-- C6: the three run outcomes of finalizeLog. -/
theorem finalizeLog_closes (direction : SyncDirection)
    (res : St × List Op × Nat × Nat × Option String) :
    ((finalizeLog direction res).1.status = SyncStatus.success ∨
      (finalizeLog direction res).1.status = SyncStatus.failed) ∧
    (finalizeLog direction res).1.completed_at = true := by
  rcases res with ⟨st1, ops, ts, rs, err?⟩
  cases err? <;> simp [finalizeLog]

/-- C6: every invocation of run_sync yields exactly one run record, and
that record is finalized: completed_at is set and the status is success
or failed (never left at running), whether or not an exception escaped
the reconciliation core. -/
theorem run_record_completeness (env : Env) (st : St)
    (direction? : Option SyncDirection) :
    ((run_sync env st direction?).1.status = SyncStatus.success ∨
      (run_sync env st direction?).1.status = SyncStatus.failed) ∧
    (run_sync env st direction?).1.completed_at = true := by
  unfold run_sync
  exact finalizeLog_closes _ _

/-- C7: when a precondition fails (remote store not connected, local
store not connected, or no local container configured) the run fails as
a whole before anything is listed or touched: no store call is made, the
state (mappings included) is unchanged, and the record ends failed with
the first failing check's message. -/
theorem preconditions_abort_run (env : Env) (st : St)
    (direction? : Option SyncDirection)
    (h : ¬(env.googleConnected = true ∧ env.icloudConnected = true ∧
        optStrTruthy st.settingCalendar = true)) :
    (run_sync env st direction?).2.2 = [] ∧
    (run_sync env st direction?).2.1 = st ∧
    (run_sync env st direction?).1.status = SyncStatus.failed ∧
    (run_sync env st direction?).1.error_message =
      (if env.googleConnected = false then
        some "Google Tasks is not connected. Please authenticate first."
      else if env.icloudConnected = false then
        some "iCloud is not connected. Please configure credentials first."
      else
        some "iCloud calendar not configured. Please select a reminder list.") := by
  unfold run_sync run_core
  rcases hg : env.googleConnected with _ | _
  · simp [finalizeLog]
  · rcases hi : env.icloudConnected with _ | _
    · simp [finalizeLog]
    · rcases hc : optStrTruthy st.settingCalendar with _ | _
      · simp [finalizeLog, hc]
      · exact absurd ⟨hg, hi, hc⟩ h

/-- Closed witness for the precondition theorem at a concrete
disconnected environment. -/
def envDisconnected : Env := {
  googleConnected := false
  icloudConnected := true
  failCreateReminder := fun _ => false
  failUpdateReminder := fun _ => false
  failCreateTask := fun _ => false
  failUpdateTask := fun _ => false }

/-- A small concrete state used by several witnesses: one completed
remote task, empty local store, no mappings, calendar configured. -/
def stOneTask : St := {
  tasks := [{ id := 0, title := some "A", notes := some "n", due := none,
              status := some "completed" }]
  rems := []
  mappings := []
  nextTaskId := 1
  nextRemId := 100
  settingDirection := none
  settingTaskList := none
  settingCalendar := some "cal" }

theorem preconditions_abort_run_witness :
    (¬(envDisconnected.googleConnected = true ∧
        envDisconnected.icloudConnected = true ∧
        optStrTruthy stOneTask.settingCalendar = true)) ∧
    (run_sync envDisconnected stOneTask none).2.2 = [] ∧
    (run_sync envDisconnected stOneTask none).2.1 = stOneTask ∧
    (run_sync envDisconnected stOneTask none).1.status = SyncStatus.failed ∧
    (run_sync envDisconnected stOneTask none).1.error_message =
      some "Google Tasks is not connected. Please authenticate first." := by
  refine ⟨by decide, ?_⟩
  have h := preconditions_abort_run envDisconnected stOneTask none (by decide)
  simpa using h

/-- Existence of an id in the local store is stable under an
id-preserving map. -/
theorem any_id_rem_map (l : List Rem) (u : Nat) (f : Rem → Rem)
    (hf : ∀ r, (f r).id = r.id)
    (h : l.any (fun r => r.id == u) = true) :
    (l.map f).any (fun r => r.id == u) = true := by
  simp only [List.any_map]
  have : ((fun r : Rem => r.id == u) ∘ f) = fun r : Rem => r.id == u := by
    funext r; simp [Function.comp, hf]
  rw [this]
  exact h

/-- Reduction of a successful local-store update call. -/
theorem updateReminderOp_ok (env : Env) (st : St) (remId : Nat)
    (s d : Option String) (c : Option Bool) (du : Option String)
    (hex : st.rems.any (fun r => r.id == remId) = true)
    (hf : env.failUpdateReminder remId = false) :
    updateReminderOp env st remId s d c du =
      (Except.ok (), { st with rems := (st.rems.map (fun r =>
          if r.id == remId then applyRemUpdate r s d c du else r)) },
        [Op.updateRem remId s d c du]) := by
  simp only [updateReminderOp, hex, hf]
  simp

/-- Reduction of a successful remote-store update call. -/
theorem updateTaskOp_ok (env : Env) (st : St) (listId : String)
    (taskId : Nat) (u : TaskUpdate)
    (hex : st.tasks.any (fun t => t.id == taskId) = true)
    (hf : env.failUpdateTask taskId = false) :
    updateTaskOp env st listId taskId u =
      (Except.ok (), { st with tasks := (st.tasks.map (fun t =>
          if t.id == taskId then applyTaskUpdate t u else t)) },
        [Op.updateTask listId taskId u]) := by
  simp only [updateTaskOp, hex, hf]
  simp

/-- Spec-side definition, written from the spec's five-case Phase A
table (§4.2): the completion pushes required for remoteCompleted g,
localCompleted i and baseline l — remote-only change pushes g to the
local item; local-only change pushes i to the remote item; both changed
resolves final = g OR i and pushes only to each side not already holding
it; no change pushes nothing. -/
def specCompletionOps (listId : String) (gid uid : Nat) (g i l : Bool) :
    List Op :=
  if g != l && i == l then
    [Op.updateRem uid none none (some g) none]
  else if i != l && g == l then
    [Op.updateTask listId gid
      { title := none, notes := none, due := none
        status := some (if i then "completed" else "needsAction") }]
  else if g != l && i != l then
    (if g != (g || i) then
      [Op.updateTask listId gid
        { title := none, notes := none, due := none
          status := some (if g || i then "completed" else "needsAction") }]
     else []) ++
    (if i != (g || i) then [Op.updateRem uid none none (some (g || i)) none]
     else [])
  else []

/-- Spec-side definition: the resolved final completion value of the
five-case table. -/
def specFinal (g i l : Bool) : Bool :=
  if g != l && i != l then g || i
  else if g != l then g
  else if i != l then i
  else l

/-- C1: for a mapping whose remote task and local reminder are both
present in the snapshots, the Phase A loop body performs exactly the
completion pushes of the spec's five-case table, followed by the
unconditional title/notes push, and sets the row's baseline to the
resolved final value. -/
theorem phaseA_completion_decision (env : Env) (gtasks : List GTask)
    (irems : List Rem) (m : TaskMapping) (st : St) (task : GTask)
    (reminder : Rem) (uid : Nat)
    (huid : m.icloud_reminder_uid = some uid)
    (hmt : gmailMapGet gtasks m.gmail_task_id = some task)
    (hmr : icloudMapGet irems m.icloud_reminder_uid = some reminder)
    (htask : st.tasks.any (fun t => t.id == m.gmail_task_id) = true)
    (hrem : st.rems.any (fun r => r.id == uid) = true)
    (hfr : env.failUpdateReminder uid = false)
    (hft : env.failUpdateTask m.gmail_task_id = false) :
    (reconcilePair env gtasks irems m st).1 =
      { m with last_known_completed :=
          (specFinal (taskCompleted task) reminder.completed
            m.last_known_completed) } ∧
    (reconcilePair env gtasks irems m st).2.2.1 =
      specCompletionOps m.gmail_task_list_id m.gmail_task_id uid
        (taskCompleted task) reminder.completed m.last_known_completed ++
      [Op.updateRem uid task.title (some (task.notes.getD "")) none none] ∧
    (reconcilePair env gtasks irems m st).2.2.2.1 = 1 ∧
    (reconcilePair env gtasks irems m st).2.2.2.2 = none := by
  rw [huid] at hmr
  have hrem1 : ∀ (b : Bool), ((st.rems.map (fun r => if r.id == uid then
      applyRemUpdate r none none (some b) none else r)).any
        (fun r => r.id == uid)) = true := by
    intro b
    refine any_id_rem_map st.rems uid _ ?_ hrem
    intro r; by_cases h : (r.id == uid) = true <;> simp [h, applyRemUpdate]
  have hexT : ((st.rems.map (fun r => if r.id = uid then
      applyRemUpdate r none none (some true) none else r)).any
        (fun r => r.id == uid)) = true := by simpa using hrem1 true
  have hexF : ((st.rems.map (fun r => if r.id = uid then
      applyRemUpdate r none none (some false) none else r)).any
        (fun r => r.id == uid)) = true := by simpa using hrem1 false
  have hokT := updateReminderOp_ok env { st with rems := (st.rems.map (fun r =>
      if r.id = uid then applyRemUpdate r none none (some true) none else r)) }
    uid task.title (some (task.notes.getD "")) none none hexT hfr
  have hokF := updateReminderOp_ok env { st with rems := (st.rems.map (fun r =>
      if r.id = uid then applyRemUpdate r none none (some false) none else r)) }
    uid task.title (some (task.notes.getD "")) none none hexF hfr
  obtain ⟨mgid, mlist, muid, mcal, mtitle, mlkc⟩ := m
  simp only at huid hmt hmr htask hfr hft hrem1 ⊢
  subst huid
  rcases hg : taskCompleted task with _ | _ <;>
    rcases hi : reminder.completed with _ | _ <;>
      rcases hl : mlkc with _ | _ <;>
        refine ⟨?_, ?_, ?_, ?_⟩ <;>
          simp [reconcilePair, completionStep, hmt, hmr, hg, hi,
            updateReminderOp_ok env st uid none none (some true) none hrem hfr,
            updateReminderOp_ok env st uid none none (some false) none hrem hfr,
            hokT, hokF, updateReminderOp_ok, updateTaskOp_ok, htask, hrem,
            hrem1 true, hrem1 false, hfr, hft, specFinal, specCompletionOps]

/-- A fully connected environment in which no store call ever fails. -/
def envH : Env := {
  googleConnected := true
  icloudConnected := true
  failCreateReminder := fun _ => false
  failUpdateReminder := fun _ => false
  failCreateTask := fun _ => false
  failUpdateTask := fun _ => false }

theorem envH_honest : envH.honest :=
  ⟨rfl, rfl, fun _ => rfl, fun _ => rfl, fun _ => rfl, fun _ => rfl⟩

/-- Concrete fixture: a mapped pair whose remote task was completed while
the local reminder stayed at the false baseline. -/
def taskW : GTask :=
  { id := 0, title := some "A", notes := none, due := none,
    status := some "completed" }

def remW : Rem :=
  { id := 5, summary := "A", description := none, due := none,
    completed := false }

def mapW : TaskMapping :=
  { gmail_task_id := 0, gmail_task_list_id := "l",
    icloud_reminder_uid := some 5, icloud_calendar_url := some "cal",
    title := "A", last_known_completed := false }

def stW : St :=
  { tasks := [taskW], rems := [remW], mappings := [mapW],
    nextTaskId := 1, nextRemId := 6, settingDirection := none,
    settingTaskList := none, settingCalendar := some "cal" }

theorem phaseA_completion_decision_witness :
    mapW.icloud_reminder_uid = some 5 ∧
    gmailMapGet [taskW] mapW.gmail_task_id = some taskW ∧
    icloudMapGet [remW] mapW.icloud_reminder_uid = some remW ∧
    stW.tasks.any (fun t => t.id == mapW.gmail_task_id) = true ∧
    stW.rems.any (fun r => r.id == 5) = true ∧
    envH.failUpdateReminder 5 = false ∧
    envH.failUpdateTask mapW.gmail_task_id = false ∧
    ((reconcilePair envH [taskW] [remW] mapW stW).1 =
      { mapW with last_known_completed :=
          (specFinal (taskCompleted taskW) remW.completed
            mapW.last_known_completed) } ∧
    (reconcilePair envH [taskW] [remW] mapW stW).2.2.1 =
      specCompletionOps mapW.gmail_task_list_id mapW.gmail_task_id 5
        (taskCompleted taskW) remW.completed mapW.last_known_completed ++
      [Op.updateRem 5 taskW.title (some (taskW.notes.getD "")) none none] ∧
    (reconcilePair envH [taskW] [remW] mapW stW).2.2.2.1 = 1 ∧
    (reconcilePair envH [taskW] [remW] mapW stW).2.2.2.2 = none) :=
  ⟨rfl, by decide, by decide, by decide, by decide, rfl, rfl,
    phaseA_completion_decision envH [taskW] [remW] mapW stW taskW remW 5
      rfl (by decide) (by decide) (by decide) (by decide) rfl rfl⟩

theorem applyRemUpdate_id (r : Rem) (s d : Option String) (c : Option Bool)
    (du : Option String) : (applyRemUpdate r s d c du).id = r.id := rfl

theorem applyTaskUpdate_id (t : GTask) (u : TaskUpdate) :
    (applyTaskUpdate t u).id = t.id := rfl

theorem applyTaskUpdate_title (t : GTask) (u : TaskUpdate) (h : u.title = none) :
    (applyTaskUpdate t u).title = t.title := by
  simp [applyTaskUpdate, h]

/-- Everything a local-store update leaves untouched, in every outcome:
only the rems list can change, and only without changing ids; the
attempted op is always recorded. -/
theorem updateReminderOp_parts (env : Env) (st : St) (remId : Nat)
    (s d : Option String) (c : Option Bool) (du : Option String) :
    (updateReminderOp env st remId s d c du).2.1.tasks = st.tasks ∧
    (updateReminderOp env st remId s d c du).2.1.mappings = st.mappings ∧
    (updateReminderOp env st remId s d c du).2.1.nextTaskId = st.nextTaskId ∧
    (updateReminderOp env st remId s d c du).2.1.nextRemId = st.nextRemId ∧
    (updateReminderOp env st remId s d c du).2.1.settingDirection = st.settingDirection ∧
    (updateReminderOp env st remId s d c du).2.1.settingTaskList = st.settingTaskList ∧
    (updateReminderOp env st remId s d c du).2.1.settingCalendar = st.settingCalendar ∧
    remIds (updateReminderOp env st remId s d c du).2.1.rems = remIds st.rems ∧
    (updateReminderOp env st remId s d c du).2.2 = [Op.updateRem remId s d c du] := by
  unfold updateReminderOp
  split
  · exact ⟨rfl, rfl, rfl, rfl, rfl, rfl, rfl, rfl, rfl⟩
  · split
    · exact ⟨rfl, rfl, rfl, rfl, rfl, rfl, rfl, rfl, rfl⟩
    · refine ⟨rfl, rfl, rfl, rfl, rfl, rfl, rfl, ?_, rfl⟩
      simp only [remIds, List.map_map]
      apply List.map_congr_left
      intro r _
      simp only [Function.comp]
      split <;> rfl

/-- Everything a remote-store update leaves untouched, in every outcome. -/
theorem updateTaskOp_parts (env : Env) (st : St) (listId : String)
    (taskId : Nat) (u : TaskUpdate) :
    (updateTaskOp env st listId taskId u).2.1.rems = st.rems ∧
    (updateTaskOp env st listId taskId u).2.1.mappings = st.mappings ∧
    (updateTaskOp env st listId taskId u).2.1.nextTaskId = st.nextTaskId ∧
    (updateTaskOp env st listId taskId u).2.1.nextRemId = st.nextRemId ∧
    (updateTaskOp env st listId taskId u).2.1.settingDirection = st.settingDirection ∧
    (updateTaskOp env st listId taskId u).2.1.settingTaskList = st.settingTaskList ∧
    (updateTaskOp env st listId taskId u).2.1.settingCalendar = st.settingCalendar ∧
    taskIds (updateTaskOp env st listId taskId u).2.1.tasks = taskIds st.tasks ∧
    (updateTaskOp env st listId taskId u).2.2 = [Op.updateTask listId taskId u] := by
  unfold updateTaskOp
  split
  · exact ⟨rfl, rfl, rfl, rfl, rfl, rfl, rfl, rfl, rfl⟩
  · split
    · exact ⟨rfl, rfl, rfl, rfl, rfl, rfl, rfl, rfl, rfl⟩
    · refine ⟨rfl, rfl, rfl, rfl, rfl, rfl, rfl, ?_, rfl⟩
      simp only [taskIds, List.map_map]
      apply List.map_congr_left
      intro t _
      simp only [Function.comp]
      split <;> rfl

/-- updateFirstByGid keeps the gmail ids when the row function does. -/
theorem gids_updateFirstByGid (ms : List TaskMapping) (gid : Nat)
    (f : TaskMapping → TaskMapping)
    (hf : ∀ m, (f m).gmail_task_id = m.gmail_task_id) :
    gids (updateFirstByGid ms gid f) = gids ms := by
  induction ms with
  | nil => rfl
  | cons a ms ih =>
    unfold updateFirstByGid
    split
    · simp [gids, hf]
    · simp only [gids, List.map_cons] at ih ⊢
      rw [ih]

/-- updateFirstByGid keeps the reminder uids when the row function does. -/
theorem uids_updateFirstByGid (ms : List TaskMapping) (gid : Nat)
    (f : TaskMapping → TaskMapping)
    (hf : ∀ m, (f m).icloud_reminder_uid = m.icloud_reminder_uid) :
    uids (updateFirstByGid ms gid f) = uids ms := by
  induction ms with
  | nil => rfl
  | cons a ms ih =>
    unfold updateFirstByGid
    split
    · simp [uids, List.filterMap_cons, hf]
    · simp only [uids] at ih
      simp [uids, List.filterMap_cons, ih]

/-- C9, skip half: a mapping whose remote task or local reminder is
absent from the current snapshot maps is skipped by the Phase A loop
body: no op is attempted, the row and the state are unchanged, nothing
is counted, and no error is raised. -/
theorem phaseA_skips_absent_pairs (env : Env) (gtasks : List GTask)
    (irems : List Rem) (m : TaskMapping) (st : St)
    (h : gmailMapGet gtasks m.gmail_task_id = none ∨
        icloudMapGet irems m.icloud_reminder_uid = none) :
    reconcilePair env gtasks irems m st = (m, st, [], 0, none) := by
  rcases h with h | h
  · unfold reconcilePair
    rw [h]
  · unfold reconcilePair
    rw [h]
    rcases gmailMapGet gtasks m.gmail_task_id with _ | t <;> rfl

/-- C10: when pushing an already-mapped local reminder onto its remote
task, a falsy notes value and an absent due value are left out of the
update dict (so they are never cleared remotely), while title and
completion status are always included; and a partial update with notes
and due omitted never changes those fields of the stored task. -/
theorem local_update_omits_empty_fields (env : Env) (st : St)
    (reminder : Rem) (calendar_id task_list_id : String) (m : TaskMapping)
    (hm : st.mappings.find?
        (fun mm => mm.icloud_reminder_uid == some reminder.id) = some m)
    (hnotes : optStrTruthy reminder.description = false)
    (hdue : reminder.due = none) :
    (sync_icloud_reminder_to_gmail env st reminder calendar_id
        task_list_id).2.2 =
      [Op.updateTask m.gmail_task_list_id m.gmail_task_id
        { title := some reminder.summary, notes := none, due := none
          status := some (if reminder.completed then "completed"
            else "needsAction") }] ∧
    (∀ (t : GTask) (u : TaskUpdate), u.notes = none → u.due = none →
      (applyTaskUpdate t u).notes = t.notes ∧
      (applyTaskUpdate t u).due = t.due) := by
  constructor
  · have hops := (updateTaskOp_parts env st m.gmail_task_list_id
      m.gmail_task_id
      { title := some reminder.summary, notes := none, due := none
        status := some (if reminder.completed then "completed"
          else "needsAction") }).2.2.2.2.2.2.2.2
    rcases hsplit : updateTaskOp env st m.gmail_task_list_id m.gmail_task_id
        { title := some reminder.summary, notes := none, due := none
          status := some (if reminder.completed then "completed"
            else "needsAction") }
      with ⟨e, st1, ops1⟩
    rw [hsplit] at hops
    simp only [sync_icloud_reminder_to_gmail, hm, hnotes, hdue,
      Bool.false_eq_true, if_false]
    rw [hsplit]
    cases e <;> simpa using hops
  · intro t u h1 h2
    simp [applyTaskUpdate, h1, h2]

theorem createReminderOp_fail (env : Env) (st : St) (cal summary d : String)
    (du : Option String) (h : env.failCreateReminder summary = true) :
    createReminderOp env st cal summary d du =
      (Except.error "create reminder failed", st,
        [Op.createRem cal summary d du]) := by
  simp [createReminderOp, h]

theorem createReminderOp_okEq (env : Env) (st : St) (cal summary d : String)
    (du : Option String) (h : env.failCreateReminder summary = false) :
    createReminderOp env st cal summary d du =
      (Except.ok st.nextRemId,
        { st with
          rems := (st.rems ++ [Rem.mk st.nextRemId summary
            (if d != "" then some d else none) du false])
          nextRemId := st.nextRemId + 1 },
        [Op.createRem cal summary d du]) := by
  simp [createReminderOp, h]

theorem createTaskOp_fail (env : Env) (st : St) (listId title : String)
    (notes due status : Option String)
    (h : env.failCreateTask title = true) :
    createTaskOp env st listId title notes due status =
      (Except.error "create task failed", st,
        [Op.createTask listId title notes due status]) := by
  simp [createTaskOp, h]

theorem createTaskOp_okEq (env : Env) (st : St) (listId title : String)
    (notes due status : Option String)
    (h : env.failCreateTask title = false) :
    createTaskOp env st listId title notes due status =
      (Except.ok st.nextTaskId,
        { st with
          tasks := (st.tasks ++ [GTask.mk st.nextTaskId (some title)
            (if optStrTruthy notes then notes else none)
            (due.map (fun s => s ++ "Z"))
            (if optStrTruthy status then status else none)])
          nextTaskId := st.nextTaskId + 1 },
        [Op.createTask listId title notes due status]) := by
  simp [createTaskOp, h]

/-- The state after a run extends the state before it: mapping rows,
remote tasks and local reminders are only ever appended to, never
removed (ids, in order, gain a suffix). -/
def Extends (st st' : St) : Prop :=
  (∃ a, gids st'.mappings = gids st.mappings ++ a) ∧
  (∃ b, taskIds st'.tasks = taskIds st.tasks ++ b) ∧
  (∃ c, remIds st'.rems = remIds st.rems ++ c)

theorem Extends.rfl (st : St) : Extends st st :=
  ⟨⟨[], by simp⟩, ⟨[], by simp⟩, ⟨[], by simp⟩⟩

theorem Extends.trans {s1 s2 s3 : St} (h1 : Extends s1 s2)
    (h2 : Extends s2 s3) : Extends s1 s3 := by
  obtain ⟨⟨a1, ha1⟩, ⟨b1, hb1⟩, ⟨c1, hc1⟩⟩ := h1
  obtain ⟨⟨a2, ha2⟩, ⟨b2, hb2⟩, ⟨c2, hc2⟩⟩ := h2
  exact ⟨⟨a1 ++ a2, by rw [ha2, ha1, List.append_assoc]⟩,
    ⟨b1 ++ b2, by rw [hb2, hb1, List.append_assoc]⟩,
    ⟨c1 ++ c2, by rw [hc2, hc1, List.append_assoc]⟩⟩

theorem extends_of_eq {st st' : St} (h1 : gids st'.mappings = gids st.mappings)
    (h2 : taskIds st'.tasks = taskIds st.tasks)
    (h3 : remIds st'.rems = remIds st.rems) : Extends st st' :=
  ⟨⟨[], by simp [h1]⟩, ⟨[], by simp [h2]⟩, ⟨[], by simp [h3]⟩⟩

theorem extends_updateReminderOp (env : Env) (st : St) (remId : Nat)
    (s d : Option String) (c : Option Bool) (du : Option String) :
    Extends st (updateReminderOp env st remId s d c du).2.1 := by
  have hp := updateReminderOp_parts env st remId s d c du
  exact extends_of_eq (by rw [hp.2.1]) (by rw [hp.1]) hp.2.2.2.2.2.2.2.1

theorem extends_updateTaskOp (env : Env) (st : St) (listId : String)
    (taskId : Nat) (u : TaskUpdate) :
    Extends st (updateTaskOp env st listId taskId u).2.1 := by
  have hp := updateTaskOp_parts env st listId taskId u
  exact extends_of_eq (by rw [hp.2.1]) hp.2.2.2.2.2.2.2.1 (by rw [hp.1])

theorem extends_createReminderOp (env : Env) (st : St)
    (cal summary d : String) (du : Option String) :
    Extends st (createReminderOp env st cal summary d du).2.1 := by
  by_cases h : env.failCreateReminder summary = true
  · rw [createReminderOp_fail env st cal summary d du h]
    exact Extends.rfl st
  · have h' : env.failCreateReminder summary = false := by simpa using h
    rw [createReminderOp_okEq env st cal summary d du h']
    exact ⟨⟨[], by simp⟩, ⟨[], by simp⟩, ⟨[st.nextRemId], by simp [remIds]⟩⟩

theorem extends_createTaskOp (env : Env) (st : St) (listId title : String)
    (notes due status : Option String) :
    Extends st (createTaskOp env st listId title notes due status).2.1 := by
  by_cases h : env.failCreateTask title = true
  · rw [createTaskOp_fail env st listId title notes due status h]
    exact Extends.rfl st
  · have h' : env.failCreateTask title = false := by simpa using h
    rw [createTaskOp_okEq env st listId title notes due status h']
    exact ⟨⟨[], by simp⟩, ⟨[st.nextTaskId], by simp [taskIds]⟩, ⟨[], by simp⟩⟩

/-- What the completion step can do to the world: only its own row's
baseline and the two stores' item contents; never the mapping table, the
counters, the settings, or any item id. -/
theorem completionStep_parts (env : Env) (m : TaskMapping) (uid : Nat)
    (g i : Bool) (st : St) :
    (∃ b, (completionStep env m uid g i st).1 =
      { m with last_known_completed := b }) ∧
    (completionStep env m uid g i st).2.1.mappings = st.mappings ∧
    (completionStep env m uid g i st).2.1.nextTaskId = st.nextTaskId ∧
    (completionStep env m uid g i st).2.1.nextRemId = st.nextRemId ∧
    (completionStep env m uid g i st).2.1.settingDirection = st.settingDirection ∧
    (completionStep env m uid g i st).2.1.settingTaskList = st.settingTaskList ∧
    (completionStep env m uid g i st).2.1.settingCalendar = st.settingCalendar ∧
    taskIds (completionStep env m uid g i st).2.1.tasks = taskIds st.tasks ∧
    remIds (completionStep env m uid g i st).2.1.rems = remIds st.rems := by
  obtain ⟨mgid, mlist, muid, mcal, mtitle, mlkc⟩ := m
  rcases mlkc with _ | _ <;> rcases g with _ | _ <;> rcases i with _ | _
  -- baseline false: (g,i) = (f,f) no change; (f,t) local changed;
  -- (t,f) remote changed; (t,t) both changed, no push needed.
  -- baseline true: symmetric.
  case false.false.false =>
    exact ⟨⟨false, rfl⟩, rfl, rfl, rfl, rfl, rfl, rfl, rfl, rfl⟩
  case false.false.true =>
    rcases hcall : updateTaskOp env st mlist mgid
        { title := none, notes := none, due := none
          status := some "completed" } with ⟨e, st1, ops1⟩
    have hp := updateTaskOp_parts env st mlist mgid
      { title := none, notes := none, due := none
        status := some "completed" }
    rw [hcall] at hp
    have h1 : st1.rems = st.rems := hp.1
    have h2 : st1.mappings = st.mappings := hp.2.1
    have h3 : st1.nextTaskId = st.nextTaskId := hp.2.2.1
    have h4 : st1.nextRemId = st.nextRemId := hp.2.2.2.1
    have h5 : st1.settingDirection = st.settingDirection := hp.2.2.2.2.1
    have h6 : st1.settingTaskList = st.settingTaskList := hp.2.2.2.2.2.1
    have h7 : st1.settingCalendar = st.settingCalendar := hp.2.2.2.2.2.2.1
    have h8 : taskIds st1.tasks = taskIds st.tasks := hp.2.2.2.2.2.2.2.1
    cases e with
    | error err =>
      exact ⟨⟨false, by simp [completionStep, hcall]⟩,
        by simp [completionStep, hcall, h2], by simp [completionStep, hcall, h3],
        by simp [completionStep, hcall, h4], by simp [completionStep, hcall, h5],
        by simp [completionStep, hcall, h6], by simp [completionStep, hcall, h7],
        by simp [completionStep, hcall, h8], by simp [completionStep, hcall, h1]⟩
    | ok u =>
      exact ⟨⟨true, by simp [completionStep, hcall]⟩,
        by simp [completionStep, hcall, h2], by simp [completionStep, hcall, h3],
        by simp [completionStep, hcall, h4], by simp [completionStep, hcall, h5],
        by simp [completionStep, hcall, h6], by simp [completionStep, hcall, h7],
        by simp [completionStep, hcall, h8], by simp [completionStep, hcall, h1]⟩
  case false.true.false =>
    rcases hcall : updateReminderOp env st uid none none (some true) none
      with ⟨e, st1, ops1⟩
    have hp := updateReminderOp_parts env st uid none none (some true) none
    rw [hcall] at hp
    have h1 : st1.tasks = st.tasks := hp.1
    have h2 : st1.mappings = st.mappings := hp.2.1
    have h3 : st1.nextTaskId = st.nextTaskId := hp.2.2.1
    have h4 : st1.nextRemId = st.nextRemId := hp.2.2.2.1
    have h5 : st1.settingDirection = st.settingDirection := hp.2.2.2.2.1
    have h6 : st1.settingTaskList = st.settingTaskList := hp.2.2.2.2.2.1
    have h7 : st1.settingCalendar = st.settingCalendar := hp.2.2.2.2.2.2.1
    have h8 : remIds st1.rems = remIds st.rems := hp.2.2.2.2.2.2.2.1
    cases e with
    | error err =>
      exact ⟨⟨false, by simp [completionStep, hcall]⟩,
        by simp [completionStep, hcall, h2], by simp [completionStep, hcall, h3],
        by simp [completionStep, hcall, h4], by simp [completionStep, hcall, h5],
        by simp [completionStep, hcall, h6], by simp [completionStep, hcall, h7],
        by simp [completionStep, hcall, h1], by simp [completionStep, hcall, h8]⟩
    | ok u =>
      exact ⟨⟨true, by simp [completionStep, hcall]⟩,
        by simp [completionStep, hcall, h2], by simp [completionStep, hcall, h3],
        by simp [completionStep, hcall, h4], by simp [completionStep, hcall, h5],
        by simp [completionStep, hcall, h6], by simp [completionStep, hcall, h7],
        by simp [completionStep, hcall, h1], by simp [completionStep, hcall, h8]⟩
  case false.true.true =>
    exact ⟨⟨true, rfl⟩, rfl, rfl, rfl, rfl, rfl, rfl, rfl, rfl⟩
  case true.false.false =>
    exact ⟨⟨false, rfl⟩, rfl, rfl, rfl, rfl, rfl, rfl, rfl, rfl⟩
  case true.false.true =>
    rcases hcall : updateReminderOp env st uid none none (some false) none
      with ⟨e, st1, ops1⟩
    have hp := updateReminderOp_parts env st uid none none (some false) none
    rw [hcall] at hp
    have h1 : st1.tasks = st.tasks := hp.1
    have h2 : st1.mappings = st.mappings := hp.2.1
    have h3 : st1.nextTaskId = st.nextTaskId := hp.2.2.1
    have h4 : st1.nextRemId = st.nextRemId := hp.2.2.2.1
    have h5 : st1.settingDirection = st.settingDirection := hp.2.2.2.2.1
    have h6 : st1.settingTaskList = st.settingTaskList := hp.2.2.2.2.2.1
    have h7 : st1.settingCalendar = st.settingCalendar := hp.2.2.2.2.2.2.1
    have h8 : remIds st1.rems = remIds st.rems := hp.2.2.2.2.2.2.2.1
    cases e with
    | error err =>
      exact ⟨⟨true, by simp [completionStep, hcall]⟩,
        by simp [completionStep, hcall, h2], by simp [completionStep, hcall, h3],
        by simp [completionStep, hcall, h4], by simp [completionStep, hcall, h5],
        by simp [completionStep, hcall, h6], by simp [completionStep, hcall, h7],
        by simp [completionStep, hcall, h1], by simp [completionStep, hcall, h8]⟩
    | ok u =>
      exact ⟨⟨false, by simp [completionStep, hcall]⟩,
        by simp [completionStep, hcall, h2], by simp [completionStep, hcall, h3],
        by simp [completionStep, hcall, h4], by simp [completionStep, hcall, h5],
        by simp [completionStep, hcall, h6], by simp [completionStep, hcall, h7],
        by simp [completionStep, hcall, h1], by simp [completionStep, hcall, h8]⟩
  case true.true.false =>
    rcases hcall : updateTaskOp env st mlist mgid
        { title := none, notes := none, due := none
          status := some "needsAction" } with ⟨e, st1, ops1⟩
    have hp := updateTaskOp_parts env st mlist mgid
      { title := none, notes := none, due := none
        status := some "needsAction" }
    rw [hcall] at hp
    have h1 : st1.rems = st.rems := hp.1
    have h2 : st1.mappings = st.mappings := hp.2.1
    have h3 : st1.nextTaskId = st.nextTaskId := hp.2.2.1
    have h4 : st1.nextRemId = st.nextRemId := hp.2.2.2.1
    have h5 : st1.settingDirection = st.settingDirection := hp.2.2.2.2.1
    have h6 : st1.settingTaskList = st.settingTaskList := hp.2.2.2.2.2.1
    have h7 : st1.settingCalendar = st.settingCalendar := hp.2.2.2.2.2.2.1
    have h8 : taskIds st1.tasks = taskIds st.tasks := hp.2.2.2.2.2.2.2.1
    cases e with
    | error err =>
      exact ⟨⟨true, by simp [completionStep, hcall]⟩,
        by simp [completionStep, hcall, h2], by simp [completionStep, hcall, h3],
        by simp [completionStep, hcall, h4], by simp [completionStep, hcall, h5],
        by simp [completionStep, hcall, h6], by simp [completionStep, hcall, h7],
        by simp [completionStep, hcall, h8], by simp [completionStep, hcall, h1]⟩
    | ok u =>
      exact ⟨⟨false, by simp [completionStep, hcall]⟩,
        by simp [completionStep, hcall, h2], by simp [completionStep, hcall, h3],
        by simp [completionStep, hcall, h4], by simp [completionStep, hcall, h5],
        by simp [completionStep, hcall, h6], by simp [completionStep, hcall, h7],
        by simp [completionStep, hcall, h8], by simp [completionStep, hcall, h1]⟩
  case true.true.true =>
    exact ⟨⟨true, rfl⟩, rfl, rfl, rfl, rfl, rfl, rfl, rfl, rfl⟩

/-- What one Phase A iteration can do to the world: only its own row's
baseline and item contents; mapping table, counters, settings and item
ids are untouched. -/
theorem reconcilePair_parts (env : Env) (gtasks : List GTask)
    (irems : List Rem) (m : TaskMapping) (st : St) :
    (∃ b, (reconcilePair env gtasks irems m st).1 =
      { m with last_known_completed := b }) ∧
    (reconcilePair env gtasks irems m st).2.1.mappings = st.mappings ∧
    (reconcilePair env gtasks irems m st).2.1.nextTaskId = st.nextTaskId ∧
    (reconcilePair env gtasks irems m st).2.1.nextRemId = st.nextRemId ∧
    (reconcilePair env gtasks irems m st).2.1.settingDirection = st.settingDirection ∧
    (reconcilePair env gtasks irems m st).2.1.settingTaskList = st.settingTaskList ∧
    (reconcilePair env gtasks irems m st).2.1.settingCalendar = st.settingCalendar ∧
    taskIds (reconcilePair env gtasks irems m st).2.1.tasks = taskIds st.tasks ∧
    remIds (reconcilePair env gtasks irems m st).2.1.rems = remIds st.rems := by
  rcases hA : gmailMapGet gtasks m.gmail_task_id with _ | task
  · rw [phaseA_skips_absent_pairs env gtasks irems m st (Or.inl hA)]
    exact ⟨⟨m.last_known_completed, rfl⟩, rfl, rfl, rfl, rfl, rfl, rfl, rfl, rfl⟩
  · rcases hB : icloudMapGet irems m.icloud_reminder_uid with _ | reminder
    · rw [phaseA_skips_absent_pairs env gtasks irems m st (Or.inr hB)]
      exact ⟨⟨m.last_known_completed, rfl⟩, rfl, rfl, rfl, rfl, rfl, rfl, rfl, rfl⟩
    · rcases hcs : completionStep env m (m.icloud_reminder_uid.getD 0)
        (taskCompleted task) reminder.completed st with ⟨m1, st1, ops1, err1⟩
      have hcp := completionStep_parts env m (m.icloud_reminder_uid.getD 0)
        (taskCompleted task) reminder.completed st
      rw [hcs] at hcp
      obtain ⟨⟨b, hb⟩, hcp2, hcp3, hcp4, hcp5, hcp6, hcp7, hcp8, hcp9⟩ := hcp
      have hb' : m1 = { m with last_known_completed := b } := hb
      have k2 : st1.mappings = st.mappings := hcp2
      have k3 : st1.nextTaskId = st.nextTaskId := hcp3
      have k4 : st1.nextRemId = st.nextRemId := hcp4
      have k5 : st1.settingDirection = st.settingDirection := hcp5
      have k6 : st1.settingTaskList = st.settingTaskList := hcp6
      have k7 : st1.settingCalendar = st.settingCalendar := hcp7
      have k8 : taskIds st1.tasks = taskIds st.tasks := hcp8
      have k9 : remIds st1.rems = remIds st.rems := hcp9
      cases err1 with
      | some e =>
        refine ⟨⟨b, ?_⟩, ?_, ?_, ?_, ?_, ?_, ?_, ?_, ?_⟩ <;>
          simp [reconcilePair, hA, hB, hcs, hb', k2, k3, k4, k5, k6, k7, k8, k9]
      | none =>
        rcases hcall : updateReminderOp env st1 (m.icloud_reminder_uid.getD 0)
            task.title (some (task.notes.getD "")) none none
          with ⟨e, st2, ops2⟩
        have hp := updateReminderOp_parts env st1 (m.icloud_reminder_uid.getD 0)
          task.title (some (task.notes.getD "")) none none
        rw [hcall] at hp
        have j1 : st2.tasks = st1.tasks := hp.1
        have j2 : st2.mappings = st1.mappings := hp.2.1
        have j3 : st2.nextTaskId = st1.nextTaskId := hp.2.2.1
        have j4 : st2.nextRemId = st1.nextRemId := hp.2.2.2.1
        have j5 : st2.settingDirection = st1.settingDirection := hp.2.2.2.2.1
        have j6 : st2.settingTaskList = st1.settingTaskList := hp.2.2.2.2.2.1
        have j7 : st2.settingCalendar = st1.settingCalendar := hp.2.2.2.2.2.2.1
        have j8 : remIds st2.rems = remIds st1.rems := hp.2.2.2.2.2.2.2.1
        cases e <;>
          refine ⟨⟨b, ?_⟩, ?_, ?_, ?_, ?_, ?_, ?_, ?_, ?_⟩ <;>
            simp [reconcilePair, hA, hB, hcs, hcall, hb', j1, j2, j3, j4, j5,
              j6, j7, j8, k2, k3, k4, k5, k6, k7, k8, k9]

theorem gids_cons (m : TaskMapping) (ms : List TaskMapping) :
    gids (m :: ms) = m.gmail_task_id :: gids ms := rfl

theorem uids_cons (m : TaskMapping) (ms : List TaskMapping) :
    uids (m :: ms) = (match m.icloud_reminder_uid with
      | some u => u :: uids ms
      | none => uids ms) := by
  cases h : m.icloud_reminder_uid <;> simp [uids, List.filterMap_cons, h]

/-- What the whole Phase A loop can do to the world: the rows keep their
identities (gmail ids and reminder uids unchanged, in order), and the
state changes only in store item contents. -/
theorem phaseA_parts (env : Env) (gtasks : List GTask) (irems : List Rem) :
    ∀ (ms : List TaskMapping) (st : St),
    gids (phaseA env gtasks irems ms st).1 = gids ms ∧
    uids (phaseA env gtasks irems ms st).1 = uids ms ∧
    (phaseA env gtasks irems ms st).2.1.mappings = st.mappings ∧
    (phaseA env gtasks irems ms st).2.1.nextTaskId = st.nextTaskId ∧
    (phaseA env gtasks irems ms st).2.1.nextRemId = st.nextRemId ∧
    (phaseA env gtasks irems ms st).2.1.settingDirection = st.settingDirection ∧
    (phaseA env gtasks irems ms st).2.1.settingTaskList = st.settingTaskList ∧
    (phaseA env gtasks irems ms st).2.1.settingCalendar = st.settingCalendar ∧
    taskIds (phaseA env gtasks irems ms st).2.1.tasks = taskIds st.tasks ∧
    remIds (phaseA env gtasks irems ms st).2.1.rems = remIds st.rems := by
  intro ms
  induction ms with
  | nil =>
    intro st
    exact ⟨rfl, rfl, rfl, rfl, rfl, rfl, rfl, rfl, rfl, rfl⟩
  | cons m ms ih =>
    intro st
    rcases hrp : reconcilePair env gtasks irems m st with ⟨m1, st1, ops1, c1, err1⟩
    have hq := reconcilePair_parts env gtasks irems m st
    rw [hrp] at hq
    obtain ⟨⟨b, hb⟩, q2, q3, q4, q5, q6, q7, q8, q9⟩ := hq
    have hb' : m1 = { m with last_known_completed := b } := hb
    have hbg : m1.gmail_task_id = m.gmail_task_id := by rw [hb']
    have hbu : m1.icloud_reminder_uid = m.icloud_reminder_uid := by rw [hb']
    have k2 : st1.mappings = st.mappings := q2
    have k3 : st1.nextTaskId = st.nextTaskId := q3
    have k4 : st1.nextRemId = st.nextRemId := q4
    have k5 : st1.settingDirection = st.settingDirection := q5
    have k6 : st1.settingTaskList = st.settingTaskList := q6
    have k7 : st1.settingCalendar = st.settingCalendar := q7
    have k8 : taskIds st1.tasks = taskIds st.tasks := q8
    have k9 : remIds st1.rems = remIds st.rems := q9
    cases err1 with
    | some e =>
      refine ⟨?_, ?_, ?_, ?_, ?_, ?_, ?_, ?_, ?_, ?_⟩ <;>
        simp only [phaseA, hrp] <;>
        first
        | (rw [gids_cons, gids_cons, hbg])
        | (rw [uids_cons, uids_cons, hbu])
        | exact k2
        | exact k3
        | exact k4
        | exact k5
        | exact k6
        | exact k7
        | exact k8
        | exact k9
    | none =>
      rcases hpa : phaseA env gtasks irems ms st1 with ⟨ms2, st2, ops2, c2, err2⟩
      have hI := ih st1
      rw [hpa] at hI
      have i1 : gids ms2 = gids ms := hI.1
      have i2 : uids ms2 = uids ms := hI.2.1
      have i3 : st2.mappings = st1.mappings := hI.2.2.1
      have i4 : st2.nextTaskId = st1.nextTaskId := hI.2.2.2.1
      have i5 : st2.nextRemId = st1.nextRemId := hI.2.2.2.2.1
      have i6 : st2.settingDirection = st1.settingDirection := hI.2.2.2.2.2.1
      have i7 : st2.settingTaskList = st1.settingTaskList := hI.2.2.2.2.2.2.1
      have i8 : st2.settingCalendar = st1.settingCalendar := hI.2.2.2.2.2.2.2.1
      have i9 : taskIds st2.tasks = taskIds st1.tasks := hI.2.2.2.2.2.2.2.2.1
      have i10 : remIds st2.rems = remIds st1.rems := hI.2.2.2.2.2.2.2.2.2
      refine ⟨?_, ?_, ?_, ?_, ?_, ?_, ?_, ?_, ?_, ?_⟩ <;>
        simp only [phaseA, hrp, hpa] <;>
        first
        | (rw [gids_cons, gids_cons, hbg, i1])
        | (rw [uids_cons, uids_cons, hbu, i2])
        | (rw [i3, k2])
        | (rw [i4, k3])
        | (rw [i5, k4])
        | (rw [i6, k5])
        | (rw [i7, k6])
        | (rw [i8, k7])
        | (rw [i9, k8])
        | (rw [i10, k9])

theorem extends_updateFirst (st : St) (gid : Nat)
    (f : TaskMapping → TaskMapping)
    (hf : ∀ mm, (f mm).gmail_task_id = mm.gmail_task_id) :
    Extends st { st with mappings := (updateFirstByGid st.mappings gid f) } :=
  extends_of_eq (gids_updateFirstByGid st.mappings gid f hf) rfl rfl

theorem extends_appendMapping (st : St) (mm : TaskMapping) :
    Extends st { st with mappings := (st.mappings ++ [mm]) } :=
  ⟨⟨[mm.gmail_task_id], by simp [gids]⟩, ⟨[], by simp⟩, ⟨[], by simp⟩⟩

theorem extends_sync_gmail_task_to_icloud (env : Env) (st : St)
    (task : GTask) (tl cal : String) :
    Extends st (sync_gmail_task_to_icloud env st task tl cal).2.1 := by
  simp only [sync_gmail_task_to_icloud]
  split
  · split
    · rename_i u st1 ops heq
      have he : Extends st st1 := by
        have h0 := extends_updateReminderOp env st
          (((st.mappings.find? (fun m => m.gmail_task_id == task.id)).bind
            (fun m => m.icloud_reminder_uid)).getD 0)
          (some (task.title.getD "Untitled Task"))
          (some (task.notes.getD "")) (some (taskCompleted task)) task.due
        rw [heq] at h0
        exact h0
      exact he.trans (extends_updateFirst st1 task.id _ (fun mm => rfl))
    · rename_i e st1 ops heq
      have he : Extends st st1 := by
        have h0 := extends_updateReminderOp env st
          (((st.mappings.find? (fun m => m.gmail_task_id == task.id)).bind
            (fun m => m.icloud_reminder_uid)).getD 0)
          (some (task.title.getD "Untitled Task"))
          (some (task.notes.getD "")) (some (taskCompleted task)) task.due
        rw [heq] at h0
        exact h0
      exact he
  · split
    · rename_i rid st1 ops heq
      have he : Extends st st1 := by
        have h0 := extends_createReminderOp env st cal
          (task.title.getD "Untitled Task") (task.notes.getD "") task.due
        rw [heq] at h0
        exact h0
      split
      · exact he.trans (extends_updateFirst st1 task.id _ (fun mm => rfl))
      · exact he.trans (extends_appendMapping st1 _)
    · rename_i e st1 ops heq
      have he : Extends st st1 := by
        have h0 := extends_createReminderOp env st cal
          (task.title.getD "Untitled Task") (task.notes.getD "") task.due
        rw [heq] at h0
        exact h0
      exact he

theorem extends_sync_icloud_reminder_to_gmail (env : Env) (st : St)
    (reminder : Rem) (cal tl : String) :
    Extends st (sync_icloud_reminder_to_gmail env st reminder cal tl).2.1 := by
  simp only [sync_icloud_reminder_to_gmail]
  split
  · rename_i m hm
    split
    · rename_i u st1 ops heq
      have he : Extends st st1 := by
        have h0 := extends_updateTaskOp env st m.gmail_task_list_id
          m.gmail_task_id
          { title := some reminder.summary
            notes := if optStrTruthy reminder.description then
              reminder.description else none
            due := match reminder.due with
              | some d => some (d ++ "Z")
              | none => none
            status := some (if reminder.completed then "completed"
              else "needsAction") }
        rw [heq] at h0
        exact h0
      exact he.trans (extends_updateFirst st1 m.gmail_task_id _ (fun mm => rfl))
    · rename_i e st1 ops heq
      have he : Extends st st1 := by
        have h0 := extends_updateTaskOp env st m.gmail_task_list_id
          m.gmail_task_id
          { title := some reminder.summary
            notes := if optStrTruthy reminder.description then
              reminder.description else none
            due := match reminder.due with
              | some d => some (d ++ "Z")
              | none => none
            status := some (if reminder.completed then "completed"
              else "needsAction") }
        rw [heq] at h0
        exact h0
      exact he
  · split
    · rename_i tid st1 ops heq
      have he : Extends st st1 := by
        have h0 := extends_createTaskOp env st tl reminder.summary
          reminder.description reminder.due
          (some (if reminder.completed then "completed" else "needsAction"))
        rw [heq] at h0
        exact h0
      exact he.trans (extends_appendMapping st1 _)
    · rename_i e st1 ops heq
      have he : Extends st st1 := by
        have h0 := extends_createTaskOp env st tl reminder.summary
          reminder.description reminder.due
          (some (if reminder.completed then "completed" else "needsAction"))
        rw [heq] at h0
        exact h0
      exact he

theorem extends_gmailTaskLoop (env : Env) (tl cal : String)
    (mapped : List Nat) :
    ∀ (ts : List GTask) (st : St),
    Extends st (gmailTaskLoop env tl cal mapped ts st).1 := by
  intro ts
  induction ts with
  | nil => intro st; exact Extends.rfl st
  | cons t ts ih =>
    intro st
    simp only [gmailTaskLoop]
    split
    · exact ih st
    · split
      · rename_i gid st1 ops1 heq
        have he : Extends st st1 := by
          have h0 := extends_sync_gmail_task_to_icloud env st t tl cal
          rw [heq] at h0
          exact h0
        exact (he.trans (extends_updateFirst st1 gid
            (fun mm => { mm with last_known_completed := taskCompleted t })
            (fun mm => rfl))).trans
          (ih { st1 with mappings := (updateFirstByGid st1.mappings gid
            (fun mm => { mm with last_known_completed := taskCompleted t })) })
      · rename_i st1 ops1 heq
        have he : Extends st st1 := by
          have h0 := extends_sync_gmail_task_to_icloud env st t tl cal
          rw [heq] at h0
          exact h0
        exact he.trans (ih st1)

theorem extends_icloudRemLoop (env : Env) (cal tl : String)
    (mapped : List Nat) :
    ∀ (rs : List Rem) (st : St),
    Extends st (icloudRemLoop env cal tl mapped rs st).1 := by
  intro rs
  induction rs with
  | nil => intro st; exact Extends.rfl st
  | cons r rs ih =>
    intro st
    simp only [icloudRemLoop]
    split
    · exact ih st
    · split
      · rename_i gid st1 ops1 heq
        have he : Extends st st1 := by
          have h0 := extends_sync_icloud_reminder_to_gmail env st r cal tl
          rw [heq] at h0
          exact h0
        exact (he.trans (extends_updateFirst st1 gid
            (fun mm => { mm with last_known_completed := r.completed })
            (fun mm => rfl))).trans
          (ih { st1 with mappings := (updateFirstByGid st1.mappings gid
            (fun mm => { mm with last_known_completed := r.completed })) })
      · rename_i st1 ops1 heq
        have he : Extends st st1 := by
          have h0 := extends_sync_icloud_reminder_to_gmail env st r cal tl
          rw [heq] at h0
          exact h0
        exact he.trans (ih st1)

theorem extends_run_core (env : Env) (st : St) (direction : SyncDirection)
    (tl : String) (cal? : Option String) :
    Extends st (run_core env st direction tl cal?).1 := by
  cases direction with
  | gmail_to_icloud =>
    simp only [run_core]
    split
    · exact Extends.rfl st
    · split
      · exact Extends.rfl st
      · split
        · exact Extends.rfl st
        · exact extends_gmailTaskLoop env tl (cal?.getD "") []
            (gmailFiltered st) st
  | icloud_to_gmail =>
    simp only [run_core]
    split
    · exact Extends.rfl st
    · split
      · exact Extends.rfl st
      · split
        · exact Extends.rfl st
        · exact extends_icloudRemLoop env (cal?.getD "") tl []
            (icloudFiltered st) st
  | bidirectional =>
    simp only [run_core]
    split
    · exact Extends.rfl st
    · split
      · exact Extends.rfl st
      · split
        · exact Extends.rfl st
        · rw [show (if (SyncDirection.bidirectional ==
              SyncDirection.gmail_to_icloud ||
              SyncDirection.bidirectional == SyncDirection.bidirectional)
              = true then gmailFiltered st else []) = gmailFiltered st
            from rfl]
          rw [show (if (SyncDirection.bidirectional ==
              SyncDirection.icloud_to_gmail ||
              SyncDirection.bidirectional == SyncDirection.bidirectional)
              = true then icloudFiltered st else []) = icloudFiltered st
            from rfl]
          rcases hpa : phaseA env (gmailFiltered st) (icloudFiltered st)
            st.mappings st with ⟨rows, st1, ops1, c1, err1⟩
          have hpp := phaseA_parts env (gmailFiltered st) (icloudFiltered st)
            st.mappings st
          rw [hpa] at hpp
          have p1 : gids rows = gids st.mappings := hpp.1
          have p9 : taskIds st1.tasks = taskIds st.tasks :=
            hpp.2.2.2.2.2.2.2.2.1
          have p10 : remIds st1.rems = remIds st.rems :=
            hpp.2.2.2.2.2.2.2.2.2
          have hext1 : Extends st { st1 with mappings := rows } :=
            ⟨⟨[], by simpa using p1⟩, ⟨[], by simpa using p9⟩,
              ⟨[], by simpa using p10⟩⟩
          cases err1 with
          | some e => exact hext1
          | none =>
            exact hext1.trans
              ((extends_gmailTaskLoop env tl (cal?.getD "")
                (st.mappings.map (fun m => m.gmail_task_id))
                (gmailFiltered st) { st1 with mappings := rows }).trans
              (extends_icloudRemLoop env (cal?.getD "") tl
                (st.mappings.filterMap (fun m => m.icloud_reminder_uid))
                (icloudFiltered st)
                (gmailTaskLoop env tl (cal?.getD "")
                  (st.mappings.map (fun m => m.gmail_task_id))
                  (gmailFiltered st) { st1 with mappings := rows }).1))

theorem extends_run_sync (env : Env) (st : St)
    (direction? : Option SyncDirection) :
    Extends st (run_sync env st direction?).2.1 := by
  cases direction? with
  | some d =>
    rcases hrc : run_core env st d (st.settingTaskList.getD "@default")
      st.settingCalendar with ⟨st1, ops, ts, rs, err⟩
    have h0 := extends_run_core env st d (st.settingTaskList.getD "@default")
      st.settingCalendar
    rw [hrc] at h0
    simp only [run_sync, finalizeLog]
    rw [hrc]
    exact h0
  | none =>
    rcases hrc : run_core env st
        (st.settingDirection.getD SyncDirection.bidirectional)
        (st.settingTaskList.getD "@default") st.settingCalendar
      with ⟨st1, ops, ts, rs, err⟩
    have h0 := extends_run_core env st
      (st.settingDirection.getD SyncDirection.bidirectional)
      (st.settingTaskList.getD "@default") st.settingCalendar
    rw [hrc] at h0
    simp only [run_sync, finalizeLog]
    rw [hrc]
    exact h0

/-- C9: a mapping whose remote task or local reminder is absent from the
current snapshots is skipped entirely by Phase A (no op, no field
change, no count, no error); and no run ever deletes anything — every
mapping row, remote task and local reminder survives any run, so a
deletion on one side is never propagated to the other. -/
theorem absent_pairs_skipped_and_nothing_deleted :
    (∀ (env : Env) (gtasks : List GTask) (irems : List Rem)
      (m : TaskMapping) (st : St),
      (gmailMapGet gtasks m.gmail_task_id = none ∨
        icloudMapGet irems m.icloud_reminder_uid = none) →
      reconcilePair env gtasks irems m st = (m, st, [], 0, none)) ∧
    (∀ (env : Env) (st : St) (direction? : Option SyncDirection),
      Extends st (run_sync env st direction?).2.1) :=
  ⟨phaseA_skips_absent_pairs, extends_run_sync⟩

theorem absent_pairs_skipped_and_nothing_deleted_witness :
    reconcilePair envH [] [] mapW stW = (mapW, stW, [], 0, none) ∧
    Extends stW (run_sync envH stW none).2.1 :=
  ⟨absent_pairs_skipped_and_nothing_deleted.1 envH [] [] mapW stW
      (Or.inl rfl),
    absent_pairs_skipped_and_nothing_deleted.2 envH stW none⟩

theorem local_update_omits_empty_fields_witness :
    (stW.mappings.find?
      (fun mm => mm.icloud_reminder_uid == some remW.id) = some mapW) ∧
    optStrTruthy remW.description = false ∧
    remW.due = none ∧
    ((sync_icloud_reminder_to_gmail envH stW remW "cal" "l").2.2 =
      [Op.updateTask mapW.gmail_task_list_id mapW.gmail_task_id
        { title := some remW.summary, notes := none, due := none
          status := some (if remW.completed then "completed"
            else "needsAction") }] ∧
    (∀ (t : GTask) (u : TaskUpdate), u.notes = none → u.due = none →
      (applyTaskUpdate t u).notes = t.notes ∧
      (applyTaskUpdate t u).due = t.due)) :=
  ⟨by decide, rfl, rfl,
    local_update_omits_empty_fields envH stW remW "cal" "l" mapW
      (by decide) rfl rfl⟩

/-- An environment in which every update call on local reminder 5
fails. -/
def envF4 : Env := { envH with failUpdateReminder := fun i => i == 5 }

/-- A second mapped pair alongside the stW fixture. -/
def taskB : GTask :=
  { id := 1, title := some "B", notes := none, due := none,
    status := some "completed" }

def remB : Rem :=
  { id := 6, summary := "B", description := none, due := none,
    completed := false }

def mapB : TaskMapping :=
  { gmail_task_id := 1, gmail_task_list_id := "l",
    icloud_reminder_uid := some 6, icloud_calendar_url := some "cal",
    title := "B", last_known_completed := false }

/-- Two mapped pairs, both remote tasks completed while the local
reminders and the baselines still say false. -/
def stTwo : St :=
  { tasks := [taskW, taskB], rems := [remW, remB],
    mappings := [mapW, mapB], nextTaskId := 2, nextRemId := 7,
    settingDirection := none, settingTaskList := none,
    settingCalendar := some "cal" }

/-- C2 counterexample: a failing update call in Phase A of a
bidirectional run is NOT caught: the run aborts with status failed, the
second mapped pair is never processed (the only attempted op is the
failing push on reminder 5, nothing ever touches pair B), and
tasks_synced stays 0 — so a single update failure does abort the run,
contrary to the claim. -/
theorem phaseA_update_failure_aborts_run_counterexample :
    (run_sync envF4 stTwo none).1.status = SyncStatus.failed ∧
    (run_sync envF4 stTwo none).1.error_message =
      some "update reminder failed" ∧
    (run_sync envF4 stTwo none).1.tasks_synced = 0 ∧
    (run_sync envF4 stTwo none).2.2 =
      [Op.updateRem 5 none none (some true) none] ∧
    (run_sync envF4 stTwo none).2.1.mappings = [mapW, mapB] := by
  decide

/-- C4 counterexample: in a gmail_to_icloud run over an already-mapped
completed task, the local update call fails (reminder 5 keeps
completed = false) yet the mapping's baseline is still set to true and
the run reports success — the baseline is updated despite the failed
push. -/
theorem baseline_set_despite_failed_update_counterexample :
    envF4.failUpdateReminder 5 = true ∧
    (run_sync envF4 stW (some SyncDirection.gmail_to_icloud)).2.1.rems =
      [remW] ∧
    (run_sync envF4 stW (some SyncDirection.gmail_to_icloud)).2.1.mappings =
      [{ mapW with last_known_completed := true }] ∧
    (run_sync envF4 stW
      (some SyncDirection.gmail_to_icloud)).1.status = SyncStatus.success := by
  decide

/-- C5 counterexample: a completed remote task with no prior mapping is
created locally by a bidirectional run with baseline seeded true, but
the created reminder itself reads completed = false (create_reminder
never sets completion) — the pair exists with the local completion
false. -/
theorem created_reminder_not_completed_counterexample :
    stOneTask.mappings = [] ∧
    taskCompleted (GTask.mk 0 (some "A") (some "n") none
      (some "completed")) = true ∧
    (run_sync envH stOneTask none).2.1.mappings =
      [TaskMapping.mk 0 "@default" (some 100) (some "cal") "A" true] ∧
    (run_sync envH stOneTask none).2.1.rems =
      [Rem.mk 100 "A" (some "n") none false] := by
  decide

/-- C3 counterexample: running the bidirectional reconciliation twice on
one completed unmapped remote task, with no external change in between,
performs two store update calls in the second run (a completion push
back onto the task and the unconditional title/notes push) and flips the
mapping's baseline from true to false — neither "zero update calls" nor
"identical Mapping rows" holds. -/
theorem second_run_not_silent_counterexample :
    (run_sync envH (run_sync envH stOneTask none).2.1 none).2.2 =
      [Op.updateTask "@default" 0
        { title := none, notes := none, due := none
          status := some "needsAction" },
       Op.updateRem 100 (some "A") (some "n") none none] ∧
    (run_sync envH stOneTask none).2.1.mappings.map
      (fun m => m.last_known_completed) = [true] ∧
    (run_sync envH (run_sync envH stOneTask none).2.1 none).2.1.mappings.map
      (fun m => m.last_known_completed) = [false] := by
  decide

/-- When the oracle fails an update call, it errors whether or not the
item exists, leaving the state unchanged. -/
theorem updateReminderOp_errEq (env : Env) (st : St) (remId : Nat)
    (s d : Option String) (c : Option Bool) (du : Option String)
    (h : env.failUpdateReminder remId = true) :
    ∃ msg, updateReminderOp env st remId s d c du =
      (Except.error msg, st, [Op.updateRem remId s d c du]) := by
  unfold updateReminderOp
  split
  · exact ⟨"reminder not found", rfl⟩
  · exact ⟨"update reminder failed", by simp [h]⟩

theorem updateTaskOp_errEq (env : Env) (st : St) (listId : String)
    (taskId : Nat) (u : TaskUpdate)
    (h : env.failUpdateTask taskId = true) :
    ∃ msg, updateTaskOp env st listId taskId u =
      (Except.error msg, st, [Op.updateTask listId taskId u]) := by
  unfold updateTaskOp
  split
  · exact ⟨"task not found", rfl⟩
  · exact ⟨"update task failed", by simp [h]⟩

/-- C4 amended, first half: when the create call for an unmapped task
fails, the helper catches it and returns None with the state (mapping
table included) left exactly as it was, so nothing is recorded for
retry. -/
theorem create_failure_leaves_state (env : Env) (st : St) (task : GTask)
    (tl cal : String)
    (hfail : env.failCreateReminder (task.title.getD "Untitled Task") = true)
    (hnomap : st.mappings.find? (fun m => m.gmail_task_id == task.id) = none) :
    sync_gmail_task_to_icloud env st task tl cal =
      (none, st, [Op.createRem cal (task.title.getD "Untitled Task")
        (task.notes.getD "") task.due]) := by
  unfold sync_gmail_task_to_icloud
  rw [hnomap]
  simp only []
  rw [createReminderOp_fail env st cal (task.title.getD "Untitled Task")
    (task.notes.getD "") task.due hfail]
  simp

/-- C4 amended, second half: whenever the Phase A completion step ends
in an uncaught error, that mapping's baseline has not been assigned:
the returned row is exactly the input row. -/
theorem completion_error_keeps_baseline (env : Env) (m : TaskMapping)
    (uid : Nat) (g i : Bool) (st : St) (e : String)
    (herr : (completionStep env m uid g i st).2.2.2 = some e) :
    (completionStep env m uid g i st).1 = m := by
  obtain ⟨mgid, mlist, muid, mcal, mtitle, mlkc⟩ := m
  rcases mlkc with _ | _ <;> rcases g with _ | _ <;> rcases i with _ | _
  case false.false.false => exact absurd herr (by simp [completionStep])
  case false.false.true =>
    rcases hcall : updateTaskOp env st mlist mgid
        { title := none, notes := none, due := none
          status := some "completed" } with ⟨e1, st1, ops1⟩
    cases e1 <;> simp [completionStep, hcall] at herr ⊢
  case false.true.false =>
    rcases hcall : updateReminderOp env st uid none none (some true) none
      with ⟨e1, st1, ops1⟩
    cases e1 <;> simp [completionStep, hcall] at herr ⊢
  case false.true.true => exact absurd herr (by simp [completionStep])
  case true.false.false => exact absurd herr (by simp [completionStep])
  case true.false.true =>
    rcases hcall : updateReminderOp env st uid none none (some false) none
      with ⟨e1, st1, ops1⟩
    cases e1 <;> simp [completionStep, hcall] at herr ⊢
  case true.true.false =>
    rcases hcall : updateTaskOp env st mlist mgid
        { title := none, notes := none, due := none
          status := some "needsAction" } with ⟨e1, st1, ops1⟩
    cases e1 <;> simp [completionStep, hcall] at herr ⊢
  case true.true.true => exact absurd herr (by simp [completionStep])

/-- C4 amended: the baseline is untouched when the create path fails
(the helper returns None and the state is unchanged) and when a Phase A
completion push errors (the row keeps its previous baseline); the
counterexample shows the remaining path — a caught update failure in
the single-direction helper — still sets the baseline optimistically. -/
theorem baseline_on_failure :
    (∀ (env : Env) (st : St) (task : GTask) (tl cal : String),
      env.failCreateReminder (task.title.getD "Untitled Task") = true →
      st.mappings.find? (fun m => m.gmail_task_id == task.id) = none →
      sync_gmail_task_to_icloud env st task tl cal =
        (none, st, [Op.createRem cal (task.title.getD "Untitled Task")
          (task.notes.getD "") task.due])) ∧
    (∀ (env : Env) (m : TaskMapping) (uid : Nat) (g i : Bool) (st : St)
      (e : String),
      (completionStep env m uid g i st).2.2.2 = some e →
      (completionStep env m uid g i st).1 = m) :=
  ⟨create_failure_leaves_state, completion_error_keeps_baseline⟩

theorem baseline_on_failure_witness :
    (envF4.failCreateReminder (taskW.title.getD "Untitled Task") = false) ∧
    sync_gmail_task_to_icloud
      { envH with failCreateReminder := fun _ => true }
      stOneTask taskW "@default" "cal" =
      (none, stOneTask, [Op.createRem "cal" "A" "" none]) ∧
    (completionStep envF4 mapW 5 true false stW).2.2.2 =
      some "update reminder failed" ∧
    (completionStep envF4 mapW 5 true false stW).1 = mapW :=
  ⟨rfl,
    baseline_on_failure.1 { envH with failCreateReminder := fun _ => true }
      stOneTask taskW "@default" "cal" rfl (by decide),
    by decide,
    baseline_on_failure.2 envF4 mapW 5 true false stW
      "update reminder failed" (by decide)⟩

/-- An environment whose local store rejects creating any reminder whose
summary is the given string. -/
def envFailCreate (a : String) : Env :=
  { googleConnected := true
    icloudConnected := true
    failCreateReminder := fun s => s == a
    failUpdateReminder := fun _ => false
    failCreateTask := fun _ => false
    failUpdateTask := fun _ => false }

/-- Two unmapped remote tasks with distinct non-empty titles. -/
def stPair (a b : String) (na nb : Option String) (sa sb : Option String) :
    St :=
  { tasks := [GTask.mk 0 (some a) na none sa, GTask.mk 1 (some b) nb none sb]
    rems := []
    mappings := []
    nextTaskId := 2
    nextRemId := 100
    settingDirection := none
    settingTaskList := none
    settingCalendar := some "cal" }

/-- C2 amended: a failing create call is caught and isolated — when
creating the local counterpart of remote item A throws, item B in the
same bidirectional run is still processed (its mapping is persisted and
counted), the run finishes with status success, and A's failed create
left no mapping row behind, so A is retried next run.  (A failing Phase
A update call, by contrast, aborts the run — see the counterexample.) -/
theorem create_failure_isolated (a b : String) (na nb : Option String)
    (sa sb : Option String) (ha : a ≠ "") (hb : b ≠ "") (hba : b ≠ a) :
    (run_sync (envFailCreate a) (stPair a b na nb sa sb) none).1.status =
      SyncStatus.success ∧
    (run_sync (envFailCreate a) (stPair a b na nb sa sb) none).1.tasks_synced
      = 1 ∧
    (run_sync (envFailCreate a) (stPair a b na nb sa sb) none).2.1.mappings =
      [TaskMapping.mk 1 "@default" (some 100) (some "cal") b
        (sb == some "completed")] ∧
    (run_sync (envFailCreate a) (stPair a b na nb sa sb) none).2.2 =
      [Op.createRem "cal" a (na.getD "") none,
       Op.createRem "cal" b (nb.getD "") none] := by
  have ha' : (a != "") = true := by simp [ha]
  have hb' : (b != "") = true := by simp [hb]
  have hba' : (b == a) = false := by simp [hba]
  refine ⟨?_, ?_, ?_, ?_⟩ <;>
    simp [run_sync, run_core, finalizeLog, phaseA, gmailTaskLoop,
      icloudRemLoop, sync_gmail_task_to_icloud, createReminderOp,
      updateFirstByGid, gmailFiltered, icloudFiltered, optStrTruthy,
      envFailCreate, stPair, ha', hb', hba', taskCompleted]

theorem create_failure_isolated_witness :
    ("A" : String) ≠ "" ∧ ("B" : String) ≠ "" ∧ ("B" : String) ≠ "A" ∧
    ((run_sync (envFailCreate "A")
        (stPair "A" "B" none none (some "completed") none) none).1.status =
      SyncStatus.success ∧
    (run_sync (envFailCreate "A")
        (stPair "A" "B" none none (some "completed") none)
        none).1.tasks_synced = 1 ∧
    (run_sync (envFailCreate "A")
        (stPair "A" "B" none none (some "completed") none)
        none).2.1.mappings =
      [TaskMapping.mk 1 "@default" (some 100) (some "cal") "B"
        ((none : Option String) == some "completed")] ∧
    (run_sync (envFailCreate "A")
        (stPair "A" "B" none none (some "completed") none) none).2.2 =
      [Op.createRem "cal" "A" ((none : Option String).getD "") none,
       Op.createRem "cal" "B" ((none : Option String).getD "") none]) :=
  ⟨by decide, by decide, by decide,
    create_failure_isolated "A" "B" none none (some "completed") none
      (by decide) (by decide) (by decide)⟩

theorem wf_of_parts {st st' : St} (hwf : st.wf)
    (h1 : taskIds st'.tasks = taskIds st.tasks)
    (h2 : st'.nextTaskId = st.nextTaskId)
    (h3 : remIds st'.rems = remIds st.rems)
    (h4 : st'.nextRemId = st.nextRemId)
    (h5 : gids st'.mappings = gids st.mappings)
    (h6 : uids st'.mappings = uids st.mappings) : st'.wf := by
  obtain ⟨w1, w2, w3, w4, w5, w6, w7, w8⟩ := hwf
  exact ⟨h1 ▸ w1, fun i hi => h2 ▸ w2 i (h1 ▸ hi),
    h3 ▸ w3, fun i hi => h4 ▸ w4 i (h3 ▸ hi),
    h5 ▸ w5, fun i hi => h2 ▸ w6 i (h5 ▸ hi),
    h6 ▸ w7, fun i hi => h4 ▸ w8 i (h6 ▸ hi)⟩

theorem not_mem_gids_of_find?_none (ms : List TaskMapping) (g : Nat)
    (h : ms.find? (fun m => m.gmail_task_id == g) = none) : g ∉ gids ms := by
  intro hmem
  rcases List.mem_map.mp hmem with ⟨m, hm, hge⟩
  have := List.find?_eq_none.mp h m hm
  simp [hge] at this

theorem not_mem_uids_of_find?_none (ms : List TaskMapping) (u : Nat)
    (h : ms.find? (fun m => m.icloud_reminder_uid == some u) = none) :
    u ∉ uids ms := by
  intro hmem
  rcases List.mem_filterMap.mp hmem with ⟨m, hm, hu⟩
  have := List.find?_eq_none.mp h m hm
  simp [hu] at this

/-- Setting the uid of the first matching row: the uid list keeps its
uniqueness and bound when the new uid is fresh. -/
theorem uids_updateFirst_setUid (g rid : Nat) (f : TaskMapping → TaskMapping)
    (hf : ∀ mm, (f mm).icloud_reminder_uid = some rid) :
    ∀ (ms : List TaskMapping), (uids ms).Nodup → rid ∉ uids ms →
    (uids (updateFirstByGid ms g f)).Nodup ∧
    (∀ u ∈ uids (updateFirstByGid ms g f), u ∈ uids ms ∨ u = rid) := by
  intro ms
  induction ms with
  | nil => intro _ _; exact ⟨List.nodup_nil, by simp [updateFirstByGid, uids]⟩
  | cons a ms ih =>
    intro hnd hrid
    rw [uids_cons] at hnd hrid
    unfold updateFirstByGid
    split
    · constructor
      · rw [uids_cons, hf]
        rcases ha : a.icloud_reminder_uid with _ | u
        · rw [ha] at hnd hrid
          refine List.Nodup.cons ?_ hnd
          intro hc
          exact hrid hc
        · rw [ha] at hnd hrid
          refine List.Nodup.cons ?_ hnd.of_cons
          intro hc
          exact hrid (List.mem_cons_of_mem u hc)
      · intro u hu
        rw [uids_cons, hf] at hu
        rcases List.mem_cons.mp hu with h | h
        · exact Or.inr h
        · refine Or.inl ?_
          rw [uids_cons]
          rcases a.icloud_reminder_uid with _ | v
          · exact h
          · exact List.mem_cons_of_mem v h
    · rcases ha : a.icloud_reminder_uid with _ | v
      · rw [ha] at hnd hrid
        have := ih hnd hrid
        constructor
        · rw [uids_cons, ha]
          exact this.1
        · intro u hu
          rw [uids_cons, ha] at hu
          rcases this.2 u hu with h | h
          · exact Or.inl (by rw [uids_cons, ha]; exact h)
          · exact Or.inr h
      · rw [ha] at hnd hrid
        have hnd' : (uids ms).Nodup := hnd.of_cons
        have hrid' : rid ∉ uids ms := fun hc =>
          hrid (List.mem_cons_of_mem v hc)
        have := ih hnd' hrid'
        constructor
        · rw [uids_cons, ha]
          refine List.Nodup.cons ?_ this.1
          intro hc
          rcases this.2 v hc with h | h
          · exact (List.nodup_cons.mp hnd).1 h
          · exact hrid (h ▸ List.mem_cons_self v (uids ms))
        · intro u hu
          rw [uids_cons, ha] at hu
          rcases List.mem_cons.mp hu with h | h
          · exact Or.inl (by rw [uids_cons, ha]; exact h ▸ List.mem_cons_self v (uids ms))
          · rcases this.2 u h with h2 | h2
            · exact Or.inl (by rw [uids_cons, ha]; exact List.mem_cons_of_mem v h2)
            · exact Or.inr h2

/-- The identifying skeleton of the remote store: ids with titles. -/
def taskSkel (ts : List GTask) : List (Nat × Option String) :=
  ts.map (fun t => (t.id, t.title))

/-- The identifying skeleton of the local store: ids with summaries. -/
def remSkel (rs : List Rem) : List (Nat × String) :=
  rs.map (fun r => (r.id, r.summary))

theorem mem_updateFirstByGid_ne (ms : List TaskMapping) (g : Nat)
    (f : TaskMapping → TaskMapping) (m : TaskMapping) (hm : m ∈ ms)
    (hne : m.gmail_task_id ≠ g) : m ∈ updateFirstByGid ms g f := by
  induction ms with
  | nil => cases hm
  | cons a ms ih =>
    unfold updateFirstByGid
    split
    · rcases List.mem_cons.mp hm with h | h
      · rename_i hbeq
        exact absurd (by rw [h]; exact (by simpa using hbeq)) hne
      · exact List.mem_cons_of_mem _ h
    · rcases List.mem_cons.mp hm with h | h
      · exact h ▸ List.mem_cons_self a _
      · exact List.mem_cons_of_mem _ (ih h)

theorem updateFirstByGid_append_last (ms : List TaskMapping)
    (row : TaskMapping) (g : Nat) (f : TaskMapping → TaskMapping)
    (h : g ∉ gids ms) (hrow : row.gmail_task_id = g) :
    updateFirstByGid (ms ++ [row]) g f = ms ++ [f row] := by
  induction ms with
  | nil => simp [updateFirstByGid, hrow]
  | cons a ms ih =>
    have ha : a.gmail_task_id ≠ g := by
      intro hc
      exact h (by rw [gids_cons]; exact hc ▸ List.mem_cons_self _ _)
    have h' : g ∉ gids ms := by
      intro hc
      exact h (by rw [gids_cons]; exact List.mem_cons_of_mem _ hc)
    simp only [List.cons_append]
    unfold updateFirstByGid
    rw [if_neg (by simpa using ha)]
    rw [ih h']

theorem find?_gid_none_of_not_mem (ms : List TaskMapping) (g : Nat)
    (h : g ∉ gids ms) :
    ms.find? (fun m => m.gmail_task_id == g) = none := by
  apply List.find?_eq_none.mpr
  intro m hm
  simp only [beq_iff_eq]
  intro hc
  exact h (hc ▸ List.mem_map_of_mem (fun m => m.gmail_task_id) hm)

theorem find?_gid_some_facts (ms : List TaskMapping) (g : Nat)
    (m : TaskMapping)
    (h : ms.find? (fun mm => mm.gmail_task_id == g) = some m) :
    m ∈ ms ∧ m.gmail_task_id = g :=
  ⟨List.mem_of_find?_eq_some h, by
    have := List.find?_some h
    simpa using this⟩

theorem find?_uid_some_facts (ms : List TaskMapping) (u : Nat)
    (m : TaskMapping)
    (h : ms.find? (fun mm => mm.icloud_reminder_uid == some u) = some m) :
    m ∈ ms ∧ m.icloud_reminder_uid = some u :=
  ⟨List.mem_of_find?_eq_some h, by
    have := List.find?_some h
    simpa using this⟩

theorem mem_gids_of_row (ms : List TaskMapping) (m : TaskMapping)
    (hm : m ∈ ms) : m.gmail_task_id ∈ gids ms :=
  List.mem_map_of_mem (fun mm => mm.gmail_task_id) hm

theorem mem_uids_of_row (ms : List TaskMapping) (m : TaskMapping) (u : Nat)
    (hm : m ∈ ms) (hu : m.icloud_reminder_uid = some u) : u ∈ uids ms :=
  List.mem_filterMap.mpr ⟨m, hm, by rw [hu]⟩

theorem gids_nodup_inj (ms : List TaskMapping) (h : (gids ms).Nodup) :
    ∀ m1 ∈ ms, ∀ m2 ∈ ms,
    m1.gmail_task_id = m2.gmail_task_id → m1 = m2 := by
  intro m1 h1 m2 h2 he
  exact List.inj_on_of_nodup_map h h1 h2 he

theorem uids_nodup_inj (ms : List TaskMapping) :
    (uids ms).Nodup → ∀ m1 ∈ ms, ∀ m2 ∈ ms, ∀ u,
    m1.icloud_reminder_uid = some u → m2.icloud_reminder_uid = some u →
    m1 = m2 := by
  induction ms with
  | nil => intro _ m1 h1; cases h1
  | cons a ms ih =>
    intro hnd m1 h1 m2 h2 u hu1 hu2
    rw [uids_cons] at hnd
    rcases ha : a.icloud_reminder_uid with _ | v
    · rw [ha] at hnd
      rcases List.mem_cons.mp h1 with h1' | h1'
      · rw [h1', ha] at hu1; cases hu1
      · rcases List.mem_cons.mp h2 with h2' | h2'
        · rw [h2', ha] at hu2; cases hu2
        · exact ih hnd m1 h1' m2 h2' u hu1 hu2
    · rw [ha] at hnd
      have hv : v ∉ uids ms := (List.nodup_cons.mp hnd).1
      rcases List.mem_cons.mp h1 with h1' | h1'
      · rcases List.mem_cons.mp h2 with h2' | h2'
        · rw [h1', h2']
        · rw [h1', ha] at hu1
          have : v = u := by injection hu1
          exact absurd (this ▸ mem_uids_of_row ms m2 u h2' hu2) hv
      · rcases List.mem_cons.mp h2 with h2' | h2'
        · rw [h2', ha] at hu2
          have : v = u := by injection hu2
          exact absurd (this ▸ mem_uids_of_row ms m1 u h1' hu1) hv
        · exact ih (List.nodup_cons.mp hnd).2 m1 h1' m2 h2' u hu1 hu2

theorem mem_uids_updateFirst_setUid_new (g rid : Nat)
    (f : TaskMapping → TaskMapping)
    (hf : ∀ mm, (f mm).icloud_reminder_uid = some rid) :
    ∀ (ms : List TaskMapping), (∃ m0 ∈ ms, m0.gmail_task_id = g) →
    rid ∈ uids (updateFirstByGid ms g f) := by
  intro ms
  induction ms with
  | nil => rintro ⟨m0, h0, _⟩; cases h0
  | cons a ms ih =>
    rintro ⟨m0, h0, hg0⟩
    unfold updateFirstByGid
    split
    · rw [uids_cons, hf]
      exact List.mem_cons_self rid _
    · rename_i hbeq
      have ha : a.gmail_task_id ≠ g := by simpa using hbeq
      rcases List.mem_cons.mp h0 with h | h
      · exact absurd (h ▸ hg0) ha
      · have := ih ⟨m0, h, hg0⟩
        rw [uids_cons]
        rcases a.icloud_reminder_uid with _ | v
        · exact this
        · exact List.mem_cons_of_mem v this

theorem mem_uids_updateFirst_mono (g rid : Nat)
    (f : TaskMapping → TaskMapping)
    (hf : ∀ mm, (f mm).icloud_reminder_uid = some rid) :
    ∀ (ms : List TaskMapping) (m0 : TaskMapping),
    ms.find? (fun m => m.gmail_task_id == g) = some m0 →
    m0.icloud_reminder_uid = none →
    ∀ u ∈ uids ms, u ∈ uids (updateFirstByGid ms g f) := by
  intro ms
  induction ms with
  | nil => intro m0 h0; cases h0
  | cons a ms ih =>
    intro m0 hfind h0 u hu
    rw [List.find?_cons] at hfind
    unfold updateFirstByGid
    by_cases hbeq : (a.gmail_task_id == g) = true
    · rw [hbeq] at hfind
      simp only at hfind
      have ha : a = m0 := by injection hfind
      rw [if_pos hbeq, uids_cons, hf]
      rw [uids_cons, ha, h0] at hu
      exact List.mem_cons_of_mem rid hu
    · have hbeq' : (a.gmail_task_id == g) = false := by simpa using hbeq
      rw [hbeq'] at hfind
      simp only at hfind
      rw [if_neg hbeq, uids_cons]
      rw [uids_cons] at hu
      rcases ha : a.icloud_reminder_uid with _ | v
      · rw [ha] at hu
        exact ih m0 hfind h0 u hu
      · rw [ha] at hu
        rcases List.mem_cons.mp hu with h | h
        · exact h ▸ List.mem_cons_self v _
        · exact List.mem_cons_of_mem v (ih m0 hfind h0 u h)

theorem mem_rems_update_ne (env : Env) (st : St) (remId : Nat)
    (s d : Option String) (c : Option Bool) (du : Option String) (r : Rem)
    (hr : r ∈ st.rems) (hne : r.id ≠ remId) :
    r ∈ (updateReminderOp env st remId s d c du).2.1.rems := by
  unfold updateReminderOp
  split
  · exact hr
  · split
    · exact hr
    · have h2 : (fun r' => if r'.id == remId then
          applyRemUpdate r' s d c du else r') r = r := by
        simp [hne]
      exact h2 ▸ List.mem_map_of_mem _ hr

theorem updateReminderOp_touchR (env : Env) (st : St) (remId : Nat)
    (s d : Option String) (c : Option Bool) (du : Option String) :
    ∀ r' ∈ (updateReminderOp env st remId s d c du).2.1.rems,
    (r'.id, r'.summary) ∈ remSkel st.rems ∨ r'.id = remId := by
  intro r' hr'
  unfold updateReminderOp at hr'
  split at hr'
  · exact Or.inl (List.mem_map_of_mem _ hr')
  · split at hr'
    · exact Or.inl (List.mem_map_of_mem _ hr')
    · simp only at hr'
      rcases List.mem_map.mp hr' with ⟨r0, h0, he⟩
      by_cases hb : (r0.id == remId) = true
      · rw [if_pos hb] at he
        refine Or.inr ?_
        rw [← he, applyRemUpdate_id]
        simpa using hb
      · rw [if_neg hb] at he
        exact Or.inl (he ▸ List.mem_map_of_mem _ h0)

theorem updateTaskOp_touchT (env : Env) (st : St) (listId : String)
    (taskId : Nat) (u : TaskUpdate) :
    ∀ t' ∈ (updateTaskOp env st listId taskId u).2.1.tasks,
    (t'.id, t'.title) ∈ taskSkel st.tasks ∨ t'.id = taskId := by
  intro t' ht'
  unfold updateTaskOp at ht'
  split at ht'
  · exact Or.inl (List.mem_map_of_mem _ ht')
  · split at ht'
    · exact Or.inl (List.mem_map_of_mem _ ht')
    · simp only at ht'
      rcases List.mem_map.mp ht' with ⟨t0, h0, he⟩
      by_cases hb : (t0.id == taskId) = true
      · rw [if_pos hb] at he
        refine Or.inr ?_
        rw [← he, applyTaskUpdate_id]
        simpa using hb
      · rw [if_neg hb] at he
        exact Or.inl (he ▸ List.mem_map_of_mem _ h0)

theorem updateReminderOp_remSkel (env : Env) (st : St) (remId : Nat)
    (d : Option String) (c : Option Bool) (du : Option String) :
    remSkel (updateReminderOp env st remId none d c du).2.1.rems =
      remSkel st.rems := by
  unfold updateReminderOp
  split
  · rfl
  · split
    · rfl
    · simp only [remSkel, List.map_map]
      apply List.map_congr_left
      intro r _
      simp only [Function.comp]
      split
      · simp [applyRemUpdate]
      · rfl

theorem updateTaskOp_taskSkel (env : Env) (st : St) (listId : String)
    (taskId : Nat) (u : TaskUpdate) (hu : u.title = none) :
    taskSkel (updateTaskOp env st listId taskId u).2.1.tasks =
      taskSkel st.tasks := by
  unfold updateTaskOp
  split
  · rfl
  · split
    · rfl
    · simp only [taskSkel, List.map_map]
      apply List.map_congr_left
      intro t _
      simp only [Function.comp]
      split
      · simp [applyTaskUpdate, hu]
      · rfl

theorem nat_contains_of_mem {a : Nat} {l : List Nat} (h : a ∈ l) :
    l.contains a = true :=
  List.elem_iff.mpr h

theorem nat_mem_of_contains {a : Nat} {l : List Nat}
    (h : l.contains a = true) : a ∈ l :=
  List.elem_iff.mp h

theorem mem_gids_of_extends {st st' : St} (he : Extends st st') {g : Nat}
    (h : g ∈ gids st.mappings) : g ∈ gids st'.mappings := by
  obtain ⟨⟨a, ha⟩, _, _⟩ := he
  rw [ha]
  exact List.mem_append_left a h

theorem mem_skel_of_mem_rems {rs : List Rem} {r : Rem} (h : r ∈ rs) :
    (r.id, r.summary) ∈ remSkel rs :=
  List.mem_map_of_mem _ h

theorem mem_skel_of_mem_tasks {ts : List GTask} {t : GTask} (h : t ∈ ts) :
    (t.id, t.title) ∈ taskSkel ts :=
  List.mem_map_of_mem _ h

theorem gids_append (xs ys : List TaskMapping) :
    gids (xs ++ ys) = gids xs ++ gids ys := List.map_append _ xs ys

theorem uids_append (xs ys : List TaskMapping) :
    uids (xs ++ ys) = uids xs ++ uids ys := List.filterMap_append xs ys _

theorem taskIds_append (xs ys : List GTask) :
    taskIds (xs ++ ys) = taskIds xs ++ taskIds ys := List.map_append _ xs ys

theorem remIds_append (xs ys : List Rem) :
    remIds (xs ++ ys) = remIds xs ++ remIds ys := List.map_append _ xs ys

theorem nodup_snoc {l : List Nat} {a : Nat} (h : l.Nodup) (ha : a ∉ l) :
    (l ++ [a]).Nodup := by
  rw [List.nodup_append]
  exact ⟨h, List.nodup_singleton a, by
    intro x hx hx'
    rw [List.mem_singleton] at hx'
    exact ha (hx' ▸ hx)⟩

theorem forall_mem_snoc {l : List Nat} {a : Nat} {P : Nat → Prop}
    (h : ∀ i ∈ l, P i) (ha : P a) : ∀ i ∈ l ++ [a], P i := by
  intro i hi
  rcases List.mem_append.mp hi with h' | h'
  · exact h i h'
  · rw [List.mem_singleton] at h'
    exact h' ▸ ha

theorem not_mem_of_bound {l : List Nat} {a : Nat}
    (h : ∀ i ∈ l, i < a) : a ∉ l :=
  fun hc => absurd (h a hc) (Nat.lt_irrefl a)

/-- Frame of sync_gmail_task_to_icloud: the remote store, its counter and
the settings are untouched, the local fresh-id counter only grows, and no
mapped reminder uid is ever lost. -/
theorem sync_gmail_task_to_icloud_parts (env : Env) (st : St) (task : GTask)
    (tl cal : String) :
    (sync_gmail_task_to_icloud env st task tl cal).2.1.tasks = st.tasks ∧
    (sync_gmail_task_to_icloud env st task tl cal).2.1.nextTaskId = st.nextTaskId ∧
    (sync_gmail_task_to_icloud env st task tl cal).2.1.settingDirection = st.settingDirection ∧
    (sync_gmail_task_to_icloud env st task tl cal).2.1.settingTaskList = st.settingTaskList ∧
    (sync_gmail_task_to_icloud env st task tl cal).2.1.settingCalendar = st.settingCalendar ∧
    st.nextRemId ≤ (sync_gmail_task_to_icloud env st task tl cal).2.1.nextRemId ∧
    (∀ u ∈ uids st.mappings,
      u ∈ uids (sync_gmail_task_to_icloud env st task tl cal).2.1.mappings) := by
  rcases hM : st.mappings.find? (fun m => m.gmail_task_id == task.id) with _ | m
  · by_cases hc : env.failCreateReminder (task.title.getD "Untitled Task") = true
    · refine ⟨?_, ?_, ?_, ?_, ?_, ?_, ?_⟩ <;>
        simp [sync_gmail_task_to_icloud, hM,
          createReminderOp_fail env st cal _ _ _ hc]
    · have hc' : env.failCreateReminder (task.title.getD "Untitled Task") = false := by
        simpa using hc
      refine ⟨?_, ?_, ?_, ?_, ?_, ?_, ?_⟩ <;>
        simp [sync_gmail_task_to_icloud, hM,
          createReminderOp_okEq env st cal _ _ _ hc', uids_append,
          Nat.le_succ] <;>
        exact fun u hu => Or.inl hu
  · rcases hU : m.icloud_reminder_uid with _ | u
    · -- existing row without uid: create and relink
      by_cases hc : env.failCreateReminder (task.title.getD "Untitled Task") = true
      · refine ⟨?_, ?_, ?_, ?_, ?_, ?_, ?_⟩ <;>
          simp [sync_gmail_task_to_icloud, hM, hU,
            createReminderOp_fail env st cal _ _ _ hc]
      · have hc' : env.failCreateReminder (task.title.getD "Untitled Task") = false := by
          simpa using hc
        refine ⟨?_, ?_, ?_, ?_, ?_, ?_, ?_⟩ <;>
          simp [sync_gmail_task_to_icloud, hM, hU,
            createReminderOp_okEq env st cal _ _ _ hc', Nat.le_succ]
        intro u' hu'
        exact mem_uids_updateFirst_mono task.id st.nextRemId _
          (fun mm => rfl) st.mappings m hM hU u' hu'
    · -- existing row with uid: update path
      rcases hcall : updateReminderOp env st u
          (some (task.title.getD "Untitled Task"))
          (some (task.notes.getD "")) (some (taskCompleted task)) task.due
        with ⟨e, st1, ops1⟩
      have hp := updateReminderOp_parts env st u
        (some (task.title.getD "Untitled Task"))
        (some (task.notes.getD "")) (some (taskCompleted task)) task.due
      rw [hcall] at hp
      have h1 : st1.tasks = st.tasks := hp.1
      have h2 : st1.mappings = st.mappings := hp.2.1
      have h3 : st1.nextTaskId = st.nextTaskId := hp.2.2.1
      have h4 : st1.nextRemId = st.nextRemId := hp.2.2.2.1
      have h5 : st1.settingDirection = st.settingDirection := hp.2.2.2.2.1
      have h6 : st1.settingTaskList = st.settingTaskList := hp.2.2.2.2.2.1
      have h7 : st1.settingCalendar = st.settingCalendar := hp.2.2.2.2.2.2.1
      have huids : uids (updateFirstByGid st.mappings task.id
          (fun mm => { mm with title := task.title.getD "Untitled Task" })) =
          uids st.mappings :=
        uids_updateFirstByGid st.mappings task.id
          (fun mm => { mm with title := task.title.getD "Untitled Task" })
          (fun mm => rfl)
      cases e <;>
        refine ⟨?_, ?_, ?_, ?_, ?_, ?_, ?_⟩ <;>
        simp [sync_gmail_task_to_icloud, hM, hU, hcall, h1, h2, h3, h4, h5,
          h6, h7, huids]

/-- Pushing one gmail task preserves the database invariants: the consult
of the mapping table before any create keeps gmail ids unique, and fresh
reminder ids keep reminder ids and mapped uids unique. -/
theorem sync_gmail_task_to_icloud_wf (env : Env) (st : St) (task : GTask)
    (tl cal : String) (hb : task.id < st.nextTaskId) (hwf : st.wf) :
    (sync_gmail_task_to_icloud env st task tl cal).2.1.wf := by
  rcases hM : st.mappings.find? (fun m => m.gmail_task_id == task.id) with _ | m
  · by_cases hc : env.failCreateReminder (task.title.getD "Untitled Task") = true
    · have hF : (sync_gmail_task_to_icloud env st task tl cal).2.1 = st := by
        simp [sync_gmail_task_to_icloud, hM,
          createReminderOp_fail env st cal _ _ _ hc]
      rw [hF]
      exact hwf
    · have hc' : env.failCreateReminder (task.title.getD "Untitled Task") = false := by
        simpa using hc
      obtain ⟨w1, w2, w3, w4, w5, w6, w7, w8⟩ := hwf
      have hF : (sync_gmail_task_to_icloud env st task tl cal).2.1 =
          { st with
            rems := (st.rems ++ [Rem.mk st.nextRemId
              (task.title.getD "Untitled Task")
              (if (task.notes.getD "") != "" then some (task.notes.getD "")
                else none) task.due false])
            nextRemId := st.nextRemId + 1
            mappings := (st.mappings ++ [TaskMapping.mk task.id tl
              (some st.nextRemId) (some cal)
              (task.title.getD "Untitled Task") false]) } := by
        simp [sync_gmail_task_to_icloud, hM,
          createReminderOp_okEq env st cal _ _ _ hc']
      rw [St.wf, hF]
      refine ⟨w1, w2, ?_, ?_, ?_, ?_, ?_, ?_⟩
      · rw [remIds_append]
        exact nodup_snoc w3 (not_mem_of_bound w4)
      · rw [remIds_append]
        exact forall_mem_snoc (fun i hi => Nat.lt_succ_of_lt (w4 i hi))
          (Nat.lt_succ_self _)
      · rw [gids_append]
        exact nodup_snoc w5 (not_mem_gids_of_find?_none st.mappings task.id hM)
      · rw [gids_append]
        exact forall_mem_snoc w6 hb
      · rw [uids_append]
        exact nodup_snoc w7 (not_mem_of_bound w8)
      · rw [uids_append]
        exact forall_mem_snoc (fun i hi => Nat.lt_succ_of_lt (w8 i hi))
          (Nat.lt_succ_self _)
  · rcases hU : m.icloud_reminder_uid with _ | u
    · by_cases hc : env.failCreateReminder (task.title.getD "Untitled Task") = true
      · have hF : (sync_gmail_task_to_icloud env st task tl cal).2.1 = st := by
          simp [sync_gmail_task_to_icloud, hM, hU,
            createReminderOp_fail env st cal _ _ _ hc]
        rw [hF]
        exact hwf
      · have hc' : env.failCreateReminder (task.title.getD "Untitled Task") = false := by
          simpa using hc
        obtain ⟨w1, w2, w3, w4, w5, w6, w7, w8⟩ := hwf
        have hF : (sync_gmail_task_to_icloud env st task tl cal).2.1 =
            { st with
              rems := (st.rems ++ [Rem.mk st.nextRemId
                (task.title.getD "Untitled Task")
                (if (task.notes.getD "") != "" then some (task.notes.getD "")
                  else none) task.due false])
              nextRemId := st.nextRemId + 1
              mappings := (updateFirstByGid st.mappings task.id
                (fun mm => { mm with
                  icloud_reminder_uid := some st.nextRemId
                  icloud_calendar_url := some cal
                  title := task.title.getD "Untitled Task" })) } := by
          simp [sync_gmail_task_to_icloud, hM, hU,
            createReminderOp_okEq env st cal _ _ _ hc']
        have hg : gids (updateFirstByGid st.mappings task.id
            (fun mm => { mm with
              icloud_reminder_uid := some st.nextRemId
              icloud_calendar_url := some cal
              title := task.title.getD "Untitled Task" })) =
            gids st.mappings :=
          gids_updateFirstByGid st.mappings task.id _ (fun mm => rfl)
        have hud := uids_updateFirst_setUid task.id st.nextRemId
          (fun mm => { mm with
            icloud_reminder_uid := some st.nextRemId
            icloud_calendar_url := some cal
            title := task.title.getD "Untitled Task" })
          (fun mm => rfl) st.mappings w7 (not_mem_of_bound w8)
        rw [St.wf, hF]
        refine ⟨w1, w2, ?_, ?_, ?_, ?_, ?_, ?_⟩
        · rw [remIds_append]
          exact nodup_snoc w3 (not_mem_of_bound w4)
        · rw [remIds_append]
          exact forall_mem_snoc (fun i hi => Nat.lt_succ_of_lt (w4 i hi))
            (Nat.lt_succ_self _)
        · rw [hg]
          exact w5
        · rw [hg]
          exact w6
        · exact hud.1
        · intro i hi
          rcases hud.2 i hi with h | h
          · exact Nat.lt_succ_of_lt (w8 i h)
          · exact h ▸ Nat.lt_succ_self _
    · rcases hcall : updateReminderOp env st u
        (some (task.title.getD "Untitled Task"))
        (some (task.notes.getD "")) (some (taskCompleted task)) task.due
        with ⟨e, st1, ops1⟩
      have hp := updateReminderOp_parts env st u
        (some (task.title.getD "Untitled Task"))
        (some (task.notes.getD "")) (some (taskCompleted task)) task.due
      rw [hcall] at hp
      have h1 : st1.tasks = st.tasks := hp.1
      have h2 : st1.mappings = st.mappings := hp.2.1
      have h3 : st1.nextTaskId = st.nextTaskId := hp.2.2.1
      have h4 : st1.nextRemId = st.nextRemId := hp.2.2.2.1
      have h8 : remIds st1.rems = remIds st.rems := hp.2.2.2.2.2.2.2.1
      cases e with
      | ok v =>
        have hF : (sync_gmail_task_to_icloud env st task tl cal).2.1 =
            { st1 with mappings := (updateFirstByGid st1.mappings task.id
              (fun mm => { mm with
                title := task.title.getD "Untitled Task" })) } := by
          simp [sync_gmail_task_to_icloud, hM, hU, hcall]
        rw [hF]
        refine wf_of_parts hwf ?_ ?_ ?_ ?_ ?_ ?_
        · exact (show taskIds st1.tasks = taskIds st.tasks by rw [h1])
        · exact h3
        · exact h8
        · exact h4
        · exact (show gids (updateFirstByGid st1.mappings task.id
            (fun mm => { mm with
              title := task.title.getD "Untitled Task" })) =
            gids st.mappings by
            rw [gids_updateFirstByGid st1.mappings task.id
              (fun mm => { mm with
                title := task.title.getD "Untitled Task" })
              (fun mm => rfl), h2])
        · exact (show uids (updateFirstByGid st1.mappings task.id
            (fun mm => { mm with
              title := task.title.getD "Untitled Task" })) =
            uids st.mappings by
            rw [uids_updateFirstByGid st1.mappings task.id
              (fun mm => { mm with
                title := task.title.getD "Untitled Task" })
              (fun mm => rfl), h2])
      | error err =>
        have hF : (sync_gmail_task_to_icloud env st task tl cal).2.1 = st1 := by
          simp [sync_gmail_task_to_icloud, hM, hU, hcall]
        rw [hF]
        exact wf_of_parts hwf (by rw [h1]) h3 h8 h4 (by rw [h2]) (by rw [h2])

/-- When no create can fail, pushing a gmail task always leaves a mapping
row keyed by that task's id (found, relinked or freshly appended). -/
theorem sync_gmail_task_to_icloud_covers (env : Env) (st : St)
    (task : GTask) (tl cal : String)
    (hcr : ∀ s, env.failCreateReminder s = false) :
    task.id ∈ gids (sync_gmail_task_to_icloud env st task tl cal).2.1.mappings := by
  rcases hM : st.mappings.find? (fun m => m.gmail_task_id == task.id) with _ | m
  · have hc' := hcr (task.title.getD "Untitled Task")
    have hF : (sync_gmail_task_to_icloud env st task tl cal).2.1 =
        { st with
          rems := (st.rems ++ [Rem.mk st.nextRemId
            (task.title.getD "Untitled Task")
            (if (task.notes.getD "") != "" then some (task.notes.getD "")
              else none) task.due false])
          nextRemId := st.nextRemId + 1
          mappings := (st.mappings ++ [TaskMapping.mk task.id tl
            (some st.nextRemId) (some cal)
            (task.title.getD "Untitled Task") false]) } := by
      simp [sync_gmail_task_to_icloud, hM,
        createReminderOp_okEq env st cal _ _ _ hc']
    rw [hF]
    exact mem_gids_of_row _ (TaskMapping.mk task.id tl
      (some st.nextRemId) (some cal) (task.title.getD "Untitled Task") false)
      (List.mem_append_right _ (List.mem_singleton_self _))
  · obtain ⟨hmem, hgid⟩ := find?_gid_some_facts _ _ _ hM
    rcases hU : m.icloud_reminder_uid with _ | u
    · have hc' := hcr (task.title.getD "Untitled Task")
      have hF : (sync_gmail_task_to_icloud env st task tl cal).2.1 =
          { st with
            rems := (st.rems ++ [Rem.mk st.nextRemId
              (task.title.getD "Untitled Task")
              (if (task.notes.getD "") != "" then some (task.notes.getD "")
                else none) task.due false])
            nextRemId := st.nextRemId + 1
            mappings := (updateFirstByGid st.mappings task.id
              (fun mm => { mm with
                icloud_reminder_uid := some st.nextRemId
                icloud_calendar_url := some cal
                title := task.title.getD "Untitled Task" })) } := by
        simp [sync_gmail_task_to_icloud, hM, hU,
          createReminderOp_okEq env st cal _ _ _ hc']
      rw [hF]
      exact (show task.id ∈ gids (updateFirstByGid st.mappings task.id
          (fun mm => { mm with
            icloud_reminder_uid := some st.nextRemId
            icloud_calendar_url := some cal
            title := task.title.getD "Untitled Task" })) by
        rw [gids_updateFirstByGid st.mappings task.id
          (fun mm => { mm with
            icloud_reminder_uid := some st.nextRemId
            icloud_calendar_url := some cal
            title := task.title.getD "Untitled Task" }) (fun mm => rfl)]
        exact hgid ▸ mem_gids_of_row _ m hmem)
    · rcases hcall : updateReminderOp env st u
          (some (task.title.getD "Untitled Task"))
          (some (task.notes.getD "")) (some (taskCompleted task)) task.due
        with ⟨e, st1, ops1⟩
      have hp := updateReminderOp_parts env st u
        (some (task.title.getD "Untitled Task"))
        (some (task.notes.getD "")) (some (taskCompleted task)) task.due
      rw [hcall] at hp
      have h2 : st1.mappings = st.mappings := hp.2.1
      cases e with
      | ok v =>
        have hF : (sync_gmail_task_to_icloud env st task tl cal).2.1 =
            { st1 with mappings := (updateFirstByGid st1.mappings task.id
              (fun mm => { mm with
                title := task.title.getD "Untitled Task" })) } := by
          simp [sync_gmail_task_to_icloud, hM, hU, hcall]
        rw [hF]
        exact (show task.id ∈ gids (updateFirstByGid st1.mappings task.id
            (fun mm => { mm with
              title := task.title.getD "Untitled Task" })) by
          rw [gids_updateFirstByGid st1.mappings task.id
            (fun mm => { mm with
              title := task.title.getD "Untitled Task" }) (fun mm => rfl), h2]
          exact hgid ▸ mem_gids_of_row _ m hmem)
      | error err =>
        have hF : (sync_gmail_task_to_icloud env st task tl cal).2.1 = st1 := by
          simp [sync_gmail_task_to_icloud, hM, hU, hcall]
        rw [hF]
        exact (show task.id ∈ gids st1.mappings by
          rw [h2]
          exact hgid ▸ mem_gids_of_row _ m hmem)

/-- Every reminder present after pushing one gmail task either already
existed with the same id and title, or its id is linked by a mapping row
of the resulting state. -/
theorem sync_gmail_task_to_icloud_touchR (env : Env) (st : St)
    (task : GTask) (tl cal : String) :
    ∀ r ∈ (sync_gmail_task_to_icloud env st task tl cal).2.1.rems,
    (r.id, r.summary) ∈ remSkel st.rems ∨
    r.id ∈ uids (sync_gmail_task_to_icloud env st task tl cal).2.1.mappings := by
  rcases hM : st.mappings.find? (fun m => m.gmail_task_id == task.id) with _ | m
  · by_cases hc : env.failCreateReminder (task.title.getD "Untitled Task") = true
    · have hF : (sync_gmail_task_to_icloud env st task tl cal).2.1 = st := by
        simp [sync_gmail_task_to_icloud, hM,
          createReminderOp_fail env st cal _ _ _ hc]
      rw [hF]
      exact fun r hr => Or.inl (mem_skel_of_mem_rems hr)
    · have hc' : env.failCreateReminder (task.title.getD "Untitled Task") = false := by
        simpa using hc
      have hF : (sync_gmail_task_to_icloud env st task tl cal).2.1 =
          { st with
            rems := (st.rems ++ [Rem.mk st.nextRemId
              (task.title.getD "Untitled Task")
              (if (task.notes.getD "") != "" then some (task.notes.getD "")
                else none) task.due false])
            nextRemId := st.nextRemId + 1
            mappings := (st.mappings ++ [TaskMapping.mk task.id tl
              (some st.nextRemId) (some cal)
              (task.title.getD "Untitled Task") false]) } := by
        simp [sync_gmail_task_to_icloud, hM,
          createReminderOp_okEq env st cal _ _ _ hc']
      rw [hF]
      intro r hr
      rcases List.mem_append.mp hr with h | h
      · exact Or.inl (mem_skel_of_mem_rems h)
      · rw [List.mem_singleton] at h
        refine Or.inr ?_
        rw [h]
        exact mem_uids_of_row _ (TaskMapping.mk task.id tl
          (some st.nextRemId) (some cal) (task.title.getD "Untitled Task")
          false) st.nextRemId
          (List.mem_append_right _ (List.mem_singleton_self _)) rfl
  · obtain ⟨hmem, hgid⟩ := find?_gid_some_facts _ _ _ hM
    rcases hU : m.icloud_reminder_uid with _ | u
    · by_cases hc : env.failCreateReminder (task.title.getD "Untitled Task") = true
      · have hF : (sync_gmail_task_to_icloud env st task tl cal).2.1 = st := by
          simp [sync_gmail_task_to_icloud, hM, hU,
            createReminderOp_fail env st cal _ _ _ hc]
        rw [hF]
        exact fun r hr => Or.inl (mem_skel_of_mem_rems hr)
      · have hc' : env.failCreateReminder (task.title.getD "Untitled Task") = false := by
          simpa using hc
        have hF : (sync_gmail_task_to_icloud env st task tl cal).2.1 =
            { st with
              rems := (st.rems ++ [Rem.mk st.nextRemId
                (task.title.getD "Untitled Task")
                (if (task.notes.getD "") != "" then some (task.notes.getD "")
                  else none) task.due false])
              nextRemId := st.nextRemId + 1
              mappings := (updateFirstByGid st.mappings task.id
                (fun mm => { mm with
                  icloud_reminder_uid := some st.nextRemId
                  icloud_calendar_url := some cal
                  title := task.title.getD "Untitled Task" })) } := by
          simp [sync_gmail_task_to_icloud, hM, hU,
            createReminderOp_okEq env st cal _ _ _ hc']
        rw [hF]
        intro r hr
        rcases List.mem_append.mp hr with h | h
        · exact Or.inl (mem_skel_of_mem_rems h)
        · rw [List.mem_singleton] at h
          refine Or.inr ?_
          rw [h]
          exact mem_uids_updateFirst_setUid_new task.id st.nextRemId
            (fun mm => { mm with
              icloud_reminder_uid := some st.nextRemId
              icloud_calendar_url := some cal
              title := task.title.getD "Untitled Task" })
            (fun mm => rfl) st.mappings ⟨m, hmem, hgid⟩
    · rcases hcall : updateReminderOp env st u
          (some (task.title.getD "Untitled Task"))
          (some (task.notes.getD "")) (some (taskCompleted task)) task.due
        with ⟨e, st1, ops1⟩
      have hp := updateReminderOp_parts env st u
        (some (task.title.getD "Untitled Task"))
        (some (task.notes.getD "")) (some (taskCompleted task)) task.due
      rw [hcall] at hp
      have h2 : st1.mappings = st.mappings := hp.2.1
      have htouch := updateReminderOp_touchR env st u
        (some (task.title.getD "Untitled Task"))
        (some (task.notes.getD "")) (some (taskCompleted task)) task.due
      rw [hcall] at htouch
      have humem : u ∈ uids st.mappings := mem_uids_of_row _ m u hmem hU
      cases e with
      | ok v =>
        have hF : (sync_gmail_task_to_icloud env st task tl cal).2.1 =
            { st1 with mappings := (updateFirstByGid st1.mappings task.id
              (fun mm => { mm with
                title := task.title.getD "Untitled Task" })) } := by
          simp [sync_gmail_task_to_icloud, hM, hU, hcall]
        rw [hF]
        intro r hr
        rcases htouch r hr with h | h
        · exact Or.inl h
        · refine Or.inr ?_
          rw [h]
          exact (show u ∈ uids (updateFirstByGid st1.mappings task.id
              (fun mm => { mm with
                title := task.title.getD "Untitled Task" })) by
            rw [uids_updateFirstByGid st1.mappings task.id
              (fun mm => { mm with
                title := task.title.getD "Untitled Task" })
              (fun mm => rfl), h2]
            exact humem)
      | error err =>
        have hF : (sync_gmail_task_to_icloud env st task tl cal).2.1 = st1 := by
          simp [sync_gmail_task_to_icloud, hM, hU, hcall]
        rw [hF]
        intro r hr
        rcases htouch r hr with h | h
        · exact Or.inl h
        · refine Or.inr ?_
          rw [h, h2]
          exact humem

/-- Frame of sync_icloud_reminder_to_gmail: the local store, its counter
and the settings are untouched, the remote fresh-id counter only grows,
and no mapped reminder uid is ever lost. -/
theorem sync_icloud_reminder_to_gmail_parts (env : Env) (st : St)
    (reminder : Rem) (cal tl : String) :
    (sync_icloud_reminder_to_gmail env st reminder cal tl).2.1.rems = st.rems ∧
    (sync_icloud_reminder_to_gmail env st reminder cal tl).2.1.nextRemId = st.nextRemId ∧
    (sync_icloud_reminder_to_gmail env st reminder cal tl).2.1.settingDirection = st.settingDirection ∧
    (sync_icloud_reminder_to_gmail env st reminder cal tl).2.1.settingTaskList = st.settingTaskList ∧
    (sync_icloud_reminder_to_gmail env st reminder cal tl).2.1.settingCalendar = st.settingCalendar ∧
    st.nextTaskId ≤ (sync_icloud_reminder_to_gmail env st reminder cal tl).2.1.nextTaskId ∧
    (∀ u ∈ uids st.mappings,
      u ∈ uids (sync_icloud_reminder_to_gmail env st reminder cal tl).2.1.mappings) := by
  rcases hM : st.mappings.find?
      (fun m => m.icloud_reminder_uid == some reminder.id) with _ | m
  · by_cases hct : env.failCreateTask reminder.summary = true
    · refine ⟨?_, ?_, ?_, ?_, ?_, ?_, ?_⟩ <;>
        simp [sync_icloud_reminder_to_gmail, hM,
          createTaskOp_fail env st tl reminder.summary reminder.description
            reminder.due _ hct]
    · have hct' : env.failCreateTask reminder.summary = false := by
        simpa using hct
      refine ⟨?_, ?_, ?_, ?_, ?_, ?_, ?_⟩ <;>
        simp [sync_icloud_reminder_to_gmail, hM,
          createTaskOp_okEq env st tl reminder.summary reminder.description
            reminder.due _ hct', uids_append, Nat.le_succ] <;>
        exact fun u hu => Or.inl hu
  · rcases hcall : updateTaskOp env st m.gmail_task_list_id m.gmail_task_id
        { title := some reminder.summary
          notes := if optStrTruthy reminder.description then
            reminder.description else none
          due := match reminder.due with
            | some d => some (d ++ "Z")
            | none => none
          status := some (if reminder.completed then "completed"
            else "needsAction") } with ⟨e, st1, ops1⟩
    have hp := updateTaskOp_parts env st m.gmail_task_list_id m.gmail_task_id
      { title := some reminder.summary
        notes := if optStrTruthy reminder.description then
          reminder.description else none
        due := match reminder.due with
          | some d => some (d ++ "Z")
          | none => none
        status := some (if reminder.completed then "completed"
          else "needsAction") }
    rw [hcall] at hp
    have h1 : st1.rems = st.rems := hp.1
    have h2 : st1.mappings = st.mappings := hp.2.1
    have h3 : st1.nextTaskId = st.nextTaskId := hp.2.2.1
    have h4 : st1.nextRemId = st.nextRemId := hp.2.2.2.1
    have h5 : st1.settingDirection = st.settingDirection := hp.2.2.2.2.1
    have h6 : st1.settingTaskList = st.settingTaskList := hp.2.2.2.2.2.1
    have h7 : st1.settingCalendar = st.settingCalendar := hp.2.2.2.2.2.2.1
    have huids : uids (updateFirstByGid st.mappings m.gmail_task_id
        (fun mm => { mm with title := reminder.summary })) =
        uids st.mappings :=
      uids_updateFirstByGid st.mappings m.gmail_task_id
        (fun mm => { mm with title := reminder.summary }) (fun mm => rfl)
    cases e <;>
      refine ⟨?_, ?_, ?_, ?_, ?_, ?_, ?_⟩ <;>
      simp [sync_icloud_reminder_to_gmail, hM, hcall, h1, h2, h3, h4, h5,
        h6, h7, huids]

/-- Pushing one iCloud reminder preserves the database invariants. -/
theorem sync_icloud_reminder_to_gmail_wf (env : Env) (st : St)
    (reminder : Rem) (cal tl : String) (hbR : reminder.id < st.nextRemId)
    (hwf : st.wf) :
    (sync_icloud_reminder_to_gmail env st reminder cal tl).2.1.wf := by
  rcases hM : st.mappings.find?
      (fun m => m.icloud_reminder_uid == some reminder.id) with _ | m
  · by_cases hct : env.failCreateTask reminder.summary = true
    · have hF : (sync_icloud_reminder_to_gmail env st reminder cal tl).2.1 = st := by
        simp [sync_icloud_reminder_to_gmail, hM,
          createTaskOp_fail env st tl reminder.summary reminder.description
            reminder.due _ hct]
      rw [hF]
      exact hwf
    · have hct' : env.failCreateTask reminder.summary = false := by
        simpa using hct
      obtain ⟨w1, w2, w3, w4, w5, w6, w7, w8⟩ := hwf
      have hF : (sync_icloud_reminder_to_gmail env st reminder cal tl).2.1 =
          { st with
            tasks := (st.tasks ++ [GTask.mk st.nextTaskId
              (some reminder.summary)
              (if optStrTruthy reminder.description then
                reminder.description else none)
              (reminder.due.map (fun s => s ++ "Z"))
              (if optStrTruthy (some (if reminder.completed then "completed"
                else "needsAction")) then
                some (if reminder.completed then "completed"
                  else "needsAction") else none)])
            nextTaskId := st.nextTaskId + 1
            mappings := (st.mappings ++ [TaskMapping.mk st.nextTaskId tl
              (some reminder.id) (some cal) reminder.summary false]) } := by
        simp [sync_icloud_reminder_to_gmail, hM,
          createTaskOp_okEq env st tl reminder.summary reminder.description
            reminder.due _ hct']
      rw [St.wf, hF]
      refine ⟨?_, ?_, w3, w4, ?_, ?_, ?_, ?_⟩
      · rw [taskIds_append]
        exact nodup_snoc w1 (not_mem_of_bound w2)
      · rw [taskIds_append]
        exact forall_mem_snoc (fun i hi => Nat.lt_succ_of_lt (w2 i hi))
          (Nat.lt_succ_self _)
      · rw [gids_append]
        exact nodup_snoc w5 (not_mem_of_bound w6)
      · rw [gids_append]
        exact forall_mem_snoc (fun i hi => Nat.lt_succ_of_lt (w6 i hi))
          (Nat.lt_succ_self _)
      · rw [uids_append]
        exact nodup_snoc w7 (not_mem_uids_of_find?_none st.mappings
          reminder.id hM)
      · rw [uids_append]
        exact forall_mem_snoc w8 hbR
  · rcases hcall : updateTaskOp env st m.gmail_task_list_id m.gmail_task_id
        { title := some reminder.summary
          notes := if optStrTruthy reminder.description then
            reminder.description else none
          due := match reminder.due with
            | some d => some (d ++ "Z")
            | none => none
          status := some (if reminder.completed then "completed"
            else "needsAction") } with ⟨e, st1, ops1⟩
    have hp := updateTaskOp_parts env st m.gmail_task_list_id m.gmail_task_id
      { title := some reminder.summary
        notes := if optStrTruthy reminder.description then
          reminder.description else none
        due := match reminder.due with
          | some d => some (d ++ "Z")
          | none => none
        status := some (if reminder.completed then "completed"
          else "needsAction") }
    rw [hcall] at hp
    have h1 : st1.rems = st.rems := hp.1
    have h2 : st1.mappings = st.mappings := hp.2.1
    have h3 : st1.nextTaskId = st.nextTaskId := hp.2.2.1
    have h4 : st1.nextRemId = st.nextRemId := hp.2.2.2.1
    have h8 : taskIds st1.tasks = taskIds st.tasks := hp.2.2.2.2.2.2.2.1
    cases e with
    | ok v =>
      have hF : (sync_icloud_reminder_to_gmail env st reminder cal tl).2.1 =
          { st1 with mappings := (updateFirstByGid st1.mappings
            m.gmail_task_id
            (fun mm => { mm with title := reminder.summary })) } := by
        simp [sync_icloud_reminder_to_gmail, hM, hcall]
      rw [hF]
      refine wf_of_parts hwf h8 h3 ?_ h4 ?_ ?_
      · exact (show remIds st1.rems = remIds st.rems by rw [h1])
      · exact (show gids (updateFirstByGid st1.mappings m.gmail_task_id
          (fun mm => { mm with title := reminder.summary })) =
          gids st.mappings by
          rw [gids_updateFirstByGid st1.mappings m.gmail_task_id
            (fun mm => { mm with title := reminder.summary })
            (fun mm => rfl), h2])
      · exact (show uids (updateFirstByGid st1.mappings m.gmail_task_id
          (fun mm => { mm with title := reminder.summary })) =
          uids st.mappings by
          rw [uids_updateFirstByGid st1.mappings m.gmail_task_id
            (fun mm => { mm with title := reminder.summary })
            (fun mm => rfl), h2])
    | error err =>
      have hF : (sync_icloud_reminder_to_gmail env st reminder cal tl).2.1 = st1 := by
        simp [sync_icloud_reminder_to_gmail, hM, hcall]
      rw [hF]
      exact wf_of_parts hwf h8 h3 (by rw [h1]) h4 (by rw [h2]) (by rw [h2])

/-- When no create can fail, pushing an iCloud reminder always leaves a
mapping row linking that reminder's uid. -/
theorem sync_icloud_reminder_to_gmail_covers (env : Env) (st : St)
    (reminder : Rem) (cal tl : String)
    (hct : ∀ s, env.failCreateTask s = false) :
    reminder.id ∈
      uids (sync_icloud_reminder_to_gmail env st reminder cal tl).2.1.mappings := by
  rcases hM : st.mappings.find?
      (fun m => m.icloud_reminder_uid == some reminder.id) with _ | m
  · have hct' := hct reminder.summary
    have hF : (sync_icloud_reminder_to_gmail env st reminder cal tl).2.1 =
        { st with
          tasks := (st.tasks ++ [GTask.mk st.nextTaskId
            (some reminder.summary)
            (if optStrTruthy reminder.description then
              reminder.description else none)
            (reminder.due.map (fun s => s ++ "Z"))
            (if optStrTruthy (some (if reminder.completed then "completed"
              else "needsAction")) then
              some (if reminder.completed then "completed"
                else "needsAction") else none)])
          nextTaskId := st.nextTaskId + 1
          mappings := (st.mappings ++ [TaskMapping.mk st.nextTaskId tl
            (some reminder.id) (some cal) reminder.summary false]) } := by
      simp [sync_icloud_reminder_to_gmail, hM,
        createTaskOp_okEq env st tl reminder.summary reminder.description
          reminder.due _ hct']
    rw [hF]
    exact mem_uids_of_row _ (TaskMapping.mk st.nextTaskId tl
      (some reminder.id) (some cal) reminder.summary false) reminder.id
      (List.mem_append_right _ (List.mem_singleton_self _)) rfl
  · obtain ⟨hmem, huid⟩ := find?_uid_some_facts _ _ _ hM
    have humem : reminder.id ∈ uids st.mappings :=
      mem_uids_of_row _ m reminder.id hmem huid
    rcases hcall : updateTaskOp env st m.gmail_task_list_id m.gmail_task_id
        { title := some reminder.summary
          notes := if optStrTruthy reminder.description then
            reminder.description else none
          due := match reminder.due with
            | some d => some (d ++ "Z")
            | none => none
          status := some (if reminder.completed then "completed"
            else "needsAction") } with ⟨e, st1, ops1⟩
    have hp := updateTaskOp_parts env st m.gmail_task_list_id m.gmail_task_id
      { title := some reminder.summary
        notes := if optStrTruthy reminder.description then
          reminder.description else none
        due := match reminder.due with
          | some d => some (d ++ "Z")
          | none => none
        status := some (if reminder.completed then "completed"
          else "needsAction") }
    rw [hcall] at hp
    have h2 : st1.mappings = st.mappings := hp.2.1
    cases e with
    | ok v =>
      have hF : (sync_icloud_reminder_to_gmail env st reminder cal tl).2.1 =
          { st1 with mappings := (updateFirstByGid st1.mappings
            m.gmail_task_id
            (fun mm => { mm with title := reminder.summary })) } := by
        simp [sync_icloud_reminder_to_gmail, hM, hcall]
      rw [hF]
      exact (show reminder.id ∈ uids (updateFirstByGid st1.mappings
          m.gmail_task_id
          (fun mm => { mm with title := reminder.summary })) by
        rw [uids_updateFirstByGid st1.mappings m.gmail_task_id
          (fun mm => { mm with title := reminder.summary })
          (fun mm => rfl), h2]
        exact humem)
    | error err =>
      have hF : (sync_icloud_reminder_to_gmail env st reminder cal tl).2.1 = st1 := by
        simp [sync_icloud_reminder_to_gmail, hM, hcall]
      rw [hF]
      exact (show reminder.id ∈ uids st1.mappings by rw [h2]; exact humem)

/-- Every remote task present after pushing one iCloud reminder either
already existed with the same id and title, or its id is keyed by a
mapping row of the resulting state. -/
theorem sync_icloud_reminder_to_gmail_touchT (env : Env) (st : St)
    (reminder : Rem) (cal tl : String) :
    ∀ t ∈ (sync_icloud_reminder_to_gmail env st reminder cal tl).2.1.tasks,
    (t.id, t.title) ∈ taskSkel st.tasks ∨
    t.id ∈ gids (sync_icloud_reminder_to_gmail env st reminder cal tl).2.1.mappings := by
  rcases hM : st.mappings.find?
      (fun m => m.icloud_reminder_uid == some reminder.id) with _ | m
  · by_cases hct : env.failCreateTask reminder.summary = true
    · have hF : (sync_icloud_reminder_to_gmail env st reminder cal tl).2.1 = st := by
        simp [sync_icloud_reminder_to_gmail, hM,
          createTaskOp_fail env st tl reminder.summary reminder.description
            reminder.due _ hct]
      rw [hF]
      exact fun t ht => Or.inl (mem_skel_of_mem_tasks ht)
    · have hct' : env.failCreateTask reminder.summary = false := by
        simpa using hct
      have hF : (sync_icloud_reminder_to_gmail env st reminder cal tl).2.1 =
          { st with
            tasks := (st.tasks ++ [GTask.mk st.nextTaskId
              (some reminder.summary)
              (if optStrTruthy reminder.description then
                reminder.description else none)
              (reminder.due.map (fun s => s ++ "Z"))
              (if optStrTruthy (some (if reminder.completed then "completed"
                else "needsAction")) then
                some (if reminder.completed then "completed"
                  else "needsAction") else none)])
            nextTaskId := st.nextTaskId + 1
            mappings := (st.mappings ++ [TaskMapping.mk st.nextTaskId tl
              (some reminder.id) (some cal) reminder.summary false]) } := by
        simp [sync_icloud_reminder_to_gmail, hM,
          createTaskOp_okEq env st tl reminder.summary reminder.description
            reminder.due _ hct']
      rw [hF]
      intro t ht
      rcases List.mem_append.mp ht with h | h
      · exact Or.inl (mem_skel_of_mem_tasks h)
      · rw [List.mem_singleton] at h
        refine Or.inr ?_
        rw [h]
        exact mem_gids_of_row _ (TaskMapping.mk st.nextTaskId tl
          (some reminder.id) (some cal) reminder.summary false)
          (List.mem_append_right _ (List.mem_singleton_self _))
  · obtain ⟨hmem, huid⟩ := find?_uid_some_facts _ _ _ hM
    rcases hcall : updateTaskOp env st m.gmail_task_list_id m.gmail_task_id
        { title := some reminder.summary
          notes := if optStrTruthy reminder.description then
            reminder.description else none
          due := match reminder.due with
            | some d => some (d ++ "Z")
            | none => none
          status := some (if reminder.completed then "completed"
            else "needsAction") } with ⟨e, st1, ops1⟩
    have hp := updateTaskOp_parts env st m.gmail_task_list_id m.gmail_task_id
      { title := some reminder.summary
        notes := if optStrTruthy reminder.description then
          reminder.description else none
        due := match reminder.due with
          | some d => some (d ++ "Z")
          | none => none
        status := some (if reminder.completed then "completed"
          else "needsAction") }
    rw [hcall] at hp
    have h2 : st1.mappings = st.mappings := hp.2.1
    have htouch := updateTaskOp_touchT env st m.gmail_task_list_id
      m.gmail_task_id
      { title := some reminder.summary
        notes := if optStrTruthy reminder.description then
          reminder.description else none
        due := match reminder.due with
          | some d => some (d ++ "Z")
          | none => none
        status := some (if reminder.completed then "completed"
          else "needsAction") }
    rw [hcall] at htouch
    have hgmem : m.gmail_task_id ∈ gids st.mappings := mem_gids_of_row _ m hmem
    cases e with
    | ok v =>
      have hF : (sync_icloud_reminder_to_gmail env st reminder cal tl).2.1 =
          { st1 with mappings := (updateFirstByGid st1.mappings
            m.gmail_task_id
            (fun mm => { mm with title := reminder.summary })) } := by
        simp [sync_icloud_reminder_to_gmail, hM, hcall]
      rw [hF]
      intro t ht
      rcases htouch t ht with h | h
      · exact Or.inl h
      · refine Or.inr ?_
        rw [h]
        exact (show m.gmail_task_id ∈ gids (updateFirstByGid st1.mappings
            m.gmail_task_id
            (fun mm => { mm with title := reminder.summary })) by
          rw [gids_updateFirstByGid st1.mappings m.gmail_task_id
            (fun mm => { mm with title := reminder.summary })
            (fun mm => rfl), h2]
          exact hgmem)
    | error err =>
      have hF : (sync_icloud_reminder_to_gmail env st reminder cal tl).2.1 = st1 := by
        simp [sync_icloud_reminder_to_gmail, hM, hcall]
      rw [hF]
      intro t ht
      rcases htouch t ht with h | h
      · exact Or.inl h
      · refine Or.inr ?_
        rw [h, h2]
        exact hgmem

/-- Master invariants of the gmail-task loop: remote store and settings
untouched, counters monotone, invariants preserved, processed ids covered
by mapping rows, and every reminder traceable. -/
theorem gmailTaskLoop_track (env : Env) (tl cal : String)
    (mapped : List Nat) :
    ∀ (ts : List GTask) (st : St),
    (gmailTaskLoop env tl cal mapped ts st).1.tasks = st.tasks ∧
    (gmailTaskLoop env tl cal mapped ts st).1.nextTaskId = st.nextTaskId ∧
    (gmailTaskLoop env tl cal mapped ts st).1.settingDirection = st.settingDirection ∧
    (gmailTaskLoop env tl cal mapped ts st).1.settingTaskList = st.settingTaskList ∧
    (gmailTaskLoop env tl cal mapped ts st).1.settingCalendar = st.settingCalendar ∧
    st.nextRemId ≤ (gmailTaskLoop env tl cal mapped ts st).1.nextRemId ∧
    (∀ u ∈ uids st.mappings,
      u ∈ uids (gmailTaskLoop env tl cal mapped ts st).1.mappings) ∧
    ((∀ x ∈ ts, x.id < st.nextTaskId) → st.wf →
      (gmailTaskLoop env tl cal mapped ts st).1.wf) ∧
    ((∀ s, env.failCreateReminder s = false) → ∀ x ∈ ts,
      x.id ∈ mapped ∨
      x.id ∈ gids (gmailTaskLoop env tl cal mapped ts st).1.mappings) ∧
    (∀ r ∈ (gmailTaskLoop env tl cal mapped ts st).1.rems,
      (r.id, r.summary) ∈ remSkel st.rems ∨
      r.id ∈ uids (gmailTaskLoop env tl cal mapped ts st).1.mappings) := by
  intro ts
  induction ts with
  | nil =>
    intro st
    exact ⟨rfl, rfl, rfl, rfl, rfl, Nat.le_refl _, fun u hu => hu,
      fun _ h => h, fun _ x hx => absurd hx (List.not_mem_nil x),
      fun r hr => Or.inl (mem_skel_of_mem_rems hr)⟩
  | cons t ts ih =>
    intro st
    by_cases hskip : (mapped.contains t.id) = true
    · have hmem : t.id ∈ mapped := nat_mem_of_contains hskip
      have hstep : gmailTaskLoop env tl cal mapped (t :: ts) st =
          gmailTaskLoop env tl cal mapped ts st := by
        simp [gmailTaskLoop, hmem]
      rw [hstep]
      obtain ⟨i1, i2, i3, i4, i5, i6, i7, i8, i9, i10⟩ := ih st
      refine ⟨i1, i2, i3, i4, i5, i6, i7,
        fun hb hw => i8 (fun x hx => hb x (List.mem_cons_of_mem t hx)) hw,
        ?_, i10⟩
      intro hcr x hx
      rcases List.mem_cons.mp hx with h | h
      · exact Or.inl (h ▸ nat_mem_of_contains hskip)
      · exact i9 hcr x h
    · have hnmem : t.id ∉ mapped := fun hc =>
        absurd (nat_contains_of_mem hc) hskip
      rcases hH : sync_gmail_task_to_icloud env st t tl cal
        with ⟨g?, st1, ops1⟩
      have hparts := sync_gmail_task_to_icloud_parts env st t tl cal
      rw [hH] at hparts
      have p1 : st1.tasks = st.tasks := hparts.1
      have p2 : st1.nextTaskId = st.nextTaskId := hparts.2.1
      have p3 : st1.settingDirection = st.settingDirection := hparts.2.2.1
      have p4 : st1.settingTaskList = st.settingTaskList := hparts.2.2.2.1
      have p5 : st1.settingCalendar = st.settingCalendar := hparts.2.2.2.2.1
      have p6 : st.nextRemId ≤ st1.nextRemId := hparts.2.2.2.2.2.1
      have p7 : ∀ u ∈ uids st.mappings, u ∈ uids st1.mappings :=
        hparts.2.2.2.2.2.2
      have htch := sync_gmail_task_to_icloud_touchR env st t tl cal
      rw [hH] at htch
      cases g? with
      | some gid =>
        have hstep : gmailTaskLoop env tl cal mapped (t :: ts) st =
            (match gmailTaskLoop env tl cal mapped ts
                { st1 with mappings := (updateFirstByGid st1.mappings gid
                  (fun mm => { mm with
                    last_known_completed := taskCompleted t })) } with
              | (st3, ops2, c) => (st3, ops1 ++ ops2, c + 1)) := by
          simp [gmailTaskLoop, hnmem, hH]
        rcases hrec : gmailTaskLoop env tl cal mapped ts
            { st1 with mappings := (updateFirstByGid st1.mappings gid
              (fun mm => { mm with
                last_known_completed := taskCompleted t })) }
          with ⟨st3, ops2, c⟩
        rw [hrec] at hstep
        rw [hstep]
        obtain ⟨i1, i2, i3, i4, i5, i6, i7, i8, i9, i10⟩ := ih
          { st1 with mappings := (updateFirstByGid st1.mappings gid
            (fun mm => { mm with
              last_known_completed := taskCompleted t })) }
        rw [hrec] at i1 i2 i3 i4 i5 i6 i7 i8 i9 i10
        have huids2 : uids (updateFirstByGid st1.mappings gid
            (fun mm => { mm with
              last_known_completed := taskCompleted t })) =
            uids st1.mappings :=
          uids_updateFirstByGid st1.mappings gid
            (fun mm => { mm with last_known_completed := taskCompleted t })
            (fun mm => rfl)
        have hgids2 : gids (updateFirstByGid st1.mappings gid
            (fun mm => { mm with
              last_known_completed := taskCompleted t })) =
            gids st1.mappings :=
          gids_updateFirstByGid st1.mappings gid
            (fun mm => { mm with last_known_completed := taskCompleted t })
            (fun mm => rfl)
        have hext : Extends
            { st1 with mappings := (updateFirstByGid st1.mappings gid
              (fun mm => { mm with
                last_known_completed := taskCompleted t })) } st3 := by
          have := extends_gmailTaskLoop env tl cal mapped ts
            { st1 with mappings := (updateFirstByGid st1.mappings gid
              (fun mm => { mm with
                last_known_completed := taskCompleted t })) }
          rw [hrec] at this
          exact this
        have hmono7 : ∀ u ∈ uids st1.mappings, u ∈ uids st3.mappings :=
          fun u hu => i7 u (huids2.symm ▸ hu)
        refine ⟨i1.trans p1, i2.trans p2, i3.trans p3, i4.trans p4,
          i5.trans p5, Nat.le_trans p6 i6, ?_, ?_, ?_, ?_⟩
        · exact fun u hu => hmono7 u (p7 u hu)
        · intro hb hw
          have hwf1 : st1.wf := by
            have := sync_gmail_task_to_icloud_wf env st t tl cal
              (hb t (List.mem_cons_self t ts)) hw
            rw [hH] at this
            exact this
          have hwf2 : ({ st1 with mappings := (updateFirstByGid st1.mappings
              gid (fun mm => { mm with
                last_known_completed := taskCompleted t })) } : St).wf :=
            wf_of_parts hwf1 rfl rfl rfl rfl hgids2 huids2
          exact i8 (fun x hx => (show x.id < st1.nextTaskId by
            rw [p2]; exact hb x (List.mem_cons_of_mem t hx))) hwf2
        · intro hcr x hx
          rcases List.mem_cons.mp hx with h | h
          · refine Or.inr ?_
            have hcov : t.id ∈ gids st1.mappings := by
              have := sync_gmail_task_to_icloud_covers env st t tl cal hcr
              rw [hH] at this
              exact this
            rw [h]
            exact mem_gids_of_extends hext (hgids2.symm ▸ hcov)
          · exact i9 hcr x h
        · intro r hr
          rcases i10 r hr with h | h
          · rcases List.mem_map.mp h with ⟨r1, hr1, hpair⟩
            rcases htch r1 hr1 with h2 | h2
            · refine Or.inl ?_
              have : (r1.id, r1.summary) = (r.id, r.summary) := hpair
              exact this ▸ h2
            · refine Or.inr ?_
              have hid : r1.id = r.id := congrArg Prod.fst hpair
              exact hid ▸ hmono7 r1.id h2
          · exact Or.inr h
      | none =>
        have hstep : gmailTaskLoop env tl cal mapped (t :: ts) st =
            (match gmailTaskLoop env tl cal mapped ts st1 with
              | (st3, ops2, c) => (st3, ops1 ++ ops2, c)) := by
          simp [gmailTaskLoop, hnmem, hH]
        rcases hrec : gmailTaskLoop env tl cal mapped ts st1
          with ⟨st3, ops2, c⟩
        rw [hrec] at hstep
        rw [hstep]
        obtain ⟨i1, i2, i3, i4, i5, i6, i7, i8, i9, i10⟩ := ih st1
        rw [hrec] at i1 i2 i3 i4 i5 i6 i7 i8 i9 i10
        have hext : Extends st1 st3 := by
          have := extends_gmailTaskLoop env tl cal mapped ts st1
          rw [hrec] at this
          exact this
        refine ⟨i1.trans p1, i2.trans p2, i3.trans p3, i4.trans p4,
          i5.trans p5, Nat.le_trans p6 i6, ?_, ?_, ?_, ?_⟩
        · exact fun u hu => i7 u (p7 u hu)
        · intro hb hw
          have hwf1 : st1.wf := by
            have := sync_gmail_task_to_icloud_wf env st t tl cal
              (hb t (List.mem_cons_self t ts)) hw
            rw [hH] at this
            exact this
          exact i8 (fun x hx => (show x.id < st1.nextTaskId by
            rw [p2]; exact hb x (List.mem_cons_of_mem t hx))) hwf1
        · intro hcr x hx
          rcases List.mem_cons.mp hx with h | h
          · refine Or.inr ?_
            have hcov : t.id ∈ gids st1.mappings := by
              have := sync_gmail_task_to_icloud_covers env st t tl cal hcr
              rw [hH] at this
              exact this
            rw [h]
            exact mem_gids_of_extends hext hcov
          · exact i9 hcr x h
        · intro r hr
          rcases i10 r hr with h | h
          · rcases List.mem_map.mp h with ⟨r1, hr1, hpair⟩
            rcases htch r1 hr1 with h2 | h2
            · refine Or.inl ?_
              have : (r1.id, r1.summary) = (r.id, r.summary) := hpair
              exact this ▸ h2
            · refine Or.inr ?_
              have hid : r1.id = r.id := congrArg Prod.fst hpair
              exact hid ▸ i7 r1.id h2
          · exact Or.inr h

/-- Master invariants of the iCloud-reminder loop: local store and
settings untouched, counters monotone, invariants preserved, processed
uids covered by mapping rows, and every remote task traceable. -/
theorem icloudRemLoop_track (env : Env) (cal tl : String)
    (mapped : List Nat) :
    ∀ (rs : List Rem) (st : St),
    (icloudRemLoop env cal tl mapped rs st).1.rems = st.rems ∧
    (icloudRemLoop env cal tl mapped rs st).1.nextRemId = st.nextRemId ∧
    (icloudRemLoop env cal tl mapped rs st).1.settingDirection = st.settingDirection ∧
    (icloudRemLoop env cal tl mapped rs st).1.settingTaskList = st.settingTaskList ∧
    (icloudRemLoop env cal tl mapped rs st).1.settingCalendar = st.settingCalendar ∧
    st.nextTaskId ≤ (icloudRemLoop env cal tl mapped rs st).1.nextTaskId ∧
    (∀ u ∈ uids st.mappings,
      u ∈ uids (icloudRemLoop env cal tl mapped rs st).1.mappings) ∧
    ((∀ x ∈ rs, x.id < st.nextRemId) → st.wf →
      (icloudRemLoop env cal tl mapped rs st).1.wf) ∧
    ((∀ s, env.failCreateTask s = false) → ∀ x ∈ rs,
      x.id ∈ mapped ∨
      x.id ∈ uids (icloudRemLoop env cal tl mapped rs st).1.mappings) ∧
    (∀ t ∈ (icloudRemLoop env cal tl mapped rs st).1.tasks,
      (t.id, t.title) ∈ taskSkel st.tasks ∨
      t.id ∈ gids (icloudRemLoop env cal tl mapped rs st).1.mappings) := by
  intro rs
  induction rs with
  | nil =>
    intro st
    exact ⟨rfl, rfl, rfl, rfl, rfl, Nat.le_refl _, fun u hu => hu,
      fun _ h => h, fun _ x hx => absurd hx (List.not_mem_nil x),
      fun t ht => Or.inl (mem_skel_of_mem_tasks ht)⟩
  | cons r rs ih =>
    intro st
    by_cases hskip : (mapped.contains r.id) = true
    · have hmem : r.id ∈ mapped := nat_mem_of_contains hskip
      have hstep : icloudRemLoop env cal tl mapped (r :: rs) st =
          icloudRemLoop env cal tl mapped rs st := by
        simp [icloudRemLoop, hmem]
      rw [hstep]
      obtain ⟨i1, i2, i3, i4, i5, i6, i7, i8, i9, i10⟩ := ih st
      refine ⟨i1, i2, i3, i4, i5, i6, i7,
        fun hb hw => i8 (fun x hx => hb x (List.mem_cons_of_mem r hx)) hw,
        ?_, i10⟩
      intro hct x hx
      rcases List.mem_cons.mp hx with h | h
      · exact Or.inl (h ▸ hmem)
      · exact i9 hct x h
    · have hnmem : r.id ∉ mapped := fun hc =>
        absurd (nat_contains_of_mem hc) hskip
      rcases hH : sync_icloud_reminder_to_gmail env st r cal tl
        with ⟨g?, st1, ops1⟩
      have hparts := sync_icloud_reminder_to_gmail_parts env st r cal tl
      rw [hH] at hparts
      have p1 : st1.rems = st.rems := hparts.1
      have p2 : st1.nextRemId = st.nextRemId := hparts.2.1
      have p3 : st1.settingDirection = st.settingDirection := hparts.2.2.1
      have p4 : st1.settingTaskList = st.settingTaskList := hparts.2.2.2.1
      have p5 : st1.settingCalendar = st.settingCalendar := hparts.2.2.2.2.1
      have p6 : st.nextTaskId ≤ st1.nextTaskId := hparts.2.2.2.2.2.1
      have p7 : ∀ u ∈ uids st.mappings, u ∈ uids st1.mappings :=
        hparts.2.2.2.2.2.2
      have htch := sync_icloud_reminder_to_gmail_touchT env st r cal tl
      rw [hH] at htch
      cases g? with
      | some gid =>
        have hstep : icloudRemLoop env cal tl mapped (r :: rs) st =
            (match icloudRemLoop env cal tl mapped rs
                { st1 with mappings := (updateFirstByGid st1.mappings gid
                  (fun mm => { mm with
                    last_known_completed := r.completed })) } with
              | (st3, ops2, c) => (st3, ops1 ++ ops2, c + 1)) := by
          simp [icloudRemLoop, hnmem, hH]
        rcases hrec : icloudRemLoop env cal tl mapped rs
            { st1 with mappings := (updateFirstByGid st1.mappings gid
              (fun mm => { mm with
                last_known_completed := r.completed })) }
          with ⟨st3, ops2, c⟩
        rw [hrec] at hstep
        rw [hstep]
        obtain ⟨i1, i2, i3, i4, i5, i6, i7, i8, i9, i10⟩ := ih
          { st1 with mappings := (updateFirstByGid st1.mappings gid
            (fun mm => { mm with
              last_known_completed := r.completed })) }
        rw [hrec] at i1 i2 i3 i4 i5 i6 i7 i8 i9 i10
        have huids2 : uids (updateFirstByGid st1.mappings gid
            (fun mm => { mm with last_known_completed := r.completed })) =
            uids st1.mappings :=
          uids_updateFirstByGid st1.mappings gid
            (fun mm => { mm with last_known_completed := r.completed })
            (fun mm => rfl)
        have hgids2 : gids (updateFirstByGid st1.mappings gid
            (fun mm => { mm with last_known_completed := r.completed })) =
            gids st1.mappings :=
          gids_updateFirstByGid st1.mappings gid
            (fun mm => { mm with last_known_completed := r.completed })
            (fun mm => rfl)
        have hext : Extends
            { st1 with mappings := (updateFirstByGid st1.mappings gid
              (fun mm => { mm with
                last_known_completed := r.completed })) } st3 := by
          have := extends_icloudRemLoop env cal tl mapped rs
            { st1 with mappings := (updateFirstByGid st1.mappings gid
              (fun mm => { mm with
                last_known_completed := r.completed })) }
          rw [hrec] at this
          exact this
        have hmono7 : ∀ u ∈ uids st1.mappings, u ∈ uids st3.mappings :=
          fun u hu => i7 u (huids2.symm ▸ hu)
        refine ⟨i1.trans p1, i2.trans p2, i3.trans p3, i4.trans p4,
          i5.trans p5, Nat.le_trans p6 i6, ?_, ?_, ?_, ?_⟩
        · exact fun u hu => hmono7 u (p7 u hu)
        · intro hb hw
          have hwf1 : st1.wf := by
            have := sync_icloud_reminder_to_gmail_wf env st r cal tl
              (hb r (List.mem_cons_self r rs)) hw
            rw [hH] at this
            exact this
          have hwf2 : ({ st1 with mappings := (updateFirstByGid st1.mappings
              gid (fun mm => { mm with
                last_known_completed := r.completed })) } : St).wf :=
            wf_of_parts hwf1 rfl rfl rfl rfl hgids2 huids2
          exact i8 (fun x hx => (show x.id < st1.nextRemId by
            rw [p2]; exact hb x (List.mem_cons_of_mem r hx))) hwf2
        · intro hct x hx
          rcases List.mem_cons.mp hx with h | h
          · refine Or.inr ?_
            have hcov : r.id ∈ uids st1.mappings := by
              have := sync_icloud_reminder_to_gmail_covers env st r cal tl hct
              rw [hH] at this
              exact this
            rw [h]
            exact hmono7 r.id hcov
          · exact i9 hct x h
        · intro t ht
          rcases i10 t ht with h | h
          · rcases List.mem_map.mp h with ⟨t1, ht1, hpair⟩
            rcases htch t1 ht1 with h2 | h2
            · refine Or.inl ?_
              have : (t1.id, t1.title) = (t.id, t.title) := hpair
              exact this ▸ h2
            · refine Or.inr ?_
              have hid : t1.id = t.id := congrArg Prod.fst hpair
              exact hid ▸ mem_gids_of_extends hext (hgids2.symm ▸ h2)
          · exact Or.inr h
      | none =>
        have hstep : icloudRemLoop env cal tl mapped (r :: rs) st =
            (match icloudRemLoop env cal tl mapped rs st1 with
              | (st3, ops2, c) => (st3, ops1 ++ ops2, c)) := by
          simp [icloudRemLoop, hnmem, hH]
        rcases hrec : icloudRemLoop env cal tl mapped rs st1
          with ⟨st3, ops2, c⟩
        rw [hrec] at hstep
        rw [hstep]
        obtain ⟨i1, i2, i3, i4, i5, i6, i7, i8, i9, i10⟩ := ih st1
        rw [hrec] at i1 i2 i3 i4 i5 i6 i7 i8 i9 i10
        have hext : Extends st1 st3 := by
          have := extends_icloudRemLoop env cal tl mapped rs st1
          rw [hrec] at this
          exact this
        refine ⟨i1.trans p1, i2.trans p2, i3.trans p3, i4.trans p4,
          i5.trans p5, Nat.le_trans p6 i6, ?_, ?_, ?_, ?_⟩
        · exact fun u hu => i7 u (p7 u hu)
        · intro hb hw
          have hwf1 : st1.wf := by
            have := sync_icloud_reminder_to_gmail_wf env st r cal tl
              (hb r (List.mem_cons_self r rs)) hw
            rw [hH] at this
            exact this
          exact i8 (fun x hx => (show x.id < st1.nextRemId by
            rw [p2]; exact hb x (List.mem_cons_of_mem r hx))) hwf1
        · intro hct x hx
          rcases List.mem_cons.mp hx with h | h
          · refine Or.inr ?_
            have hcov : r.id ∈ uids st1.mappings := by
              have := sync_icloud_reminder_to_gmail_covers env st r cal tl hct
              rw [hH] at this
              exact this
            rw [h]
            exact i7 r.id hcov
          · exact i9 hct x h
        · intro t ht
          rcases i10 t ht with h | h
          · rcases List.mem_map.mp h with ⟨t1, ht1, hpair⟩
            rcases htch t1 ht1 with h2 | h2
            · refine Or.inl ?_
              have : (t1.id, t1.title) = (t.id, t.title) := hpair
              exact this ▸ h2
            · refine Or.inr ?_
              have hid : t1.id = t.id := congrArg Prod.fst hpair
              exact hid ▸ mem_gids_of_extends hext h2
          · exact Or.inr h

theorem updateReminderOp_isOk (env : Env) (st : St) (remId : Nat)
    (s d : Option String) (c : Option Bool) (du : Option String)
    (hmem : remId ∈ remIds st.rems)
    (hf : env.failUpdateReminder remId = false) :
    (updateReminderOp env st remId s d c du).1 = Except.ok () := by
  have hany : (st.rems.any (fun r => r.id == remId)) = true := by
    rcases List.mem_map.mp
      (show remId ∈ st.rems.map (fun r => r.id) from hmem)
      with ⟨r, hr, hid⟩
    exact List.any_eq_true.mpr ⟨r, hr, by simp [hid]⟩
  simp [updateReminderOp, hany, hf]

theorem updateTaskOp_isOk (env : Env) (st : St) (listId : String)
    (taskId : Nat) (u : TaskUpdate) (hmem : taskId ∈ taskIds st.tasks)
    (hf : env.failUpdateTask taskId = false) :
    (updateTaskOp env st listId taskId u).1 = Except.ok () := by
  have hany : (st.tasks.any (fun t => t.id == taskId)) = true := by
    rcases List.mem_map.mp
      (show taskId ∈ st.tasks.map (fun t => t.id) from hmem)
      with ⟨t, ht, hid⟩
    exact List.any_eq_true.mpr ⟨t, ht, by simp [hid]⟩
  simp [updateTaskOp, hany, hf]

/-- The completion step never raises when both items are present and no
update call fails. -/
theorem completionStep_no_error (env : Env) (m : TaskMapping) (uid : Nat)
    (g i : Bool) (st : St) (hrem : uid ∈ remIds st.rems)
    (htask : m.gmail_task_id ∈ taskIds st.tasks)
    (hur : ∀ n, env.failUpdateReminder n = false)
    (hut : ∀ n, env.failUpdateTask n = false) :
    (completionStep env m uid g i st).2.2.2 = none := by
  obtain ⟨mgid, mlist, muid, mcal, mtitle, mlkc⟩ := m
  rcases mlkc with _ | _ <;> rcases g with _ | _ <;> rcases i with _ | _
  case false.false.false => rfl
  case false.false.true =>
    rcases hcall : updateTaskOp env st mlist mgid
        { title := none, notes := none, due := none
          status := some "completed" } with ⟨e, st1, ops1⟩
    have hok := updateTaskOp_isOk env st mlist mgid
      { title := none, notes := none, due := none
        status := some "completed" } htask (hut mgid)
    rw [hcall] at hok
    cases e with
    | ok v => simp [completionStep, hcall]
    | error err => exact absurd hok (by simp)
  case false.true.false =>
    rcases hcall : updateReminderOp env st uid none none (some true) none
      with ⟨e, st1, ops1⟩
    have hok := updateReminderOp_isOk env st uid none none (some true) none
      hrem (hur uid)
    rw [hcall] at hok
    cases e with
    | ok v => simp [completionStep, hcall]
    | error err => exact absurd hok (by simp)
  case false.true.true => rfl
  case true.false.false => rfl
  case true.false.true =>
    rcases hcall : updateReminderOp env st uid none none (some false) none
      with ⟨e, st1, ops1⟩
    have hok := updateReminderOp_isOk env st uid none none (some false) none
      hrem (hur uid)
    rw [hcall] at hok
    cases e with
    | ok v => simp [completionStep, hcall]
    | error err => exact absurd hok (by simp)
  case true.true.false =>
    rcases hcall : updateTaskOp env st mlist mgid
        { title := none, notes := none, due := none
          status := some "needsAction" } with ⟨e, st1, ops1⟩
    have hok := updateTaskOp_isOk env st mlist mgid
      { title := none, notes := none, due := none
        status := some "needsAction" } htask (hut mgid)
    rw [hcall] at hok
    cases e with
    | ok v => simp [completionStep, hcall]
    | error err => exact absurd hok (by simp)
  case true.true.true => rfl

/-- The completion step only attempts update calls, never creates. -/
theorem completionStep_no_creates (env : Env) (m : TaskMapping) (uid : Nat)
    (g i : Bool) (st : St) :
    ∀ op ∈ (completionStep env m uid g i st).2.2.1, isCreateOp op = false := by
  obtain ⟨mgid, mlist, muid, mcal, mtitle, mlkc⟩ := m
  rcases mlkc with _ | _ <;> rcases g with _ | _ <;> rcases i with _ | _
  case false.false.false => intro op hop; cases hop
  case false.false.true =>
    rcases hcall : updateTaskOp env st mlist mgid
        { title := none, notes := none, due := none
          status := some "completed" } with ⟨e, st1, ops1⟩
    have hops := (updateTaskOp_parts env st mlist mgid
      { title := none, notes := none, due := none
        status := some "completed" }).2.2.2.2.2.2.2.2
    rw [hcall] at hops
    have hops2 : ops1 = [Op.updateTask mlist mgid
      { title := none, notes := none, due := none
        status := some "completed" }] := hops
    subst hops2
    intro op hop
    cases e <;> simp [completionStep, hcall] at hop <;>
      simp [hop, isCreateOp]
  case false.true.false =>
    rcases hcall : updateReminderOp env st uid none none (some true) none
      with ⟨e, st1, ops1⟩
    have hops := (updateReminderOp_parts env st uid none none (some true)
      none).2.2.2.2.2.2.2.2
    rw [hcall] at hops
    have hops2 : ops1 = [Op.updateRem uid none none (some true) none] := hops
    subst hops2
    intro op hop
    cases e <;> simp [completionStep, hcall] at hop <;>
      simp [hop, isCreateOp]
  case false.true.true => intro op hop; cases hop
  case true.false.false => intro op hop; cases hop
  case true.false.true =>
    rcases hcall : updateReminderOp env st uid none none (some false) none
      with ⟨e, st1, ops1⟩
    have hops := (updateReminderOp_parts env st uid none none (some false)
      none).2.2.2.2.2.2.2.2
    rw [hcall] at hops
    have hops2 : ops1 = [Op.updateRem uid none none (some false) none] := hops
    subst hops2
    intro op hop
    cases e <;> simp [completionStep, hcall] at hop <;>
      simp [hop, isCreateOp]
  case true.true.false =>
    rcases hcall : updateTaskOp env st mlist mgid
        { title := none, notes := none, due := none
          status := some "needsAction" } with ⟨e, st1, ops1⟩
    have hops := (updateTaskOp_parts env st mlist mgid
      { title := none, notes := none, due := none
        status := some "needsAction" }).2.2.2.2.2.2.2.2
    rw [hcall] at hops
    have hops2 : ops1 = [Op.updateTask mlist mgid
      { title := none, notes := none, due := none
        status := some "needsAction" }] := hops
    subst hops2
    intro op hop
    cases e <;> simp [completionStep, hcall] at hop <;>
      simp [hop, isCreateOp]
  case true.true.true => intro op hop; cases hop

/-- The completion step pushes only completion flags: ids and titles of
both stores are untouched. -/
theorem completionStep_skels (env : Env) (m : TaskMapping) (uid : Nat)
    (g i : Bool) (st : St) :
    taskSkel (completionStep env m uid g i st).2.1.tasks = taskSkel st.tasks ∧
    remSkel (completionStep env m uid g i st).2.1.rems = remSkel st.rems := by
  obtain ⟨mgid, mlist, muid, mcal, mtitle, mlkc⟩ := m
  rcases mlkc with _ | _ <;> rcases g with _ | _ <;> rcases i with _ | _
  case false.false.false => exact ⟨rfl, rfl⟩
  case false.false.true =>
    rcases hcall : updateTaskOp env st mlist mgid
        { title := none, notes := none, due := none
          status := some "completed" } with ⟨e, st1, ops1⟩
    have hsk := updateTaskOp_taskSkel env st mlist mgid
      { title := none, notes := none, due := none
        status := some "completed" } rfl
    have hrm := (updateTaskOp_parts env st mlist mgid
      { title := none, notes := none, due := none
        status := some "completed" }).1
    rw [hcall] at hsk hrm
    have hsk2 : taskSkel st1.tasks = taskSkel st.tasks := hsk
    have hrm2 : st1.rems = st.rems := hrm
    cases e <;> exact ⟨by simp [completionStep, hcall, hsk2],
      by simp [completionStep, hcall, hrm2]⟩
  case false.true.false =>
    rcases hcall : updateReminderOp env st uid none none (some true) none
      with ⟨e, st1, ops1⟩
    have hsk := updateReminderOp_remSkel env st uid none (some true) none
    have hts := (updateReminderOp_parts env st uid none none (some true)
      none).1
    rw [hcall] at hsk hts
    have hsk2 : remSkel st1.rems = remSkel st.rems := hsk
    have hts2 : st1.tasks = st.tasks := hts
    cases e <;> exact ⟨by simp [completionStep, hcall, hts2],
      by simp [completionStep, hcall, hsk2]⟩
  case false.true.true => exact ⟨rfl, rfl⟩
  case true.false.false => exact ⟨rfl, rfl⟩
  case true.false.true =>
    rcases hcall : updateReminderOp env st uid none none (some false) none
      with ⟨e, st1, ops1⟩
    have hsk := updateReminderOp_remSkel env st uid none (some false) none
    have hts := (updateReminderOp_parts env st uid none none (some false)
      none).1
    rw [hcall] at hsk hts
    have hsk2 : remSkel st1.rems = remSkel st.rems := hsk
    have hts2 : st1.tasks = st.tasks := hts
    cases e <;> exact ⟨by simp [completionStep, hcall, hts2],
      by simp [completionStep, hcall, hsk2]⟩
  case true.true.false =>
    rcases hcall : updateTaskOp env st mlist mgid
        { title := none, notes := none, due := none
          status := some "needsAction" } with ⟨e, st1, ops1⟩
    have hsk := updateTaskOp_taskSkel env st mlist mgid
      { title := none, notes := none, due := none
        status := some "needsAction" } rfl
    have hrm := (updateTaskOp_parts env st mlist mgid
      { title := none, notes := none, due := none
        status := some "needsAction" }).1
    rw [hcall] at hsk hrm
    have hsk2 : taskSkel st1.tasks = taskSkel st.tasks := hsk
    have hrm2 : st1.rems = st.rems := hrm
    cases e <;> exact ⟨by simp [completionStep, hcall, hsk2],
      by simp [completionStep, hcall, hrm2]⟩
  case true.true.true => exact ⟨rfl, rfl⟩

/-- One Phase A iteration never raises when every snapshot item is
present in its store and no update call fails. -/
theorem reconcilePair_no_error (env : Env) (gtasks : List GTask)
    (irems : List Rem) (m : TaskMapping) (st : St)
    (hg : ∀ t ∈ gtasks, t.id ∈ taskIds st.tasks)
    (hr : ∀ x ∈ irems, x.id ∈ remIds st.rems)
    (hur : ∀ n, env.failUpdateReminder n = false)
    (hut : ∀ n, env.failUpdateTask n = false) :
    (reconcilePair env gtasks irems m st).2.2.2.2 = none := by
  rcases hA : gmailMapGet gtasks m.gmail_task_id with _ | task
  · rw [phaseA_skips_absent_pairs env gtasks irems m st (Or.inl hA)]
  · rcases hB : icloudMapGet irems m.icloud_reminder_uid with _ | reminder
    · rw [phaseA_skips_absent_pairs env gtasks irems m st (Or.inr hB)]
    · have hAm : task ∈ gtasks :=
        List.mem_of_find?_eq_some (show gtasks.find?
          (fun t => t.id == m.gmail_task_id) = some task from hA)
      have hAid : task.id = m.gmail_task_id := by
        have := List.find?_some (show gtasks.find?
          (fun t => t.id == m.gmail_task_id) = some task from hA)
        simpa using this
      rcases hu : m.icloud_reminder_uid with _ | u
      · rw [hu] at hB
        simp only [icloudMapGet] at hB
        exact Option.noConfusion hB
      · rw [hu] at hB
        simp only [icloudMapGet] at hB
        have hBm : reminder ∈ irems := List.mem_of_find?_eq_some hB
        have hBid : reminder.id = u := by
          have := List.find?_some hB
          simpa using this
        have hrem : u ∈ remIds st.rems := hBid ▸ hr reminder hBm
        have htask : m.gmail_task_id ∈ taskIds st.tasks :=
          hAid ▸ hg task hAm
        rcases hcs : completionStep env m u
            (taskCompleted task) reminder.completed st
          with ⟨m1, st1, ops1, err1⟩
        have hne := completionStep_no_error env m u (taskCompleted task)
          reminder.completed st hrem htask hur hut
        rw [hcs] at hne
        have hne2 : err1 = none := hne
        subst hne2
        have hpc := (completionStep_parts env m u (taskCompleted task)
          reminder.completed st).2.2.2.2.2.2.2.2
        rw [hcs] at hpc
        have hrem1 : u ∈ remIds st1.rems := by
          have h : remIds st1.rems = remIds st.rems := hpc
          rw [h]
          exact hrem
        rcases hcall : updateReminderOp env st1 u task.title
            (some (task.notes.getD "")) none none with ⟨e, st2, ops2⟩
        have hok := updateReminderOp_isOk env st1 u task.title
          (some (task.notes.getD "")) none none hrem1 (hur u)
        rw [hcall] at hok
        cases e with
        | ok v => simp [reconcilePair, icloudMapGet, hA, hB, hu, hcs, hcall]
        | error err => exact absurd hok (by simp)

/-- One Phase A iteration only attempts update calls, never creates. -/
theorem reconcilePair_no_creates (env : Env) (gtasks : List GTask)
    (irems : List Rem) (m : TaskMapping) (st : St) :
    ∀ op ∈ (reconcilePair env gtasks irems m st).2.2.1,
    isCreateOp op = false := by
  rcases hA : gmailMapGet gtasks m.gmail_task_id with _ | task
  · rw [phaseA_skips_absent_pairs env gtasks irems m st (Or.inl hA)]
    intro op hop
    cases hop
  · rcases hB : icloudMapGet irems m.icloud_reminder_uid with _ | reminder
    · rw [phaseA_skips_absent_pairs env gtasks irems m st (Or.inr hB)]
      intro op hop
      cases hop
    · rcases hcs : completionStep env m (m.icloud_reminder_uid.getD 0)
          (taskCompleted task) reminder.completed st
        with ⟨m1, st1, ops1, err1⟩
      have hnc := completionStep_no_creates env m
        (m.icloud_reminder_uid.getD 0) (taskCompleted task)
        reminder.completed st
      rw [hcs] at hnc
      have hnc1 : ∀ op ∈ ops1, isCreateOp op = false := hnc
      cases err1 with
      | some e =>
        intro op hop
        simp only [reconcilePair, hA, hB, hcs] at hop
        exact hnc1 op hop
      | none =>
        rcases hcall : updateReminderOp env st1
            (m.icloud_reminder_uid.getD 0) task.title
            (some (task.notes.getD "")) none none with ⟨e, st2, ops2⟩
        have hops := (updateReminderOp_parts env st1
          (m.icloud_reminder_uid.getD 0) task.title
          (some (task.notes.getD "")) none none).2.2.2.2.2.2.2.2
        rw [hcall] at hops
        have hops2 : ops2 = [Op.updateRem (m.icloud_reminder_uid.getD 0)
          task.title (some (task.notes.getD "")) none none] := hops
        subst hops2
        intro op hop
        cases e <;> simp only [reconcilePair, hA, hB, hcs, hcall] at hop <;>
          rcases List.mem_append.mp hop with h | h <;>
          first
          | exact hnc1 op h
          | (rw [List.mem_singleton] at h; simp [h, isCreateOp])

/-- One Phase A iteration leaves the remote skeleton unchanged. -/
theorem reconcilePair_taskSkel (env : Env) (gtasks : List GTask)
    (irems : List Rem) (m : TaskMapping) (st : St) :
    taskSkel (reconcilePair env gtasks irems m st).2.1.tasks =
      taskSkel st.tasks := by
  rcases hA : gmailMapGet gtasks m.gmail_task_id with _ | task
  · rw [phaseA_skips_absent_pairs env gtasks irems m st (Or.inl hA)]
  · rcases hB : icloudMapGet irems m.icloud_reminder_uid with _ | reminder
    · rw [phaseA_skips_absent_pairs env gtasks irems m st (Or.inr hB)]
    · rcases hcs : completionStep env m (m.icloud_reminder_uid.getD 0)
          (taskCompleted task) reminder.completed st
        with ⟨m1, st1, ops1, err1⟩
      have hsk := (completionStep_skels env m (m.icloud_reminder_uid.getD 0)
        (taskCompleted task) reminder.completed st).1
      rw [hcs] at hsk
      have hsk1 : taskSkel st1.tasks = taskSkel st.tasks := hsk
      cases err1 with
      | some e => simp [reconcilePair, hA, hB, hcs, hsk1]
      | none =>
        rcases hcall : updateReminderOp env st1
            (m.icloud_reminder_uid.getD 0) task.title
            (some (task.notes.getD "")) none none with ⟨e, st2, ops2⟩
        have hts := (updateReminderOp_parts env st1
          (m.icloud_reminder_uid.getD 0) task.title
          (some (task.notes.getD "")) none none).1
        rw [hcall] at hts
        have hts2 : st2.tasks = st1.tasks := hts
        cases e <;> simp [reconcilePair, hA, hB, hcs, hcall, hts2, hsk1]

/-- Every reminder present after one Phase A iteration either already
existed with the same id and summary, or is the iteration's own linked
reminder. -/
theorem reconcilePair_touchR (env : Env) (gtasks : List GTask)
    (irems : List Rem) (m : TaskMapping) (st : St) :
    ∀ r ∈ (reconcilePair env gtasks irems m st).2.1.rems,
    (r.id, r.summary) ∈ remSkel st.rems ∨
    m.icloud_reminder_uid = some r.id := by
  rcases hA : gmailMapGet gtasks m.gmail_task_id with _ | task
  · rw [phaseA_skips_absent_pairs env gtasks irems m st (Or.inl hA)]
    exact fun r hr => Or.inl (mem_skel_of_mem_rems hr)
  · rcases hB : icloudMapGet irems m.icloud_reminder_uid with _ | reminder
    · rw [phaseA_skips_absent_pairs env gtasks irems m st (Or.inr hB)]
      exact fun r hr => Or.inl (mem_skel_of_mem_rems hr)
    · rcases hu : m.icloud_reminder_uid with _ | u
      · rw [hu] at hB
        simp only [icloudMapGet] at hB
        exact Option.noConfusion hB
      · rcases hcs : completionStep env m (m.icloud_reminder_uid.getD 0)
            (taskCompleted task) reminder.completed st
          with ⟨m1, st1, ops1, err1⟩
        have hsk := (completionStep_skels env m
          (m.icloud_reminder_uid.getD 0) (taskCompleted task)
          reminder.completed st).2
        rw [hcs] at hsk
        have hsk1 : remSkel st1.rems = remSkel st.rems := hsk
        cases err1 with
        | some e =>
          intro r hr
          simp only [reconcilePair, hA, hB, hcs] at hr
          exact Or.inl (hsk1 ▸ mem_skel_of_mem_rems hr)
        | none =>
          rcases hcall : updateReminderOp env st1
              (m.icloud_reminder_uid.getD 0) task.title
              (some (task.notes.getD "")) none none with ⟨e, st2, ops2⟩
          have htch := updateReminderOp_touchR env st1
            (m.icloud_reminder_uid.getD 0) task.title
            (some (task.notes.getD "")) none none
          rw [hcall] at htch
          have htch2 : ∀ r' ∈ st2.rems,
              (r'.id, r'.summary) ∈ remSkel st1.rems ∨
              r'.id = m.icloud_reminder_uid.getD 0 := htch
          intro r hr
          have hr2 : r ∈ st2.rems := by
            cases e <;> simpa [reconcilePair, hA, hB, hcs, hcall] using hr
          rcases htch2 r hr2 with h | h
          · exact Or.inl (hsk1 ▸ h)
          · refine Or.inr ?_
            have h2 : r.id = u := by rw [hu] at h; simpa using h
            rw [h2]

theorem mem_uids_cons_of_mem (m : TaskMapping) (ms : List TaskMapping)
    (u : Nat) (h : u ∈ uids ms) : u ∈ uids (m :: ms) := by
  rw [uids_cons]
  rcases m.icloud_reminder_uid with _ | v
  · exact h
  · exact List.mem_cons_of_mem v h

theorem mem_uids_cons_self (m : TaskMapping) (ms : List TaskMapping)
    (u : Nat) (h : m.icloud_reminder_uid = some u) : u ∈ uids (m :: ms) := by
  rw [uids_cons, h]
  exact List.mem_cons_self u (uids ms)

/-- Phase A never raises when every snapshot item is present in its store
and no update call fails. -/
theorem phaseA_no_error (env : Env) (gtasks : List GTask) (irems : List Rem)
    (hur : ∀ n, env.failUpdateReminder n = false)
    (hut : ∀ n, env.failUpdateTask n = false) :
    ∀ (ms : List TaskMapping) (st : St),
    (∀ t ∈ gtasks, t.id ∈ taskIds st.tasks) →
    (∀ x ∈ irems, x.id ∈ remIds st.rems) →
    (phaseA env gtasks irems ms st).2.2.2.2 = none := by
  intro ms
  induction ms with
  | nil => intro st _ _; rfl
  | cons m ms ih =>
    intro st hg hr
    rcases hrp : reconcilePair env gtasks irems m st
      with ⟨m1, st1, ops1, c1, err1⟩
    have hne := reconcilePair_no_error env gtasks irems m st hg hr hur hut
    rw [hrp] at hne
    have hne2 : err1 = none := hne
    subst hne2
    have hq := reconcilePair_parts env gtasks irems m st
    rw [hrp] at hq
    have k8 : taskIds st1.tasks = taskIds st.tasks := hq.2.2.2.2.2.2.2.1
    have k9 : remIds st1.rems = remIds st.rems := hq.2.2.2.2.2.2.2.2
    rcases hpa : phaseA env gtasks irems ms st1
      with ⟨ms2, st2, ops2, c2, err2⟩
    have hih := ih st1 (fun t ht => k8.symm ▸ hg t ht)
      (fun x hx => k9.symm ▸ hr x hx)
    rw [hpa] at hih
    have hih2 : err2 = none := hih
    subst hih2
    simp [phaseA, hrp, hpa]

/-- Phase A only attempts update calls, never creates. -/
theorem phaseA_no_creates (env : Env) (gtasks : List GTask)
    (irems : List Rem) :
    ∀ (ms : List TaskMapping) (st : St),
    ∀ op ∈ (phaseA env gtasks irems ms st).2.2.1, isCreateOp op = false := by
  intro ms
  induction ms with
  | nil => intro st op hop; cases hop
  | cons m ms ih =>
    intro st
    rcases hrp : reconcilePair env gtasks irems m st
      with ⟨m1, st1, ops1, c1, err1⟩
    have hnc := reconcilePair_no_creates env gtasks irems m st
    rw [hrp] at hnc
    have hnc1 : ∀ op ∈ ops1, isCreateOp op = false := hnc
    cases err1 with
    | some e =>
      intro op hop
      simp only [phaseA, hrp] at hop
      exact hnc1 op hop
    | none =>
      rcases hpa : phaseA env gtasks irems ms st1
        with ⟨ms2, st2, ops2, c2, err2⟩
      intro op hop
      simp only [phaseA, hrp, hpa] at hop
      rcases List.mem_append.mp hop with h | h
      · exact hnc1 op h
      · exact ih st1 op (by rw [hpa]; exact h)

/-- Phase A leaves the remote skeleton (ids with titles) unchanged. -/
theorem phaseA_taskSkel (env : Env) (gtasks : List GTask)
    (irems : List Rem) :
    ∀ (ms : List TaskMapping) (st : St),
    taskSkel (phaseA env gtasks irems ms st).2.1.tasks =
      taskSkel st.tasks := by
  intro ms
  induction ms with
  | nil => intro st; rfl
  | cons m ms ih =>
    intro st
    rcases hrp : reconcilePair env gtasks irems m st
      with ⟨m1, st1, ops1, c1, err1⟩
    have hsk := reconcilePair_taskSkel env gtasks irems m st
    rw [hrp] at hsk
    have hsk1 : taskSkel st1.tasks = taskSkel st.tasks := hsk
    cases err1 with
    | some e => simp [phaseA, hrp, hsk1]
    | none =>
      rcases hpa : phaseA env gtasks irems ms st1
        with ⟨ms2, st2, ops2, c2, err2⟩
      have hih := ih st1
      rw [hpa] at hih
      have hih2 : taskSkel st2.tasks = taskSkel st1.tasks := hih
      simp [phaseA, hrp, hpa, hih2, hsk1]

/-- Every reminder present after Phase A either already existed with the
same id and summary, or its id is a uid of one of the processed rows. -/
theorem phaseA_touchR (env : Env) (gtasks : List GTask) (irems : List Rem) :
    ∀ (ms : List TaskMapping) (st : St),
    ∀ r ∈ (phaseA env gtasks irems ms st).2.1.rems,
    (r.id, r.summary) ∈ remSkel st.rems ∨ r.id ∈ uids ms := by
  intro ms
  induction ms with
  | nil => intro st r hr; exact Or.inl (mem_skel_of_mem_rems hr)
  | cons m ms ih =>
    intro st
    rcases hrp : reconcilePair env gtasks irems m st
      with ⟨m1, st1, ops1, c1, err1⟩
    have htch := reconcilePair_touchR env gtasks irems m st
    rw [hrp] at htch
    have htch1 : ∀ r ∈ st1.rems, (r.id, r.summary) ∈ remSkel st.rems ∨
        m.icloud_reminder_uid = some r.id := htch
    cases err1 with
    | some e =>
      intro r hr
      simp only [phaseA, hrp] at hr
      rcases htch1 r hr with h | h
      · exact Or.inl h
      · exact Or.inr (mem_uids_cons_self m ms r.id h)
    | none =>
      rcases hpa : phaseA env gtasks irems ms st1
        with ⟨ms2, st2, ops2, c2, err2⟩
      have hih := ih st1
      rw [hpa] at hih
      have hih2 : ∀ r ∈ st2.rems, (r.id, r.summary) ∈ remSkel st1.rems ∨
          r.id ∈ uids ms := hih
      intro r hr
      simp only [phaseA, hrp, hpa] at hr
      rcases hih2 r hr with h | h
      · rcases List.mem_map.mp h with ⟨r1, hr1, hpair⟩
        rcases htch1 r1 hr1 with h2 | h2
        · refine Or.inl ?_
          have : (r1.id, r1.summary) = (r.id, r.summary) := hpair
          exact this ▸ h2
        · have hid : r1.id = r.id := congrArg Prod.fst hpair
          exact Or.inr (mem_uids_cons_self m ms r.id (hid ▸ h2))
      · exact Or.inr (mem_uids_cons_of_mem m ms r.id h)

theorem gmailFiltered_present (st : St) :
    ∀ t ∈ gmailFiltered st, t.id ∈ taskIds st.tasks :=
  fun t ht => List.mem_map_of_mem (fun x => x.id)
    (List.mem_of_mem_filter ht)

theorem icloudFiltered_present (st : St) :
    ∀ r ∈ icloudFiltered st, r.id ∈ remIds st.rems :=
  fun r hr => List.mem_map_of_mem (fun x => x.id)
    (List.mem_of_mem_filter hr)

theorem gmailFiltered_bound (st : St) (hwf : st.wf) :
    ∀ t ∈ gmailFiltered st, t.id < st.nextTaskId :=
  fun t ht => hwf.2.1 t.id (gmailFiltered_present st t ht)

theorem icloudFiltered_bound (st : St) (hwf : st.wf) :
    ∀ r ∈ icloudFiltered st, r.id < st.nextRemId :=
  fun r hr => hwf.2.2.2.1 r.id (icloudFiltered_present st r hr)

/-- A full run core, in any direction, preserves the database
invariants. -/
theorem run_core_wf (env : Env) (st : St) (direction : SyncDirection)
    (tl : String) (cal? : Option String) (hwf : st.wf) :
    (run_core env st direction tl cal?).1.wf := by
  cases direction with
  | gmail_to_icloud =>
    simp only [run_core]
    split
    · exact hwf
    · split
      · exact hwf
      · split
        · exact hwf
        · exact (gmailTaskLoop_track env tl (cal?.getD "") []
            (gmailFiltered st) st).2.2.2.2.2.2.2.1
            (gmailFiltered_bound st hwf) hwf
  | icloud_to_gmail =>
    simp only [run_core]
    split
    · exact hwf
    · split
      · exact hwf
      · split
        · exact hwf
        · exact (icloudRemLoop_track env (cal?.getD "") tl []
            (icloudFiltered st) st).2.2.2.2.2.2.2.1
            (icloudFiltered_bound st hwf) hwf
  | bidirectional =>
    simp only [run_core]
    split
    · exact hwf
    · split
      · exact hwf
      · split
        · exact hwf
        · rw [show (if (SyncDirection.bidirectional ==
              SyncDirection.gmail_to_icloud ||
              SyncDirection.bidirectional == SyncDirection.bidirectional)
              = true then gmailFiltered st else []) = gmailFiltered st
            from rfl]
          rw [show (if (SyncDirection.bidirectional ==
              SyncDirection.icloud_to_gmail ||
              SyncDirection.bidirectional == SyncDirection.bidirectional)
              = true then icloudFiltered st else []) = icloudFiltered st
            from rfl]
          rcases hpa : phaseA env (gmailFiltered st) (icloudFiltered st)
            st.mappings st with ⟨rows, st1, ops1, c1, err1⟩
          have hpp := phaseA_parts env (gmailFiltered st) (icloudFiltered st)
            st.mappings st
          rw [hpa] at hpp
          have p1 : gids rows = gids st.mappings := hpp.1
          have p2 : uids rows = uids st.mappings := hpp.2.1
          have p4 : st1.nextTaskId = st.nextTaskId := hpp.2.2.2.1
          have p5 : st1.nextRemId = st.nextRemId := hpp.2.2.2.2.1
          have p9 : taskIds st1.tasks = taskIds st.tasks :=
            hpp.2.2.2.2.2.2.2.2.1
          have p10 : remIds st1.rems = remIds st.rems :=
            hpp.2.2.2.2.2.2.2.2.2
          have hwf2 : ({ st1 with mappings := rows } : St).wf :=
            wf_of_parts hwf p9 p4 p10 p5 (by simpa using p1)
              (by simpa using p2)
          cases err1 with
          | some e => exact hwf2
          | none =>
            have hgt := gmailTaskLoop_track env tl (cal?.getD "")
              (st.mappings.map (fun m => m.gmail_task_id))
              (gmailFiltered st) { st1 with mappings := rows }
            have hwf3 : (gmailTaskLoop env tl (cal?.getD "")
                (st.mappings.map (fun m => m.gmail_task_id))
                (gmailFiltered st)
                { st1 with mappings := rows }).1.wf :=
              hgt.2.2.2.2.2.2.2.1
                (fun x hx => (show x.id < st1.nextTaskId by
                  rw [p4]; exact gmailFiltered_bound st hwf x hx)) hwf2
            have hle : st1.nextRemId ≤ (gmailTaskLoop env tl (cal?.getD "")
                (st.mappings.map (fun m => m.gmail_task_id))
                (gmailFiltered st)
                { st1 with mappings := rows }).1.nextRemId :=
              hgt.2.2.2.2.2.1
            have hit := icloudRemLoop_track env (cal?.getD "") tl
              (st.mappings.filterMap (fun m => m.icloud_reminder_uid))
              (icloudFiltered st)
              (gmailTaskLoop env tl (cal?.getD "")
                (st.mappings.map (fun m => m.gmail_task_id))
                (gmailFiltered st) { st1 with mappings := rows }).1
            exact hit.2.2.2.2.2.2.2.1
              (fun x hx => Nat.lt_of_lt_of_le
                (show x.id < st1.nextRemId by
                  rw [p5]; exact icloudFiltered_bound st hwf x hx)
                hle) hwf3

/-- A full run, in any direction, preserves the database invariants. -/
theorem run_sync_wf (env : Env) (st : St)
    (direction? : Option SyncDirection) (hwf : st.wf) :
    (run_sync env st direction?).2.1.wf := by
  cases direction? with
  | some d =>
    rcases hrc : run_core env st d (st.settingTaskList.getD "@default")
      st.settingCalendar with ⟨st1, ops, ts, rs, err⟩
    have h0 := run_core_wf env st d (st.settingTaskList.getD "@default")
      st.settingCalendar hwf
    rw [hrc] at h0
    simp only [run_sync, finalizeLog]
    rw [hrc]
    exact h0
  | none =>
    rcases hrc : run_core env st
        (st.settingDirection.getD SyncDirection.bidirectional)
        (st.settingTaskList.getD "@default") st.settingCalendar
      with ⟨st1, ops, ts, rs, err⟩
    have h0 := run_core_wf env st
      (st.settingDirection.getD SyncDirection.bidirectional)
      (st.settingTaskList.getD "@default") st.settingCalendar hwf
    rw [hrc] at h0
    simp only [run_sync, finalizeLog]
    rw [hrc]
    exact h0

/-- Any number of consecutive runs, each with its own requested
direction (none = use the stored setting). -/
def iterateRuns (env : Env) : List (Option SyncDirection) → St → St
  | [], st => st
  | d :: ds, st => iterateRuns env ds (run_sync env st d).2.1

theorem iterateRuns_wf (env : Env) :
    ∀ (ds : List (Option SyncDirection)) (st : St), st.wf →
    (iterateRuns env ds st).wf := by
  intro ds
  induction ds with
  | nil => intro st h; exact h
  | cons d ds ih =>
    intro st h
    exact ih (run_sync env st d).2.1 (run_sync_wf env st d h)

/-- A gmail task whose mapping row carries a reminder uid is pushed with
an update call only — the consult of the mapping table prevents any
create. -/
theorem sync_gmail_mapped_no_create (env : Env) (st : St) (task : GTask)
    (tl cal : String) (m : TaskMapping)
    (hM : st.mappings.find? (fun mm => mm.gmail_task_id == task.id) = some m)
    (hU : m.icloud_reminder_uid.isSome = true) :
    ∀ op ∈ (sync_gmail_task_to_icloud env st task tl cal).2.2,
    isCreateOp op = false := by
  rcases hu : m.icloud_reminder_uid with _ | u
  · rw [hu] at hU
    cases hU
  · rcases hcall : updateReminderOp env st u
        (some (task.title.getD "Untitled Task"))
        (some (task.notes.getD "")) (some (taskCompleted task)) task.due
      with ⟨e, st1, ops1⟩
    have hops := (updateReminderOp_parts env st u
      (some (task.title.getD "Untitled Task"))
      (some (task.notes.getD "")) (some (taskCompleted task))
      task.due).2.2.2.2.2.2.2.2
    rw [hcall] at hops
    have hops2 : ops1 = [Op.updateRem u
      (some (task.title.getD "Untitled Task"))
      (some (task.notes.getD "")) (some (taskCompleted task))
      task.due] := hops
    subst hops2
    intro op hop
    cases e <;> simp [sync_gmail_task_to_icloud, hM, hu, hcall] at hop <;>
      simp [hop, isCreateOp]

/-- An iCloud reminder already linked by a mapping row is pushed with an
update call only — the consult of the mapping table prevents any
create. -/
theorem sync_icloud_mapped_no_create (env : Env) (st : St) (reminder : Rem)
    (cal tl : String) (m : TaskMapping)
    (hM : st.mappings.find?
      (fun mm => mm.icloud_reminder_uid == some reminder.id) = some m) :
    ∀ op ∈ (sync_icloud_reminder_to_gmail env st reminder cal tl).2.2,
    isCreateOp op = false := by
  rcases hcall : updateTaskOp env st m.gmail_task_list_id m.gmail_task_id
      { title := some reminder.summary
        notes := if optStrTruthy reminder.description then
          reminder.description else none
        due := match reminder.due with
          | some d => some (d ++ "Z")
          | none => none
        status := some (if reminder.completed then "completed"
          else "needsAction") } with ⟨e, st1, ops1⟩
  have hops := (updateTaskOp_parts env st m.gmail_task_list_id
    m.gmail_task_id
    { title := some reminder.summary
      notes := if optStrTruthy reminder.description then
        reminder.description else none
      due := match reminder.due with
        | some d => some (d ++ "Z")
        | none => none
      status := some (if reminder.completed then "completed"
        else "needsAction") }).2.2.2.2.2.2.2.2
  rw [hcall] at hops
  have hops2 : ops1 = [Op.updateTask m.gmail_task_list_id m.gmail_task_id
    { title := some reminder.summary
      notes := if optStrTruthy reminder.description then
        reminder.description else none
      due := match reminder.due with
        | some d => some (d ++ "Z")
        | none => none
      status := some (if reminder.completed then "completed"
        else "needsAction") }] := hops
  subst hops2
  intro op hop
  cases e <;> simp [sync_icloud_reminder_to_gmail, hM, hcall] at hop <;>
    simp [hop, isCreateOp]

/-- C8: across any number of repeated runs in any direction, the
database invariants are preserved: at most one mapping row per gmail
task id, at most one mapping row per reminder uid, and unique item ids
in both stores (so at most one local counterpart per remote id); and the
mapping table is consulted by remote id before any create, so an
already-mapped remote item (a task whose row carries a reminder uid, or
a reminder with a row) is updated rather than re-created. -/
theorem mapping_uniqueness_across_runs (env : Env) (st : St) (hwf : st.wf)
    (ds : List (Option SyncDirection)) :
    (iterateRuns env ds st).wf ∧
    (∀ (st' : St) (task : GTask) (tl cal : String) (m : TaskMapping),
      st'.mappings.find? (fun mm => mm.gmail_task_id == task.id) = some m →
      m.icloud_reminder_uid.isSome = true →
      ∀ op ∈ (sync_gmail_task_to_icloud env st' task tl cal).2.2,
        isCreateOp op = false) ∧
    (∀ (st' : St) (reminder : Rem) (cal tl : String) (m : TaskMapping),
      st'.mappings.find?
        (fun mm => mm.icloud_reminder_uid == some reminder.id) = some m →
      ∀ op ∈ (sync_icloud_reminder_to_gmail env st' reminder cal tl).2.2,
        isCreateOp op = false) :=
  ⟨iterateRuns_wf env ds st hwf,
    fun st' task tl cal m hM hU =>
      sync_gmail_mapped_no_create env st' task tl cal m hM hU,
    fun st' reminder cal tl m hM =>
      sync_icloud_mapped_no_create env st' reminder cal tl m hM⟩

theorem mapping_uniqueness_across_runs_witness :
    stW.wf ∧
    ((iterateRuns envH [some SyncDirection.bidirectional, none,
        some SyncDirection.gmail_to_icloud,
        some SyncDirection.icloud_to_gmail] stW).wf ∧
    (∀ (st' : St) (task : GTask) (tl cal : String) (m : TaskMapping),
      st'.mappings.find? (fun mm => mm.gmail_task_id == task.id) = some m →
      m.icloud_reminder_uid.isSome = true →
      ∀ op ∈ (sync_gmail_task_to_icloud envH st' task tl cal).2.2,
        isCreateOp op = false) ∧
    (∀ (st' : St) (reminder : Rem) (cal tl : String) (m : TaskMapping),
      st'.mappings.find?
        (fun mm => mm.icloud_reminder_uid == some reminder.id) = some m →
      ∀ op ∈ (sync_icloud_reminder_to_gmail envH st' reminder cal tl).2.2,
        isCreateOp op = false)) :=
  ⟨by unfold St.wf; decide,
    mapping_uniqueness_across_runs envH stW (by unfold St.wf; decide)
      [some SyncDirection.bidirectional, none,
        some SyncDirection.gmail_to_icloud,
        some SyncDirection.icloud_to_gmail]⟩

theorem gmailTaskLoop_all_mapped (env : Env) (tl cal : String)
    (mapped : List Nat) :
    ∀ (ts : List GTask) (st : St), (∀ x ∈ ts, x.id ∈ mapped) →
    gmailTaskLoop env tl cal mapped ts st = (st, [], 0) := by
  intro ts
  induction ts with
  | nil => intro st _; rfl
  | cons t ts ih =>
    intro st hall
    have hmem : t.id ∈ mapped := hall t (List.mem_cons_self t ts)
    rw [show gmailTaskLoop env tl cal mapped (t :: ts) st =
      gmailTaskLoop env tl cal mapped ts st by simp [gmailTaskLoop, hmem]]
    exact ih st (fun x hx => hall x (List.mem_cons_of_mem t hx))

theorem icloudRemLoop_all_mapped (env : Env) (cal tl : String)
    (mapped : List Nat) :
    ∀ (rs : List Rem) (st : St), (∀ x ∈ rs, x.id ∈ mapped) →
    icloudRemLoop env cal tl mapped rs st = (st, [], 0) := by
  intro rs
  induction rs with
  | nil => intro st _; rfl
  | cons r rs ih =>
    intro st hall
    have hmem : r.id ∈ mapped := hall r (List.mem_cons_self r rs)
    rw [show icloudRemLoop env cal tl mapped (r :: rs) st =
      icloudRemLoop env cal tl mapped rs st by simp [icloudRemLoop, hmem]]
    exact ih st (fun x hx => hall x (List.mem_cons_of_mem r hx))

/-- No run ever changes the stored settings. -/
theorem run_core_settings (env : Env) (st : St) (direction : SyncDirection)
    (tl : String) (cal? : Option String) :
    (run_core env st direction tl cal?).1.settingDirection = st.settingDirection ∧
    (run_core env st direction tl cal?).1.settingTaskList = st.settingTaskList ∧
    (run_core env st direction tl cal?).1.settingCalendar = st.settingCalendar := by
  cases direction with
  | gmail_to_icloud =>
    simp only [run_core]
    split
    · exact ⟨rfl, rfl, rfl⟩
    · split
      · exact ⟨rfl, rfl, rfl⟩
      · split
        · exact ⟨rfl, rfl, rfl⟩
        · have h := gmailTaskLoop_track env tl (cal?.getD "") []
            (gmailFiltered st) st
          exact ⟨h.2.2.1, h.2.2.2.1, h.2.2.2.2.1⟩
  | icloud_to_gmail =>
    simp only [run_core]
    split
    · exact ⟨rfl, rfl, rfl⟩
    · split
      · exact ⟨rfl, rfl, rfl⟩
      · split
        · exact ⟨rfl, rfl, rfl⟩
        · have h := icloudRemLoop_track env (cal?.getD "") tl []
            (icloudFiltered st) st
          exact ⟨h.2.2.1, h.2.2.2.1, h.2.2.2.2.1⟩
  | bidirectional =>
    simp only [run_core]
    split
    · exact ⟨rfl, rfl, rfl⟩
    · split
      · exact ⟨rfl, rfl, rfl⟩
      · split
        · exact ⟨rfl, rfl, rfl⟩
        · rw [show (if (SyncDirection.bidirectional ==
              SyncDirection.gmail_to_icloud ||
              SyncDirection.bidirectional == SyncDirection.bidirectional)
              = true then gmailFiltered st else []) = gmailFiltered st
            from rfl]
          rw [show (if (SyncDirection.bidirectional ==
              SyncDirection.icloud_to_gmail ||
              SyncDirection.bidirectional == SyncDirection.bidirectional)
              = true then icloudFiltered st else []) = icloudFiltered st
            from rfl]
          rcases hpa : phaseA env (gmailFiltered st) (icloudFiltered st)
            st.mappings st with ⟨rows, st1, ops1, c1, err1⟩
          have hpp := phaseA_parts env (gmailFiltered st) (icloudFiltered st)
            st.mappings st
          rw [hpa] at hpp
          have p6 : st1.settingDirection = st.settingDirection :=
            hpp.2.2.2.2.2.1
          have p7 : st1.settingTaskList = st.settingTaskList :=
            hpp.2.2.2.2.2.2.1
          have p8 : st1.settingCalendar = st.settingCalendar :=
            hpp.2.2.2.2.2.2.2.1
          cases err1 with
          | some e => exact ⟨p6, p7, p8⟩
          | none =>
            have hgt := gmailTaskLoop_track env tl (cal?.getD "")
              (st.mappings.map (fun m => m.gmail_task_id))
              (gmailFiltered st) { st1 with mappings := rows }
            have hit := icloudRemLoop_track env (cal?.getD "") tl
              (st.mappings.filterMap (fun m => m.icloud_reminder_uid))
              (icloudFiltered st)
              (gmailTaskLoop env tl (cal?.getD "")
                (st.mappings.map (fun m => m.gmail_task_id))
                (gmailFiltered st) { st1 with mappings := rows }).1
            exact ⟨(hit.2.2.1).trans ((hgt.2.2.1).trans p6),
              (hit.2.2.2.1).trans ((hgt.2.2.2.1).trans p7),
              (hit.2.2.2.2.1).trans ((hgt.2.2.2.2.1).trans p8)⟩

/-- run_sync never changes the stored settings. -/
theorem run_sync_settings (env : Env) (st : St)
    (direction? : Option SyncDirection) :
    (run_sync env st direction?).2.1.settingDirection = st.settingDirection ∧
    (run_sync env st direction?).2.1.settingTaskList = st.settingTaskList ∧
    (run_sync env st direction?).2.1.settingCalendar = st.settingCalendar := by
  cases direction? with
  | some d =>
    rcases hrc : run_core env st d (st.settingTaskList.getD "@default")
      st.settingCalendar with ⟨st1, ops, ts, rs, err⟩
    have h0 := run_core_settings env st d
      (st.settingTaskList.getD "@default") st.settingCalendar
    rw [hrc] at h0
    simp only [run_sync, finalizeLog]
    rw [hrc]
    exact h0
  | none =>
    rcases hrc : run_core env st
        (st.settingDirection.getD SyncDirection.bidirectional)
        (st.settingTaskList.getD "@default") st.settingCalendar
      with ⟨st1, ops, ts, rs, err⟩
    have h0 := run_core_settings env st
      (st.settingDirection.getD SyncDirection.bidirectional)
      (st.settingTaskList.getD "@default") st.settingCalendar
    rw [hrc] at h0
    simp only [run_sync, finalizeLog]
    rw [hrc]
    exact h0

/-- With both services connected but no calendar configured, a run is a
pure no-op on the state and attempts no store call. -/
theorem run_sync_nocal (env : Env) (st : St) (d : SyncDirection)
    (hg : env.googleConnected = true) (hi : env.icloudConnected = true)
    (hcal : optStrTruthy st.settingCalendar = false) :
    (run_sync env st (some d)).2.1 = st ∧
    (run_sync env st (some d)).2.2 = [] := by
  constructor <;> simp [run_sync, finalizeLog, run_core, hg, hi, hcal]

theorem run_core_bidi_eq_ok (env : Env) (st : St) (tl : String)
    (cal? : Option String) (hg : env.googleConnected = true)
    (hi : env.icloudConnected = true) (hcal : optStrTruthy cal? = true)
    (rows : List TaskMapping) (st1 : St) (ops1 : List Op) (c1 : Nat)
    (hpa : phaseA env (gmailFiltered st) (icloudFiltered st) st.mappings st
      = (rows, st1, ops1, c1, none)) :
    run_core env st SyncDirection.bidirectional tl cal? =
      ((icloudRemLoop env (cal?.getD "") tl
          (st.mappings.filterMap (fun m => m.icloud_reminder_uid))
          (icloudFiltered st)
          (gmailTaskLoop env tl (cal?.getD "")
            (st.mappings.map (fun m => m.gmail_task_id))
            (gmailFiltered st) { st1 with mappings := rows }).1).1,
        ops1 ++ (gmailTaskLoop env tl (cal?.getD "")
            (st.mappings.map (fun m => m.gmail_task_id))
            (gmailFiltered st) { st1 with mappings := rows }).2.1 ++
          (icloudRemLoop env (cal?.getD "") tl
            (st.mappings.filterMap (fun m => m.icloud_reminder_uid))
            (icloudFiltered st)
            (gmailTaskLoop env tl (cal?.getD "")
              (st.mappings.map (fun m => m.gmail_task_id))
              (gmailFiltered st) { st1 with mappings := rows }).1).2.1,
        c1 + (gmailTaskLoop env tl (cal?.getD "")
            (st.mappings.map (fun m => m.gmail_task_id))
            (gmailFiltered st) { st1 with mappings := rows }).2.2,
        (icloudRemLoop env (cal?.getD "") tl
          (st.mappings.filterMap (fun m => m.icloud_reminder_uid))
          (icloudFiltered st)
          (gmailTaskLoop env tl (cal?.getD "")
            (st.mappings.map (fun m => m.gmail_task_id))
            (gmailFiltered st) { st1 with mappings := rows }).1).2.2,
        none) := by
  rcases hgl : gmailTaskLoop env tl (cal?.getD "")
      (st.mappings.map (fun m => m.gmail_task_id))
      (gmailFiltered st) { st1 with mappings := rows }
    with ⟨st3, ops2, c2⟩
  rcases hil : icloudRemLoop env (cal?.getD "") tl
      (st.mappings.filterMap (fun m => m.icloud_reminder_uid))
      (icloudFiltered st) st3 with ⟨st4, ops3, c3⟩
  simp [run_core, hg, hi, hcal, hpa, hgl, hil]

theorem run_core_bidi_eq_err (env : Env) (st : St) (tl : String)
    (cal? : Option String) (hg : env.googleConnected = true)
    (hi : env.icloudConnected = true) (hcal : optStrTruthy cal? = true)
    (rows : List TaskMapping) (st1 : St) (ops1 : List Op) (c1 : Nat)
    (e : String)
    (hpa : phaseA env (gmailFiltered st) (icloudFiltered st) st.mappings st
      = (rows, st1, ops1, c1, some e)) :
    run_core env st SyncDirection.bidirectional tl cal? =
      ({ st1 with mappings := rows }, ops1, c1, 0, some e) := by
  simp [run_core, hg, hi, hcal, hpa]

/-- After Phase A (carried out without error) and both Phase B loops of
an honest bidirectional run, every filtered remote task is keyed by a
mapping row and every filtered local reminder is linked by one. -/
theorem pipeline_coverage (env : Env) (st st1 : St)
    (rows : List TaskMapping) (tl cal : String)
    (hcr : ∀ s, env.failCreateReminder s = false)
    (hct : ∀ s, env.failCreateTask s = false)
    (hpp1 : gids rows = gids st.mappings)
    (hpp2 : uids rows = uids st.mappings)
    (hsk : taskSkel st1.tasks = taskSkel st.tasks)
    (htchA : ∀ r ∈ st1.rems, (r.id, r.summary) ∈ remSkel st.rems ∨
      r.id ∈ uids st.mappings) :
    (∀ t ∈ gmailFiltered (icloudRemLoop env cal tl (uids st.mappings)
        (icloudFiltered st)
        (gmailTaskLoop env tl cal (gids st.mappings) (gmailFiltered st)
          { st1 with mappings := rows }).1).1,
      t.id ∈ gids (icloudRemLoop env cal tl (uids st.mappings)
        (icloudFiltered st)
        (gmailTaskLoop env tl cal (gids st.mappings) (gmailFiltered st)
          { st1 with mappings := rows }).1).1.mappings) ∧
    (∀ r ∈ icloudFiltered (icloudRemLoop env cal tl (uids st.mappings)
        (icloudFiltered st)
        (gmailTaskLoop env tl cal (gids st.mappings) (gmailFiltered st)
          { st1 with mappings := rows }).1).1,
      r.id ∈ uids (icloudRemLoop env cal tl (uids st.mappings)
        (icloudFiltered st)
        (gmailTaskLoop env tl cal (gids st.mappings) (gmailFiltered st)
          { st1 with mappings := rows }).1).1.mappings) := by
  obtain ⟨g1, g2, g3, g4, g5, g6, g7, g8, g9, g10⟩ :=
    gmailTaskLoop_track env tl cal (gids st.mappings) (gmailFiltered st)
      { st1 with mappings := rows }
  obtain ⟨i1, i2, i3, i4, i5, i6, i7, i8, i9, i10⟩ :=
    icloudRemLoop_track env cal tl (uids st.mappings) (icloudFiltered st)
      (gmailTaskLoop env tl cal (gids st.mappings) (gmailFiltered st)
        { st1 with mappings := rows }).1
  have hext1 : Extends { st1 with mappings := rows }
      (gmailTaskLoop env tl cal (gids st.mappings) (gmailFiltered st)
        { st1 with mappings := rows }).1 :=
    extends_gmailTaskLoop env tl cal (gids st.mappings) (gmailFiltered st)
      { st1 with mappings := rows }
  have hext2 : Extends
      (gmailTaskLoop env tl cal (gids st.mappings) (gmailFiltered st)
        { st1 with mappings := rows }).1
      (icloudRemLoop env cal tl (uids st.mappings) (icloudFiltered st)
        (gmailTaskLoop env tl cal (gids st.mappings) (gmailFiltered st)
          { st1 with mappings := rows }).1).1 :=
    extends_icloudRemLoop env cal tl (uids st.mappings) (icloudFiltered st)
      (gmailTaskLoop env tl cal (gids st.mappings) (gmailFiltered st)
        { st1 with mappings := rows }).1
  constructor
  · intro t ht
    simp only [gmailFiltered, List.mem_filter] at ht
    have htF : t ∈ (icloudRemLoop env cal tl (uids st.mappings)
        (icloudFiltered st)
        (gmailTaskLoop env tl cal (gids st.mappings) (gmailFiltered st)
          { st1 with mappings := rows }).1).1.tasks := ht.1
    have htitle : optStrTruthy t.title = true := ht.2
    rcases i10 t htF with h | h
    · have h' : (t.id, t.title) ∈ taskSkel st.tasks := by
        rw [(congrArg taskSkel g1).trans hsk] at h
        exact h
      rcases List.mem_map.mp h' with ⟨t0, ht0, hpair⟩
      have hid : t0.id = t.id := congrArg Prod.fst hpair
      have hti : t0.title = t.title := congrArg Prod.snd hpair
      have ht0f : t0 ∈ gmailFiltered st :=
        List.mem_filter.mpr ⟨ht0, by rw [hti]; exact htitle⟩
      rcases g9 hcr t0 ht0f with h2 | h2
      · have h3 : t0.id ∈
            gids ({ st1 with mappings := rows } : St).mappings := by
          rw [show gids ({ st1 with mappings := rows } : St).mappings =
            gids st.mappings from hpp1]
          exact h2
        exact hid ▸ mem_gids_of_extends hext2 (mem_gids_of_extends hext1 h3)
      · exact hid ▸ mem_gids_of_extends hext2 h2
    · exact h
  · intro r hr
    simp only [icloudFiltered, List.mem_filter] at hr
    have hrF : r ∈ (icloudRemLoop env cal tl (uids st.mappings)
        (icloudFiltered st)
        (gmailTaskLoop env tl cal (gids st.mappings) (gmailFiltered st)
          { st1 with mappings := rows }).1).1.rems := hr.1
    have hrs : (r.summary != "") = true := hr.2
    have hrL : r ∈ (gmailTaskLoop env tl cal (gids st.mappings)
        (gmailFiltered st) { st1 with mappings := rows }).1.rems :=
      i1 ▸ hrF
    rcases g10 r hrL with h | h
    · rcases List.mem_map.mp h with ⟨r1, hr1, hpair⟩
      have hid1 : r1.id = r.id := congrArg Prod.fst hpair
      have hsum1 : r1.summary = r.summary := congrArg Prod.snd hpair
      rcases htchA r1 hr1 with h2 | h2
      · rcases List.mem_map.mp h2 with ⟨r0, hr0, hpair0⟩
        have hid0 : r0.id = r1.id := congrArg Prod.fst hpair0
        have hsum0 : r0.summary = r1.summary := congrArg Prod.snd hpair0
        have hr0f : r0 ∈ icloudFiltered st :=
          List.mem_filter.mpr ⟨hr0, by rw [hsum0, hsum1]; exact hrs⟩
        rcases i9 hct r0 hr0f with h3 | h3
        · have h4 : r0.id ∈
              uids ({ st1 with mappings := rows } : St).mappings := by
            rw [show uids ({ st1 with mappings := rows } : St).mappings =
              uids st.mappings from hpp2]
            exact h3
          exact hid1 ▸ hid0 ▸ i7 r0.id (g7 r0.id h4)
        · exact hid1 ▸ hid0 ▸ h3
      · have h4 : r1.id ∈
            uids ({ st1 with mappings := rows } : St).mappings := by
          rw [show uids ({ st1 with mappings := rows } : St).mappings =
            uids st.mappings from hpp2]
          exact h2
        exact hid1 ▸ i7 r1.id (g7 r1.id h4)
    · exact i7 r.id h

theorem finalizeLog_state (d : SyncDirection)
    (res : St × List Op × Nat × Nat × Option String) :
    (finalizeLog d res).2.1 = res.1 ∧ (finalizeLog d res).2.2 = res.2.1 := by
  rcases res with ⟨a, b, c, x, e⟩
  exact ⟨rfl, rfl⟩

/-- After one honest bidirectional run (with a configured calendar),
every filtered remote task id is keyed by a mapping row and every
filtered local reminder id is linked by one. -/
theorem run_sync_bidi_coverage (env : Env) (st : St) (hhon : env.honest)
    (hwf : st.wf) (hcal : optStrTruthy st.settingCalendar = true) :
    (∀ t ∈ gmailFiltered
        (run_sync env st (some SyncDirection.bidirectional)).2.1,
      t.id ∈ gids
        (run_sync env st (some SyncDirection.bidirectional)).2.1.mappings) ∧
    (∀ r ∈ icloudFiltered
        (run_sync env st (some SyncDirection.bidirectional)).2.1,
      r.id ∈ uids
        (run_sync env st (some SyncDirection.bidirectional)).2.1.mappings) := by
  obtain ⟨hg, hi, hcr, hur, hct, hut⟩ := hhon
  have hrs : (run_sync env st (some SyncDirection.bidirectional)).2.1 =
      (run_core env st SyncDirection.bidirectional
        (st.settingTaskList.getD "@default") st.settingCalendar).1 :=
    (finalizeLog_state SyncDirection.bidirectional
      (run_core env st SyncDirection.bidirectional
        (st.settingTaskList.getD "@default") st.settingCalendar)).1
  rcases hpa : phaseA env (gmailFiltered st) (icloudFiltered st)
    st.mappings st with ⟨rows, st1, ops1, c1, err1⟩
  have herr := phaseA_no_error env (gmailFiltered st) (icloudFiltered st)
    hur hut st.mappings st (gmailFiltered_present st)
    (icloudFiltered_present st)
  rw [hpa] at herr
  have herr2 : err1 = none := herr
  subst herr2
  have hred := run_core_bidi_eq_ok env st
    (st.settingTaskList.getD "@default") st.settingCalendar hg hi hcal
    rows st1 ops1 c1 hpa
  have hpp := phaseA_parts env (gmailFiltered st) (icloudFiltered st)
    st.mappings st
  rw [hpa] at hpp
  have hpp1 : gids rows = gids st.mappings := hpp.1
  have hpp2 : uids rows = uids st.mappings := hpp.2.1
  have hsk := phaseA_taskSkel env (gmailFiltered st) (icloudFiltered st)
    st.mappings st
  rw [hpa] at hsk
  have hsk1 : taskSkel st1.tasks = taskSkel st.tasks := hsk
  have htchA := phaseA_touchR env (gmailFiltered st) (icloudFiltered st)
    st.mappings st
  rw [hpa] at htchA
  have htchA1 : ∀ r ∈ st1.rems, (r.id, r.summary) ∈ remSkel st.rems ∨
      r.id ∈ uids st.mappings := htchA
  have hcov := pipeline_coverage env st st1 rows
    (st.settingTaskList.getD "@default") (st.settingCalendar.getD "")
    hcr hct hpp1 hpp2 hsk1 htchA1
  rw [hrs, hred]
  exact hcov

/-- C3 (amended): running a bidirectional reconciliation twice in
succession with an honest environment and no external change, the second
run performs zero store create calls and keeps every mapping row's
identity — the gmail task ids and the reminder uids of the table are
exactly those left by the first run, in order.  (It still performs
update calls: Phase A unconditionally re-pushes title/notes, and
baselines may still move — see the counterexample.) -/
theorem second_run_creates_nothing (env : Env) (st : St)
    (hhon : env.honest) (hwf : st.wf) :
    (∀ op ∈ (run_sync env
        (run_sync env st (some SyncDirection.bidirectional)).2.1
        (some SyncDirection.bidirectional)).2.2, isCreateOp op = false) ∧
    gids (run_sync env
        (run_sync env st (some SyncDirection.bidirectional)).2.1
        (some SyncDirection.bidirectional)).2.1.mappings =
      gids (run_sync env st
        (some SyncDirection.bidirectional)).2.1.mappings ∧
    uids (run_sync env
        (run_sync env st (some SyncDirection.bidirectional)).2.1
        (some SyncDirection.bidirectional)).2.1.mappings =
      uids (run_sync env st
        (some SyncDirection.bidirectional)).2.1.mappings := by
  obtain ⟨hg, hi, hcr, hur, hct, hut⟩ := hhon
  by_cases hcal : optStrTruthy st.settingCalendar = true
  · have hcov := run_sync_bidi_coverage env st
      ⟨hg, hi, hcr, hur, hct, hut⟩ hwf hcal
    have hset := run_sync_settings env st (some SyncDirection.bidirectional)
    generalize hst4 : (run_sync env st
      (some SyncDirection.bidirectional)).2.1 = st4 at hcov hset ⊢
    have hcal4 : optStrTruthy st4.settingCalendar = true := by
      rw [hset.2.2]
      exact hcal
    have hstate2 : (run_sync env st4
        (some SyncDirection.bidirectional)).2.1 =
        (run_core env st4 SyncDirection.bidirectional
          (st4.settingTaskList.getD "@default") st4.settingCalendar).1 :=
      (finalizeLog_state SyncDirection.bidirectional
        (run_core env st4 SyncDirection.bidirectional
          (st4.settingTaskList.getD "@default") st4.settingCalendar)).1
    have hops2 : (run_sync env st4
        (some SyncDirection.bidirectional)).2.2 =
        (run_core env st4 SyncDirection.bidirectional
          (st4.settingTaskList.getD "@default") st4.settingCalendar).2.1 :=
      (finalizeLog_state SyncDirection.bidirectional
        (run_core env st4 SyncDirection.bidirectional
          (st4.settingTaskList.getD "@default") st4.settingCalendar)).2
    rcases hpa2 : phaseA env (gmailFiltered st4) (icloudFiltered st4)
      st4.mappings st4 with ⟨rows2, st1', ops1', c1', err2⟩
    have hpp2 := phaseA_parts env (gmailFiltered st4) (icloudFiltered st4)
      st4.mappings st4
    rw [hpa2] at hpp2
    have hq1 : gids rows2 = gids st4.mappings := hpp2.1
    have hq2 : uids rows2 = uids st4.mappings := hpp2.2.1
    have hnc := phaseA_no_creates env (gmailFiltered st4)
      (icloudFiltered st4) st4.mappings st4
    rw [hpa2] at hnc
    have hnc1 : ∀ op ∈ ops1', isCreateOp op = false := hnc
    cases err2 with
    | some e =>
      have hred := run_core_bidi_eq_err env st4
        (st4.settingTaskList.getD "@default") st4.settingCalendar
        hg hi hcal4 rows2 st1' ops1' c1' e hpa2
      refine ⟨?_, ?_, ?_⟩
      · intro op hop
        rw [hops2, hred] at hop
        exact hnc1 op hop
      · rw [hstate2, hred]
        exact (show gids rows2 = gids st4.mappings from hq1)
      · rw [hstate2, hred]
        exact (show uids rows2 = uids st4.mappings from hq2)
    | none =>
      have hglskip := gmailTaskLoop_all_mapped env
        (st4.settingTaskList.getD "@default") (st4.settingCalendar.getD "")
        (st4.mappings.map (fun m => m.gmail_task_id)) (gmailFiltered st4)
        { st1' with mappings := rows2 } (fun x hx =>
          (show x.id ∈ st4.mappings.map (fun m => m.gmail_task_id)
            from hcov.1 x hx))
      have hilskip := icloudRemLoop_all_mapped env
        (st4.settingCalendar.getD "") (st4.settingTaskList.getD "@default")
        (st4.mappings.filterMap (fun m => m.icloud_reminder_uid))
        (icloudFiltered st4) { st1' with mappings := rows2 }
        (fun x hx =>
          (show x.id ∈ st4.mappings.filterMap (fun m => m.icloud_reminder_uid)
            from hcov.2 x hx))
      have hred : run_core env st4 SyncDirection.bidirectional
          (st4.settingTaskList.getD "@default") st4.settingCalendar =
          ({ st1' with mappings := rows2 }, ops1', c1', 0, none) := by
        simp [run_core, hg, hi, hcal4, hpa2, hglskip, hilskip]
      refine ⟨?_, ?_, ?_⟩
      · intro op hop
        rw [hops2, hred] at hop
        exact hnc1 op hop
      · rw [hstate2, hred]
        exact (show gids rows2 = gids st4.mappings from hq1)
      · rw [hstate2, hred]
        exact (show uids rows2 = uids st4.mappings from hq2)
  · have hcal' : optStrTruthy st.settingCalendar = false := by
      simpa using hcal
    have h1 := run_sync_nocal env st SyncDirection.bidirectional hg hi hcal'
    rw [h1.1]
    refine ⟨?_, ?_, ?_⟩
    · rw [h1.2]
      intro op hop
      cases hop
    · rw [h1.1]
    · rw [h1.1]

theorem second_run_creates_nothing_witness :
    envH.honest ∧ stW.wf ∧
    ((∀ op ∈ (run_sync envH
        (run_sync envH stW (some SyncDirection.bidirectional)).2.1
        (some SyncDirection.bidirectional)).2.2, isCreateOp op = false) ∧
    gids (run_sync envH
        (run_sync envH stW (some SyncDirection.bidirectional)).2.1
        (some SyncDirection.bidirectional)).2.1.mappings =
      gids (run_sync envH stW
        (some SyncDirection.bidirectional)).2.1.mappings ∧
    uids (run_sync envH
        (run_sync envH stW (some SyncDirection.bidirectional)).2.1
        (some SyncDirection.bidirectional)).2.1.mappings =
      uids (run_sync envH stW
        (some SyncDirection.bidirectional)).2.1.mappings) :=
  ⟨envH_honest, by unfold St.wf; decide,
    second_run_creates_nothing envH stW envH_honest
      (by unfold St.wf; decide)⟩

/-- sync_gmail_task_to_icloud returns either none (create failed) or the
pushed task's own id. -/
theorem sync_gmail_task_to_icloud_ret (env : Env) (st : St) (task : GTask)
    (tl cal : String) :
    (sync_gmail_task_to_icloud env st task tl cal).1 = none ∨
    (sync_gmail_task_to_icloud env st task tl cal).1 = some task.id := by
  rcases hM : st.mappings.find? (fun m => m.gmail_task_id == task.id) with _ | m
  · by_cases hc : env.failCreateReminder (task.title.getD "Untitled Task") = true
    · refine Or.inl ?_
      simp [sync_gmail_task_to_icloud, hM,
        createReminderOp_fail env st cal _ _ _ hc]
    · have hc' : env.failCreateReminder (task.title.getD "Untitled Task") = false := by
        simpa using hc
      refine Or.inr ?_
      simp [sync_gmail_task_to_icloud, hM,
        createReminderOp_okEq env st cal _ _ _ hc']
  · rcases hU : m.icloud_reminder_uid with _ | u
    · by_cases hc : env.failCreateReminder (task.title.getD "Untitled Task") = true
      · refine Or.inl ?_
        simp [sync_gmail_task_to_icloud, hM, hU,
          createReminderOp_fail env st cal _ _ _ hc]
      · have hc' : env.failCreateReminder (task.title.getD "Untitled Task") = false := by
          simpa using hc
        refine Or.inr ?_
        simp [sync_gmail_task_to_icloud, hM, hU,
          createReminderOp_okEq env st cal _ _ _ hc']
    · rcases hcall : updateReminderOp env st u
          (some (task.title.getD "Untitled Task"))
          (some (task.notes.getD "")) (some (taskCompleted task)) task.due
        with ⟨e, st1, ops1⟩
      refine Or.inr ?_
      cases e <;> simp [sync_gmail_task_to_icloud, hM, hU, hcall]

/-- Pushing one gmail task can add at most its own id to the mapping
keys. -/
theorem sync_gmail_task_to_icloud_gids_sub (env : Env) (st : St)
    (task : GTask) (tl cal : String) :
    ∀ g ∈ gids (sync_gmail_task_to_icloud env st task tl cal).2.1.mappings,
    g ∈ gids st.mappings ∨ g = task.id := by
  rcases hM : st.mappings.find? (fun m => m.gmail_task_id == task.id) with _ | m
  · by_cases hc : env.failCreateReminder (task.title.getD "Untitled Task") = true
    · have hF : (sync_gmail_task_to_icloud env st task tl cal).2.1 = st := by
        simp [sync_gmail_task_to_icloud, hM,
          createReminderOp_fail env st cal _ _ _ hc]
      rw [hF]
      exact fun g hg => Or.inl hg
    · have hc' : env.failCreateReminder (task.title.getD "Untitled Task") = false := by
        simpa using hc
      have hF : (sync_gmail_task_to_icloud env st task tl cal).2.1 =
          { st with
            rems := (st.rems ++ [Rem.mk st.nextRemId
              (task.title.getD "Untitled Task")
              (if (task.notes.getD "") != "" then some (task.notes.getD "")
                else none) task.due false])
            nextRemId := st.nextRemId + 1
            mappings := (st.mappings ++ [TaskMapping.mk task.id tl
              (some st.nextRemId) (some cal)
              (task.title.getD "Untitled Task") false]) } := by
        simp [sync_gmail_task_to_icloud, hM,
          createReminderOp_okEq env st cal _ _ _ hc']
      rw [hF]
      intro g hg
      have hg2 : g ∈ gids st.mappings ++ gids [TaskMapping.mk task.id tl
          (some st.nextRemId) (some cal) (task.title.getD "Untitled Task")
          false] := by
        rw [← gids_append]
        exact hg
      rcases List.mem_append.mp hg2 with h | h
      · exact Or.inl h
      · refine Or.inr ?_
        simpa [gids] using h
  · rcases hU : m.icloud_reminder_uid with _ | u
    · by_cases hc : env.failCreateReminder (task.title.getD "Untitled Task") = true
      · have hF : (sync_gmail_task_to_icloud env st task tl cal).2.1 = st := by
          simp [sync_gmail_task_to_icloud, hM, hU,
            createReminderOp_fail env st cal _ _ _ hc]
        rw [hF]
        exact fun g hg => Or.inl hg
      · have hc' : env.failCreateReminder (task.title.getD "Untitled Task") = false := by
          simpa using hc
        have hF : (sync_gmail_task_to_icloud env st task tl cal).2.1 =
            { st with
              rems := (st.rems ++ [Rem.mk st.nextRemId
                (task.title.getD "Untitled Task")
                (if (task.notes.getD "") != "" then some (task.notes.getD "")
                  else none) task.due false])
              nextRemId := st.nextRemId + 1
              mappings := (updateFirstByGid st.mappings task.id
                (fun mm => { mm with
                  icloud_reminder_uid := some st.nextRemId
                  icloud_calendar_url := some cal
                  title := task.title.getD "Untitled Task" })) } := by
          simp [sync_gmail_task_to_icloud, hM, hU,
            createReminderOp_okEq env st cal _ _ _ hc']
        rw [hF]
        intro g hg
        refine Or.inl ?_
        have he : gids (updateFirstByGid st.mappings task.id
            (fun mm => { mm with
              icloud_reminder_uid := some st.nextRemId
              icloud_calendar_url := some cal
              title := task.title.getD "Untitled Task" })) =
            gids st.mappings :=
          gids_updateFirstByGid st.mappings task.id _ (fun mm => rfl)
        rw [← he]
        exact hg
    · rcases hcall : updateReminderOp env st u
          (some (task.title.getD "Untitled Task"))
          (some (task.notes.getD "")) (some (taskCompleted task)) task.due
        with ⟨e, st1, ops1⟩
      have hp := updateReminderOp_parts env st u
        (some (task.title.getD "Untitled Task"))
        (some (task.notes.getD "")) (some (taskCompleted task)) task.due
      rw [hcall] at hp
      have h2 : st1.mappings = st.mappings := hp.2.1
      cases e with
      | ok v =>
        have hF : (sync_gmail_task_to_icloud env st task tl cal).2.1 =
            { st1 with mappings := (updateFirstByGid st1.mappings task.id
              (fun mm => { mm with
                title := task.title.getD "Untitled Task" })) } := by
          simp [sync_gmail_task_to_icloud, hM, hU, hcall]
        rw [hF]
        intro g hg
        refine Or.inl ?_
        have he : gids (updateFirstByGid st1.mappings task.id
            (fun mm => { mm with
              title := task.title.getD "Untitled Task" })) =
            gids st.mappings := by
          rw [gids_updateFirstByGid st1.mappings task.id
            (fun mm => { mm with
              title := task.title.getD "Untitled Task" })
            (fun mm => rfl), h2]
        rw [← he]
        exact hg
      | error err =>
        have hF : (sync_gmail_task_to_icloud env st task tl cal).2.1 = st1 := by
          simp [sync_gmail_task_to_icloud, hM, hU, hcall]
        rw [hF]
        intro g hg
        refine Or.inl ?_
        rw [← h2]
        exact hg

/-- Pushing one gmail task leaves any unrelated mapping row (different
gmail id) and its linked reminder untouched, as values. -/
theorem sync_gmail_task_to_icloud_preserves (env : Env) (st : St)
    (task : GTask) (tl cal : String) (m : TaskMapping) (r : Rem)
    (hm : m ∈ st.mappings) (hr : r ∈ st.rems)
    (hmu : m.icloud_reminder_uid = some r.id) (hwf : st.wf)
    (hne : task.id ≠ m.gmail_task_id) :
    m ∈ (sync_gmail_task_to_icloud env st task tl cal).2.1.mappings ∧
    r ∈ (sync_gmail_task_to_icloud env st task tl cal).2.1.rems := by
  have hmne : m.gmail_task_id ≠ task.id := fun h => hne h.symm
  rcases hM : st.mappings.find? (fun mm => mm.gmail_task_id == task.id) with _ | mx
  · by_cases hc : env.failCreateReminder (task.title.getD "Untitled Task") = true
    · have hF : (sync_gmail_task_to_icloud env st task tl cal).2.1 = st := by
        simp [sync_gmail_task_to_icloud, hM,
          createReminderOp_fail env st cal _ _ _ hc]
      rw [hF]
      exact ⟨hm, hr⟩
    · have hc' : env.failCreateReminder (task.title.getD "Untitled Task") = false := by
        simpa using hc
      have hF : (sync_gmail_task_to_icloud env st task tl cal).2.1 =
          { st with
            rems := (st.rems ++ [Rem.mk st.nextRemId
              (task.title.getD "Untitled Task")
              (if (task.notes.getD "") != "" then some (task.notes.getD "")
                else none) task.due false])
            nextRemId := st.nextRemId + 1
            mappings := (st.mappings ++ [TaskMapping.mk task.id tl
              (some st.nextRemId) (some cal)
              (task.title.getD "Untitled Task") false]) } := by
        simp [sync_gmail_task_to_icloud, hM,
          createReminderOp_okEq env st cal _ _ _ hc']
      rw [hF]
      exact ⟨List.mem_append_left _ hm, List.mem_append_left _ hr⟩
  · obtain ⟨hmx, hmxid⟩ := find?_gid_some_facts _ _ _ hM
    rcases hU : mx.icloud_reminder_uid with _ | u
    · by_cases hc : env.failCreateReminder (task.title.getD "Untitled Task") = true
      · have hF : (sync_gmail_task_to_icloud env st task tl cal).2.1 = st := by
          simp [sync_gmail_task_to_icloud, hM, hU,
            createReminderOp_fail env st cal _ _ _ hc]
        rw [hF]
        exact ⟨hm, hr⟩
      · have hc' : env.failCreateReminder (task.title.getD "Untitled Task") = false := by
          simpa using hc
        have hF : (sync_gmail_task_to_icloud env st task tl cal).2.1 =
            { st with
              rems := (st.rems ++ [Rem.mk st.nextRemId
                (task.title.getD "Untitled Task")
                (if (task.notes.getD "") != "" then some (task.notes.getD "")
                  else none) task.due false])
              nextRemId := st.nextRemId + 1
              mappings := (updateFirstByGid st.mappings task.id
                (fun mm => { mm with
                  icloud_reminder_uid := some st.nextRemId
                  icloud_calendar_url := some cal
                  title := task.title.getD "Untitled Task" })) } := by
          simp [sync_gmail_task_to_icloud, hM, hU,
            createReminderOp_okEq env st cal _ _ _ hc']
        rw [hF]
        exact ⟨mem_updateFirstByGid_ne st.mappings task.id _ m hm hmne,
          List.mem_append_left _ hr⟩
    · -- update path at uid u of the found row; u cannot be r.id
      have hune : r.id ≠ u := by
        intro h
        have hmeq : m = mx := uids_nodup_inj st.mappings hwf.2.2.2.2.2.2.1
          m hm mx hmx r.id hmu (by rw [hU, h])
        exact hmne (by rw [hmeq, hmxid])
      rcases hcall : updateReminderOp env st u
          (some (task.title.getD "Untitled Task"))
          (some (task.notes.getD "")) (some (taskCompleted task)) task.due
        with ⟨e, st1, ops1⟩
      have hp := updateReminderOp_parts env st u
        (some (task.title.getD "Untitled Task"))
        (some (task.notes.getD "")) (some (taskCompleted task)) task.due
      rw [hcall] at hp
      have h2 : st1.mappings = st.mappings := hp.2.1
      have hrmem : r ∈ st1.rems := by
        have := mem_rems_update_ne env st u
          (some (task.title.getD "Untitled Task"))
          (some (task.notes.getD "")) (some (taskCompleted task)) task.due
          r hr hune
        rw [hcall] at this
        exact this
      cases e with
      | ok v =>
        have hF : (sync_gmail_task_to_icloud env st task tl cal).2.1 =
            { st1 with mappings := (updateFirstByGid st1.mappings task.id
              (fun mm => { mm with
                title := task.title.getD "Untitled Task" })) } := by
          simp [sync_gmail_task_to_icloud, hM, hU, hcall]
        rw [hF]
        refine ⟨?_, hrmem⟩
        refine mem_updateFirstByGid_ne st1.mappings task.id _ m ?_ hmne
        rw [h2]
        exact hm
      | error err =>
        have hF : (sync_gmail_task_to_icloud env st task tl cal).2.1 = st1 := by
          simp [sync_gmail_task_to_icloud, hM, hU, hcall]
        rw [hF]
        exact ⟨by rw [h2]; exact hm, hrmem⟩

/-- Pushing one iCloud reminder leaves any mapping row with a different
uid untouched as a value, and the row key it reports back differs from
that row's gmail id. -/
theorem sync_icloud_reminder_to_gmail_preserves (env : Env) (st : St)
    (reminder : Rem) (cal tl : String) (m : TaskMapping)
    (hm : m ∈ st.mappings) (hwf : st.wf)
    (hneu : m.icloud_reminder_uid ≠ some reminder.id)
    (hgb : m.gmail_task_id < st.nextTaskId) :
    m ∈ (sync_icloud_reminder_to_gmail env st reminder cal tl).2.1.mappings ∧
    (∀ g, (sync_icloud_reminder_to_gmail env st reminder cal tl).1 = some g →
      g ≠ m.gmail_task_id) := by
  rcases hM : st.mappings.find?
      (fun mm => mm.icloud_reminder_uid == some reminder.id) with _ | mx
  · by_cases hct : env.failCreateTask reminder.summary = true
    · have hF : sync_icloud_reminder_to_gmail env st reminder cal tl =
          (none, st, [Op.createTask tl reminder.summary reminder.description
            reminder.due (some (if reminder.completed then "completed"
              else "needsAction"))]) := by
        simp [sync_icloud_reminder_to_gmail, hM,
          createTaskOp_fail env st tl reminder.summary reminder.description
            reminder.due _ hct]
      rw [hF]
      exact ⟨hm, fun g hg => absurd hg (by simp)⟩
    · have hct' : env.failCreateTask reminder.summary = false := by
        simpa using hct
      have hF : (sync_icloud_reminder_to_gmail env st reminder cal tl).1 =
            some st.nextTaskId ∧
          (sync_icloud_reminder_to_gmail env st reminder cal tl).2.1.mappings =
            st.mappings ++ [TaskMapping.mk st.nextTaskId tl
              (some reminder.id) (some cal) reminder.summary false] := by
        constructor <;>
          simp [sync_icloud_reminder_to_gmail, hM,
            createTaskOp_okEq env st tl reminder.summary reminder.description
              reminder.due _ hct']
      refine ⟨?_, ?_⟩
      · rw [hF.2]
        exact List.mem_append_left _ hm
      · intro g hg
        rw [hF.1] at hg
        have hg2 : st.nextTaskId = g := by injection hg
        rw [← hg2]
        exact Nat.ne_of_gt hgb
  · obtain ⟨hmx, hmxu⟩ := find?_uid_some_facts _ _ _ hM
    have hmxne : mx ≠ m := fun h => hneu (h ▸ hmxu)
    have hgne : mx.gmail_task_id ≠ m.gmail_task_id := fun h =>
      hmxne (gids_nodup_inj st.mappings hwf.2.2.2.2.1 mx hmx m hm h)
    rcases hcall : updateTaskOp env st mx.gmail_task_list_id mx.gmail_task_id
        { title := some reminder.summary
          notes := if optStrTruthy reminder.description then
            reminder.description else none
          due := match reminder.due with
            | some d => some (d ++ "Z")
            | none => none
          status := some (if reminder.completed then "completed"
            else "needsAction") } with ⟨e, st1, ops1⟩
    have hp := updateTaskOp_parts env st mx.gmail_task_list_id
      mx.gmail_task_id
      { title := some reminder.summary
        notes := if optStrTruthy reminder.description then
          reminder.description else none
        due := match reminder.due with
          | some d => some (d ++ "Z")
          | none => none
        status := some (if reminder.completed then "completed"
          else "needsAction") }
    rw [hcall] at hp
    have h2 : st1.mappings = st.mappings := hp.2.1
    cases e with
    | ok v =>
      have hF : (sync_icloud_reminder_to_gmail env st reminder cal tl).1 =
            some mx.gmail_task_id ∧
          (sync_icloud_reminder_to_gmail env st reminder cal tl).2.1.mappings =
            updateFirstByGid st1.mappings mx.gmail_task_id
              (fun mm => { mm with title := reminder.summary }) := by
        constructor <;> simp [sync_icloud_reminder_to_gmail, hM, hcall]
      refine ⟨?_, ?_⟩
      · rw [hF.2]
        refine mem_updateFirstByGid_ne st1.mappings mx.gmail_task_id _ m
          ?_ (fun h => hgne h.symm)
        rw [h2]
        exact hm
      · intro g hg
        rw [hF.1] at hg
        have hg2 : mx.gmail_task_id = g := by injection hg
        rw [← hg2]
        exact hgne
    | error err =>
      have hF : (sync_icloud_reminder_to_gmail env st reminder cal tl).1 =
            some mx.gmail_task_id ∧
          (sync_icloud_reminder_to_gmail env st reminder cal tl).2.1.mappings =
            st1.mappings := by
        constructor <;> simp [sync_icloud_reminder_to_gmail, hM, hcall]
      refine ⟨?_, ?_⟩
      · rw [hF.2, h2]
        exact hm
      · intro g hg
        rw [hF.1] at hg
        have hg2 : mx.gmail_task_id = g := by injection hg
        rw [← hg2]
        exact hgne

/-- The gmail-task loop leaves a mapping row and its linked reminder
untouched when no processed task carries that row's gmail id. -/
theorem gmailTaskLoop_preserves (env : Env) (tl cal : String)
    (mapped : List Nat) :
    ∀ (ts : List GTask) (st : St) (m : TaskMapping) (r : Rem),
    m ∈ st.mappings → r ∈ st.rems →
    m.icloud_reminder_uid = some r.id → st.wf →
    (∀ x ∈ ts, x.id < st.nextTaskId) →
    (∀ x ∈ ts, x.id ≠ m.gmail_task_id) →
    m ∈ (gmailTaskLoop env tl cal mapped ts st).1.mappings ∧
    r ∈ (gmailTaskLoop env tl cal mapped ts st).1.rems := by
  intro ts
  induction ts with
  | nil => intro st m r hm hr _ _ _ _; exact ⟨hm, hr⟩
  | cons t ts ih =>
    intro st m r hm hr hmu hwf hb hne
    by_cases hskip : (mapped.contains t.id) = true
    · have hmem := nat_mem_of_contains hskip
      rw [show gmailTaskLoop env tl cal mapped (t :: ts) st =
        gmailTaskLoop env tl cal mapped ts st by simp [gmailTaskLoop, hmem]]
      exact ih st m r hm hr hmu hwf
        (fun x hx => hb x (List.mem_cons_of_mem t hx))
        (fun x hx => hne x (List.mem_cons_of_mem t hx))
    · have hnmem : t.id ∉ mapped := fun hc =>
        absurd (nat_contains_of_mem hc) hskip
      rcases hH : sync_gmail_task_to_icloud env st t tl cal
        with ⟨g?, st1, ops1⟩
      have hpres := sync_gmail_task_to_icloud_preserves env st t tl cal m r
        hm hr hmu hwf (hne t (List.mem_cons_self t ts))
      rw [hH] at hpres
      have hm1 : m ∈ st1.mappings := hpres.1
      have hr1 : r ∈ st1.rems := hpres.2
      have hparts := sync_gmail_task_to_icloud_parts env st t tl cal
      rw [hH] at hparts
      have p2 : st1.nextTaskId = st.nextTaskId := hparts.2.1
      have hwf1 : st1.wf := by
        have := sync_gmail_task_to_icloud_wf env st t tl cal
          (hb t (List.mem_cons_self t ts)) hwf
        rw [hH] at this
        exact this
      have hret := sync_gmail_task_to_icloud_ret env st t tl cal
      rw [hH] at hret
      cases g? with
      | some gid =>
        have hgid : gid = t.id := by
          rcases hret with h | h
          · exact absurd (show (some gid : Option Nat) = none from h)
              (by simp)
          · have h2 : (some gid : Option Nat) = some t.id := h
            injection h2
        have hstep : gmailTaskLoop env tl cal mapped (t :: ts) st =
            (match gmailTaskLoop env tl cal mapped ts
                { st1 with mappings := (updateFirstByGid st1.mappings gid
                  (fun mm => { mm with
                    last_known_completed := taskCompleted t })) } with
              | (st3, ops2, c) => (st3, ops1 ++ ops2, c + 1)) := by
          simp [gmailTaskLoop, hnmem, hH]
        rcases hrec : gmailTaskLoop env tl cal mapped ts
            { st1 with mappings := (updateFirstByGid st1.mappings gid
              (fun mm => { mm with
                last_known_completed := taskCompleted t })) }
          with ⟨st3, ops2, c⟩
        rw [hrec] at hstep
        rw [hstep]
        have hm2 : m ∈ updateFirstByGid st1.mappings gid
            (fun mm => { mm with last_known_completed := taskCompleted t }) :=
          mem_updateFirstByGid_ne st1.mappings gid _ m hm1
            (fun h => hne t (List.mem_cons_self t ts) (hgid ▸ h.symm))
        have hwf2 : ({ st1 with mappings := (updateFirstByGid st1.mappings
            gid (fun mm => { mm with
              last_known_completed := taskCompleted t })) } : St).wf :=
          wf_of_parts hwf1 rfl rfl rfl rfl
            (gids_updateFirstByGid st1.mappings gid
              (fun mm => { mm with last_known_completed := taskCompleted t })
              (fun mm => rfl))
            (uids_updateFirstByGid st1.mappings gid
              (fun mm => { mm with last_known_completed := taskCompleted t })
              (fun mm => rfl))
        have ihr := ih
          { st1 with mappings := (updateFirstByGid st1.mappings gid
            (fun mm => { mm with last_known_completed := taskCompleted t })) }
          m r hm2 hr1 hmu hwf2
          (fun x hx => (show x.id < st1.nextTaskId by
            rw [p2]; exact hb x (List.mem_cons_of_mem t hx)))
          (fun x hx => hne x (List.mem_cons_of_mem t hx))
        rw [hrec] at ihr
        exact ihr
      | none =>
        have hstep : gmailTaskLoop env tl cal mapped (t :: ts) st =
            (match gmailTaskLoop env tl cal mapped ts st1 with
              | (st3, ops2, c) => (st3, ops1 ++ ops2, c)) := by
          simp [gmailTaskLoop, hnmem, hH]
        rcases hrec : gmailTaskLoop env tl cal mapped ts st1
          with ⟨st3, ops2, c⟩
        rw [hrec] at hstep
        rw [hstep]
        have ihr := ih st1 m r hm1 hr1 hmu hwf1
          (fun x hx => (show x.id < st1.nextTaskId by
            rw [p2]; exact hb x (List.mem_cons_of_mem t hx)))
          (fun x hx => hne x (List.mem_cons_of_mem t hx))
        rw [hrec] at ihr
        exact ihr

/-- The iCloud-reminder loop leaves a mapping row untouched when no
processed reminder carries that row's uid. -/
theorem icloudRemLoop_preserves (env : Env) (cal tl : String)
    (mapped : List Nat) :
    ∀ (rs : List Rem) (st : St) (m : TaskMapping),
    m ∈ st.mappings → st.wf →
    (∀ x ∈ rs, x.id < st.nextRemId) →
    (∀ x ∈ rs, m.icloud_reminder_uid ≠ some x.id) →
    m.gmail_task_id < st.nextTaskId →
    m ∈ (icloudRemLoop env cal tl mapped rs st).1.mappings := by
  intro rs
  induction rs with
  | nil => intro st m hm _ _ _ _; exact hm
  | cons x rs ih =>
    intro st m hm hwf hb hne hgb
    by_cases hskip : (mapped.contains x.id) = true
    · have hmem := nat_mem_of_contains hskip
      rw [show icloudRemLoop env cal tl mapped (x :: rs) st =
        icloudRemLoop env cal tl mapped rs st by simp [icloudRemLoop, hmem]]
      exact ih st m hm hwf (fun y hy => hb y (List.mem_cons_of_mem x hy))
        (fun y hy => hne y (List.mem_cons_of_mem x hy)) hgb
    · have hnmem : x.id ∉ mapped := fun hc =>
        absurd (nat_contains_of_mem hc) hskip
      rcases hH : sync_icloud_reminder_to_gmail env st x cal tl
        with ⟨g?, st1, ops1⟩
      have hpres := sync_icloud_reminder_to_gmail_preserves env st x cal tl
        m hm hwf (hne x (List.mem_cons_self x rs)) hgb
      rw [hH] at hpres
      have hm1 : m ∈ st1.mappings := hpres.1
      have hparts := sync_icloud_reminder_to_gmail_parts env st x cal tl
      rw [hH] at hparts
      have p2 : st1.nextRemId = st.nextRemId := hparts.2.1
      have p6 : st.nextTaskId ≤ st1.nextTaskId := hparts.2.2.2.2.2.1
      have hwf1 : st1.wf := by
        have := sync_icloud_reminder_to_gmail_wf env st x cal tl
          (hb x (List.mem_cons_self x rs)) hwf
        rw [hH] at this
        exact this
      cases g? with
      | some gid =>
        have hgne : gid ≠ m.gmail_task_id :=
          hpres.2 gid rfl
        have hstep : icloudRemLoop env cal tl mapped (x :: rs) st =
            (match icloudRemLoop env cal tl mapped rs
                { st1 with mappings := (updateFirstByGid st1.mappings gid
                  (fun mm => { mm with
                    last_known_completed := x.completed })) } with
              | (st3, ops2, c) => (st3, ops1 ++ ops2, c + 1)) := by
          simp [icloudRemLoop, hnmem, hH]
        rcases hrec : icloudRemLoop env cal tl mapped rs
            { st1 with mappings := (updateFirstByGid st1.mappings gid
              (fun mm => { mm with
                last_known_completed := x.completed })) }
          with ⟨st3, ops2, c⟩
        rw [hrec] at hstep
        rw [hstep]
        have hm2 : m ∈ updateFirstByGid st1.mappings gid
            (fun mm => { mm with last_known_completed := x.completed }) :=
          mem_updateFirstByGid_ne st1.mappings gid _ m hm1
            (fun h => hgne h.symm)
        have hwf2 : ({ st1 with mappings := (updateFirstByGid st1.mappings
            gid (fun mm => { mm with
              last_known_completed := x.completed })) } : St).wf :=
          wf_of_parts hwf1 rfl rfl rfl rfl
            (gids_updateFirstByGid st1.mappings gid
              (fun mm => { mm with last_known_completed := x.completed })
              (fun mm => rfl))
            (uids_updateFirstByGid st1.mappings gid
              (fun mm => { mm with last_known_completed := x.completed })
              (fun mm => rfl))
        have ihr := ih
          { st1 with mappings := (updateFirstByGid st1.mappings gid
            (fun mm => { mm with last_known_completed := x.completed })) }
          m hm2 hwf2
          (fun y hy => (show y.id < st1.nextRemId by
            rw [p2]; exact hb y (List.mem_cons_of_mem x hy)))
          (fun y hy => hne y (List.mem_cons_of_mem x hy))
          (Nat.lt_of_lt_of_le hgb p6)
        rw [hrec] at ihr
        exact ihr
      | none =>
        have hstep : icloudRemLoop env cal tl mapped (x :: rs) st =
            (match icloudRemLoop env cal tl mapped rs st1 with
              | (st3, ops2, c) => (st3, ops1 ++ ops2, c)) := by
          simp [icloudRemLoop, hnmem, hH]
        rcases hrec : icloudRemLoop env cal tl mapped rs st1
          with ⟨st3, ops2, c⟩
        rw [hrec] at hstep
        rw [hstep]
        have ihr := ih st1 m hm1 hwf1
          (fun y hy => (show y.id < st1.nextRemId by
            rw [p2]; exact hb y (List.mem_cons_of_mem x hy)))
          (fun y hy => hne y (List.mem_cons_of_mem x hy))
          (Nat.lt_of_lt_of_le hgb p6)
        rw [hrec] at ihr
        exact ihr

/-- The gmail-task loop, on an unmapped task, appends a fresh mapping row
whose baseline is seeded from the task's completion, linked to a fresh
reminder created uncompleted — and both survive to the end of the loop. -/
theorem gmailTaskLoop_creates_row (env : Env) (tl cal : String)
    (mapped : List Nat)
    (hcr : ∀ s, env.failCreateReminder s = false) :
    ∀ (ts : List GTask) (st : St) (t : GTask),
    t ∈ ts → t.id ∉ mapped → t.id ∉ gids st.mappings →
    (taskIds ts).Nodup → st.wf → (∀ x ∈ ts, x.id < st.nextTaskId) →
    ∃ rid, st.nextRemId ≤ rid ∧
      (TaskMapping.mk t.id tl (some rid) (some cal)
        (t.title.getD "Untitled Task") (taskCompleted t)) ∈
        (gmailTaskLoop env tl cal mapped ts st).1.mappings ∧
      (Rem.mk rid (t.title.getD "Untitled Task")
        (if (t.notes.getD "") != "" then some (t.notes.getD "") else none)
        t.due false) ∈ (gmailTaskLoop env tl cal mapped ts st).1.rems := by
  intro ts
  induction ts with
  | nil => intro st t ht; cases ht
  | cons a ts ih =>
    intro st t ht hnm hng hnd hwf hb
    have hnd' : (a.id :: taskIds ts).Nodup := hnd
    have hna : a.id ∉ taskIds ts := (List.nodup_cons.mp hnd').1
    have hndt : (taskIds ts).Nodup := (List.nodup_cons.mp hnd').2
    rcases List.mem_cons.mp ht with hta | hta
    · subst hta
      have hM : st.mappings.find?
          (fun mm => mm.gmail_task_id == t.id) = none :=
        find?_gid_none_of_not_mem st.mappings t.id hng
      have hH : sync_gmail_task_to_icloud env st t tl cal =
          (some t.id,
            { st with
              rems := (st.rems ++ [Rem.mk st.nextRemId
                (t.title.getD "Untitled Task")
                (if (t.notes.getD "") != "" then some (t.notes.getD "")
                  else none) t.due false])
              nextRemId := st.nextRemId + 1
              mappings := (st.mappings ++ [TaskMapping.mk t.id tl
                (some st.nextRemId) (some cal)
                (t.title.getD "Untitled Task") false]) },
            [Op.createRem cal (t.title.getD "Untitled Task")
              (t.notes.getD "") t.due]) := by
        simp [sync_gmail_task_to_icloud, hM,
          createReminderOp_okEq env st cal _ _ _ (hcr _)]
      have hupd : updateFirstByGid (st.mappings ++ [TaskMapping.mk t.id tl
          (some st.nextRemId) (some cal) (t.title.getD "Untitled Task")
          false]) t.id
          (fun mm => { mm with last_known_completed := taskCompleted t }) =
          st.mappings ++ [TaskMapping.mk t.id tl (some st.nextRemId)
            (some cal) (t.title.getD "Untitled Task") (taskCompleted t)] :=
        updateFirstByGid_append_last st.mappings _ t.id _ hng rfl
      have hstep : gmailTaskLoop env tl cal mapped (t :: ts) st =
          (match gmailTaskLoop env tl cal mapped ts
              { st with
                rems := (st.rems ++ [Rem.mk st.nextRemId
                  (t.title.getD "Untitled Task")
                  (if (t.notes.getD "") != "" then some (t.notes.getD "")
                    else none) t.due false])
                nextRemId := st.nextRemId + 1
                mappings := (st.mappings ++ [TaskMapping.mk t.id tl
                  (some st.nextRemId) (some cal)
                  (t.title.getD "Untitled Task") (taskCompleted t)]) } with
            | (st3, ops2, c) =>
              (st3, [Op.createRem cal (t.title.getD "Untitled Task")
                (t.notes.getD "") t.due] ++ ops2, c + 1)) := by
        simp [gmailTaskLoop, hnm, hH, hupd]
      rcases hrec : gmailTaskLoop env tl cal mapped ts
          { st with
            rems := (st.rems ++ [Rem.mk st.nextRemId
              (t.title.getD "Untitled Task")
              (if (t.notes.getD "") != "" then some (t.notes.getD "")
                else none) t.due false])
            nextRemId := st.nextRemId + 1
            mappings := (st.mappings ++ [TaskMapping.mk t.id tl
              (some st.nextRemId) (some cal)
              (t.title.getD "Untitled Task") (taskCompleted t)]) }
        with ⟨st3, ops2, c⟩
      rw [hrec] at hstep
      rw [hstep]
      obtain ⟨w1, w2, w3, w4, w5, w6, w7, w8⟩ := hwf
      have hwf2 : ({ st with
          rems := (st.rems ++ [Rem.mk st.nextRemId
            (t.title.getD "Untitled Task")
            (if (t.notes.getD "") != "" then some (t.notes.getD "")
              else none) t.due false])
          nextRemId := st.nextRemId + 1
          mappings := (st.mappings ++ [TaskMapping.mk t.id tl
            (some st.nextRemId) (some cal)
            (t.title.getD "Untitled Task") (taskCompleted t)]) } : St).wf := by
        refine ⟨w1, w2, ?_, ?_, ?_, ?_, ?_, ?_⟩
        · rw [remIds_append]
          exact nodup_snoc w3 (not_mem_of_bound w4)
        · rw [remIds_append]
          exact forall_mem_snoc (fun i hi => Nat.lt_succ_of_lt (w4 i hi))
            (Nat.lt_succ_self _)
        · rw [gids_append]
          exact nodup_snoc w5 hng
        · rw [gids_append]
          exact forall_mem_snoc w6 (hb t (List.mem_cons_self t ts))
        · rw [uids_append]
          exact nodup_snoc w7 (not_mem_of_bound w8)
        · rw [uids_append]
          exact forall_mem_snoc (fun i hi => Nat.lt_succ_of_lt (w8 i hi))
            (Nat.lt_succ_self _)
      have hpres := gmailTaskLoop_preserves env tl cal mapped ts
        { st with
          rems := (st.rems ++ [Rem.mk st.nextRemId
            (t.title.getD "Untitled Task")
            (if (t.notes.getD "") != "" then some (t.notes.getD "")
              else none) t.due false])
          nextRemId := st.nextRemId + 1
          mappings := (st.mappings ++ [TaskMapping.mk t.id tl
            (some st.nextRemId) (some cal)
            (t.title.getD "Untitled Task") (taskCompleted t)]) }
        (TaskMapping.mk t.id tl (some st.nextRemId) (some cal)
          (t.title.getD "Untitled Task") (taskCompleted t))
        (Rem.mk st.nextRemId (t.title.getD "Untitled Task")
          (if (t.notes.getD "") != "" then some (t.notes.getD "") else none)
          t.due false)
        (List.mem_append_right _ (List.mem_singleton_self _))
        (List.mem_append_right _ (List.mem_singleton_self _))
        rfl hwf2
        (fun x hx => hb x (List.mem_cons_of_mem t hx))
        (fun x hx h => hna ((show x.id = t.id from h) ▸
          List.mem_map_of_mem (fun y => y.id) hx))
      rw [hrec] at hpres
      exact ⟨st.nextRemId, Nat.le_refl _, hpres.1, hpres.2⟩
    · have htne : t.id ≠ a.id := fun h =>
        hna (h ▸ List.mem_map_of_mem (fun y => y.id) hta)
      by_cases hskip : (mapped.contains a.id) = true
      · have hmem := nat_mem_of_contains hskip
        rw [show gmailTaskLoop env tl cal mapped (a :: ts) st =
          gmailTaskLoop env tl cal mapped ts st by
          simp [gmailTaskLoop, hmem]]
        exact ih st t hta hnm hng hndt hwf
          (fun x hx => hb x (List.mem_cons_of_mem a hx))
      · have hnmem : a.id ∉ mapped := fun hc =>
          absurd (nat_contains_of_mem hc) hskip
        rcases hH : sync_gmail_task_to_icloud env st a tl cal
          with ⟨g?, st1, ops1⟩
        have hparts := sync_gmail_task_to_icloud_parts env st a tl cal
        rw [hH] at hparts
        have p2 : st1.nextTaskId = st.nextTaskId := hparts.2.1
        have p6 : st.nextRemId ≤ st1.nextRemId := hparts.2.2.2.2.2.1
        have hsub := sync_gmail_task_to_icloud_gids_sub env st a tl cal
        rw [hH] at hsub
        have hng1 : t.id ∉ gids st1.mappings := fun hc => by
          rcases hsub t.id hc with h | h
          · exact hng h
          · exact htne h
        have hwf1 : st1.wf := by
          have := sync_gmail_task_to_icloud_wf env st a tl cal
            (hb a (List.mem_cons_self a ts)) hwf
          rw [hH] at this
          exact this
        cases g? with
        | some gid =>
          have hstep : gmailTaskLoop env tl cal mapped (a :: ts) st =
              (match gmailTaskLoop env tl cal mapped ts
                  { st1 with mappings := (updateFirstByGid st1.mappings gid
                    (fun mm => { mm with
                      last_known_completed := taskCompleted a })) } with
                | (st3, ops2, c) => (st3, ops1 ++ ops2, c + 1)) := by
            simp [gmailTaskLoop, hnmem, hH]
          rcases hrec : gmailTaskLoop env tl cal mapped ts
              { st1 with mappings := (updateFirstByGid st1.mappings gid
                (fun mm => { mm with
                  last_known_completed := taskCompleted a })) }
            with ⟨st3, ops2, c⟩
          rw [hrec] at hstep
          rw [hstep]
          have hng2 : t.id ∉ gids (updateFirstByGid st1.mappings gid
              (fun mm => { mm with
                last_known_completed := taskCompleted a })) := by
            rw [gids_updateFirstByGid st1.mappings gid
              (fun mm => { mm with last_known_completed := taskCompleted a })
              (fun mm => rfl)]
            exact hng1
          have hwf2 : ({ st1 with mappings := (updateFirstByGid st1.mappings
              gid (fun mm => { mm with
                last_known_completed := taskCompleted a })) } : St).wf :=
            wf_of_parts hwf1 rfl rfl rfl rfl
              (gids_updateFirstByGid st1.mappings gid
                (fun mm => { mm with
                  last_known_completed := taskCompleted a })
                (fun mm => rfl))
              (uids_updateFirstByGid st1.mappings gid
                (fun mm => { mm with
                  last_known_completed := taskCompleted a })
                (fun mm => rfl))
          have ihr := ih
            { st1 with mappings := (updateFirstByGid st1.mappings gid
              (fun mm => { mm with
                last_known_completed := taskCompleted a })) }
            t hta hnm hng2 hndt hwf2
            (fun x hx => (show x.id < st1.nextTaskId by
              rw [p2]; exact hb x (List.mem_cons_of_mem a hx)))
          rw [hrec] at ihr
          obtain ⟨rid, hle, hmem1, hmem2⟩ := ihr
          exact ⟨rid, Nat.le_trans p6 hle, hmem1, hmem2⟩
        | none =>
          have hstep : gmailTaskLoop env tl cal mapped (a :: ts) st =
              (match gmailTaskLoop env tl cal mapped ts st1 with
                | (st3, ops2, c) => (st3, ops1 ++ ops2, c)) := by
            simp [gmailTaskLoop, hnmem, hH]
          rcases hrec : gmailTaskLoop env tl cal mapped ts st1
            with ⟨st3, ops2, c⟩
          rw [hrec] at hstep
          rw [hstep]
          have ihr := ih st1 t hta hnm hng1 hndt hwf1
            (fun x hx => (show x.id < st1.nextTaskId by
              rw [p2]; exact hb x (List.mem_cons_of_mem a hx)))
          rw [hrec] at ihr
          obtain ⟨rid, hle, hmem1, hmem2⟩ := ihr
          exact ⟨rid, Nat.le_trans p6 hle, hmem1, hmem2⟩

/-- C5 (amended): a remote (gmail) task with completed=true and no prior
mapping row is, by a bidirectional run under an honest environment,
given a local counterpart and a fresh mapping row whose
lastKnownCompleted is seeded true — but the created local reminder
itself reads completed=false, because create_reminder never sets
completion (see counterexample). -/
theorem new_item_seeds_baseline (env : Env) (st : St) (task : GTask)
    (hhon : env.honest) (hwf : st.wf)
    (hcal : optStrTruthy st.settingCalendar = true)
    (hmem : task ∈ gmailFiltered st)
    (hunmapped : task.id ∉ gids st.mappings)
    (hcomp : taskCompleted task = true) :
    ∃ rid,
      (TaskMapping.mk task.id (st.settingTaskList.getD "@default")
        (some rid) (some (st.settingCalendar.getD ""))
        (task.title.getD "Untitled Task") true) ∈
        (run_sync env st (some SyncDirection.bidirectional)).2.1.mappings ∧
      (Rem.mk rid (task.title.getD "Untitled Task")
        (if (task.notes.getD "") != "" then some (task.notes.getD "")
          else none) task.due false) ∈
        (run_sync env st (some SyncDirection.bidirectional)).2.1.rems := by
  obtain ⟨hg, hi, hcr, hur, hct, hut⟩ := hhon
  have hrs : (run_sync env st (some SyncDirection.bidirectional)).2.1 =
      (run_core env st SyncDirection.bidirectional
        (st.settingTaskList.getD "@default") st.settingCalendar).1 :=
    (finalizeLog_state SyncDirection.bidirectional
      (run_core env st SyncDirection.bidirectional
        (st.settingTaskList.getD "@default") st.settingCalendar)).1
  rcases hpa : phaseA env (gmailFiltered st) (icloudFiltered st)
    st.mappings st with ⟨rows, st1, ops1, c1, err1⟩
  have herr := phaseA_no_error env (gmailFiltered st) (icloudFiltered st)
    hur hut st.mappings st (gmailFiltered_present st)
    (icloudFiltered_present st)
  rw [hpa] at herr
  have herr2 : err1 = none := herr
  subst herr2
  have hred := run_core_bidi_eq_ok env st
    (st.settingTaskList.getD "@default") st.settingCalendar hg hi hcal
    rows st1 ops1 c1 hpa
  have hpp := phaseA_parts env (gmailFiltered st) (icloudFiltered st)
    st.mappings st
  rw [hpa] at hpp
  have p1 : gids rows = gids st.mappings := hpp.1
  have p2u : uids rows = uids st.mappings := hpp.2.1
  have p4 : st1.nextTaskId = st.nextTaskId := hpp.2.2.2.1
  have p5 : st1.nextRemId = st.nextRemId := hpp.2.2.2.2.1
  have p9 : taskIds st1.tasks = taskIds st.tasks := hpp.2.2.2.2.2.2.2.2.1
  have p10 : remIds st1.rems = remIds st.rems := hpp.2.2.2.2.2.2.2.2.2
  have hwfA : ({ st1 with mappings := rows } : St).wf :=
    wf_of_parts hwf p9 p4 p10 p5 (by simpa using p1) (by simpa using p2u)
  have hndF : (taskIds (gmailFiltered st)).Nodup := by
    have hsub : List.Sublist
        ((List.filter (fun x => optStrTruthy x.title)
          st.tasks).map (fun y => y.id))
        (st.tasks.map (fun y => y.id)) :=
      List.Sublist.map (fun y => y.id) (List.filter_sublist st.tasks)
    exact List.Nodup.sublist
      (show (taskIds (gmailFiltered st)).Sublist (taskIds st.tasks)
        from hsub) hwf.1
  have hboundF : ∀ x ∈ gmailFiltered st,
      x.id < ({ st1 with mappings := rows } : St).nextTaskId := by
    intro x hx
    show x.id < st1.nextTaskId
    rw [p4]
    exact gmailFiltered_bound st hwf x hx
  have hngA : task.id ∉ gids ({ st1 with mappings := rows } : St).mappings := by
    show task.id ∉ gids rows
    rw [p1]
    exact hunmapped
  have hcreate := gmailTaskLoop_creates_row env
    (st.settingTaskList.getD "@default") (st.settingCalendar.getD "")
    (st.mappings.map (fun m => m.gmail_task_id)) hcr
    (gmailFiltered st) { st1 with mappings := rows } task hmem
    (show task.id ∉ st.mappings.map (fun m => m.gmail_task_id)
      from hunmapped)
    hngA hndF hwfA hboundF
  obtain ⟨rid, hle, hmem1, hmem2⟩ := hcreate
  rw [hcomp] at hmem1
  have hle' : st.nextRemId ≤ rid := by
    rw [← p5]
    exact hle
  have hgt := gmailTaskLoop_track env (st.settingTaskList.getD "@default")
    (st.settingCalendar.getD "") (st.mappings.map (fun m => m.gmail_task_id))
    (gmailFiltered st) { st1 with mappings := rows }
  have hwfL : (gmailTaskLoop env (st.settingTaskList.getD "@default")
      (st.settingCalendar.getD "")
      (st.mappings.map (fun m => m.gmail_task_id)) (gmailFiltered st)
      { st1 with mappings := rows }).1.wf :=
    hgt.2.2.2.2.2.2.2.1 hboundF hwfA
  have hL2 : (gmailTaskLoop env (st.settingTaskList.getD "@default")
      (st.settingCalendar.getD "")
      (st.mappings.map (fun m => m.gmail_task_id)) (gmailFiltered st)
      { st1 with mappings := rows }).1.nextTaskId = st.nextTaskId := by
    rw [hgt.2.1]
    exact p4
  have hL6 : st1.nextRemId ≤ (gmailTaskLoop env
      (st.settingTaskList.getD "@default") (st.settingCalendar.getD "")
      (st.mappings.map (fun m => m.gmail_task_id)) (gmailFiltered st)
      { st1 with mappings := rows }).1.nextRemId := hgt.2.2.2.2.2.1
  have hit := icloudRemLoop_track env (st.settingCalendar.getD "")
    (st.settingTaskList.getD "@default")
    (st.mappings.filterMap (fun m => m.icloud_reminder_uid))
    (icloudFiltered st)
    (gmailTaskLoop env (st.settingTaskList.getD "@default")
      (st.settingCalendar.getD "")
      (st.mappings.map (fun m => m.gmail_task_id)) (gmailFiltered st)
      { st1 with mappings := rows }).1
  have hpresI := icloudRemLoop_preserves env (st.settingCalendar.getD "")
    (st.settingTaskList.getD "@default")
    (st.mappings.filterMap (fun m => m.icloud_reminder_uid))
    (icloudFiltered st)
    (gmailTaskLoop env (st.settingTaskList.getD "@default")
      (st.settingCalendar.getD "")
      (st.mappings.map (fun m => m.gmail_task_id)) (gmailFiltered st)
      { st1 with mappings := rows }).1
    (TaskMapping.mk task.id (st.settingTaskList.getD "@default")
      (some rid) (some (st.settingCalendar.getD ""))
      (task.title.getD "Untitled Task") true)
    hmem1 hwfL
    (by
      intro x hx
      have h1 : x.id < st.nextRemId := icloudFiltered_bound st hwf x hx
      have h2 : st.nextRemId ≤ (gmailTaskLoop env
          (st.settingTaskList.getD "@default") (st.settingCalendar.getD "")
          (st.mappings.map (fun m => m.gmail_task_id)) (gmailFiltered st)
          { st1 with mappings := rows }).1.nextRemId := by
        rw [← p5]
        exact hL6
      exact Nat.lt_of_lt_of_le h1 h2)
    (by
      intro x hx h
      have h2 : rid = x.id := by injection h
      have h3 : x.id < rid :=
        Nat.lt_of_lt_of_le (icloudFiltered_bound st hwf x hx) hle'
      exact absurd h2.symm (Nat.ne_of_lt h3))
    (by
      show task.id < (gmailTaskLoop env
        (st.settingTaskList.getD "@default") (st.settingCalendar.getD "")
        (st.mappings.map (fun m => m.gmail_task_id)) (gmailFiltered st)
        { st1 with mappings := rows }).1.nextTaskId
      rw [hL2]
      exact gmailFiltered_bound st hwf task hmem)
  have hremF : (Rem.mk rid (task.title.getD "Untitled Task")
      (if (task.notes.getD "") != "" then some (task.notes.getD "")
        else none) task.due false) ∈
      (icloudRemLoop env (st.settingCalendar.getD "")
        (st.settingTaskList.getD "@default")
        (st.mappings.filterMap (fun m => m.icloud_reminder_uid))
        (icloudFiltered st)
        (gmailTaskLoop env (st.settingTaskList.getD "@default")
          (st.settingCalendar.getD "")
          (st.mappings.map (fun m => m.gmail_task_id)) (gmailFiltered st)
          { st1 with mappings := rows }).1).1.rems := by
    rw [hit.1]
    exact hmem2
  refine ⟨rid, ?_, ?_⟩
  · rw [hrs, hred]
    exact hpresI
  · rw [hrs, hred]
    exact hremF

/-- Concrete fixture for the new-item case: one completed, unmapped
remote task and an empty local store. -/
def taskC5 : GTask :=
  { id := 0, title := some "T", notes := none, due := none,
    status := some "completed" }

def stC5 : St :=
  { tasks := [taskC5], rems := [], mappings := [],
    nextTaskId := 1, nextRemId := 0, settingDirection := none,
    settingTaskList := none, settingCalendar := some "cal" }

theorem new_item_seeds_baseline_witness :
    envH.honest ∧ stC5.wf ∧
    optStrTruthy stC5.settingCalendar = true ∧
    taskC5 ∈ gmailFiltered stC5 ∧
    taskC5.id ∉ gids stC5.mappings ∧
    taskCompleted taskC5 = true ∧
    (∃ rid,
      (TaskMapping.mk taskC5.id (stC5.settingTaskList.getD "@default")
        (some rid) (some (stC5.settingCalendar.getD ""))
        (taskC5.title.getD "Untitled Task") true) ∈
        (run_sync envH stC5 (some SyncDirection.bidirectional)).2.1.mappings ∧
      (Rem.mk rid (taskC5.title.getD "Untitled Task")
        (if (taskC5.notes.getD "") != "" then some (taskC5.notes.getD "")
          else none) taskC5.due false) ∈
        (run_sync envH stC5 (some SyncDirection.bidirectional)).2.1.rems) :=
  ⟨envH_honest, by unfold St.wf; decide, by decide, by decide, by decide,
    by decide,
    new_item_seeds_baseline envH stC5 taskC5 envH_honest
      (by unfold St.wf; decide) (by decide) (by decide) (by decide)
      (by decide)⟩

end GmailICloudSync
